import Mathlib

/-!
# Money movement engine (gomicro/money_movement)

A shallow embedding of `internal/implementation/money_movement.go` and
`internal/producer/producer.go`.

* The relational store is three tables held as lists of rows in storage order.
  `QueryRow(..).Scan(..)` reads the first matching row, `UPDATE .. WHERE id=?`
  rewrites every row whose id matches, `INSERT` appends a row.
* A database transaction works on its own view of the store; only a successful
  `Commit` installs that view. `Rollback` and `Commit` on a transaction that is
  already finished report `sql.ErrTxDone`, as `database/sql` does.
* Every database statement can fail. The failures are supplied by the caller of
  the model as an explicit environment (one optional driver message per
  statement), so that each error path of the source can be exercised.
* `int64` values are integers; the two arithmetic expressions of `transfer`
  are reduced with `wrap64`, which is the two-complement wrap of Go.
-/

namespace mm

/-! ## Status codes and errors -/

/-- The gRPC status codes used by the service. -/
inductive Code where
  | InvalidArgument
  | NotFound
  | Aborted
  | Internal
deriving DecidableEq, Repr

/-- A gRPC status error as built by `status.Error(code, msg)`. -/
structure Status where
  code : Code
  msg : String
deriving DecidableEq, Repr

/-- The text of `sql.ErrNoRows`. -/
def ErrNoRows : String := "sql: no rows in result set"

/-- The text of `sql.ErrTxDone`. -/
def ErrTxDone : String := "sql: transaction has already been committed or rolled back"

/-! ## Machine integers -/

/-- Two-complement wrap of an integer into the range of `int64`. -/
def wrap64 (x : Int) : Int :=
  (x + 9223372036854775808) % 18446744073709551616 - 9223372036854775808

/-- The integer is representable as an `int64`. -/
def isInt64 (x : Int) : Prop :=
  -9223372036854775808 ≤ x ∧ x ≤ 9223372036854775807

instance (x : Int) : Decidable (isInt64 x) := by
  unfold isInt64; infer_instance

/-! ## Rows -/

/-- Modelled from the spec: the declaration of the struct `wallet` is not among the
source files. Its fields are the ones `fetchWallet` scans the columns
`id, user_id, wallet_type` into; `ID` is an `int32` in the source. -/
structure wallet where
  ID : Int
  userID : String
  walletType : String
deriving DecidableEq, Repr

/-- Modelled from the spec: the declaration of the struct `account` is not among the
source files. Its fields are the ones `fetchAccount` scans the columns
`id, cents, account_type, wallet_id` into; `cents` is an `int64`. -/
structure account where
  ID : Int
  cents : Int
  accountType : String
  walletID : Int
deriving DecidableEq, Repr

/-- Modelled from the spec: the declaration of the struct `transaction` is not among
the source files. Its fields are the ones `fetchTransaction` scans the columns of
the table `transaction` into, in the order of `selectTransactionQuery`. -/
structure transaction where
  ID : Int
  pid : String
  srcUserID : String
  dstUserID : String
  srcAccountWalletID : Int
  dstAccountWalletID : Int
  srcAccountType : String
  dstAccountType : String
  finalDstMerchantWalletID : Int
  amount : Int
deriving DecidableEq, Repr

/-! ## The store and its transactions -/

/-- The relational store: the tables `wallet`, `account` and `transaction`,
each in storage order. -/
structure Store where
  wallets : List wallet
  accounts : List account
  transactions : List transaction
deriving DecidableEq, Repr

/-- An open `*sql.Tx`: the view of the store its statements read and write, and
whether it has already been committed or rolled back. -/
structure Tx where
  view : Store
  done : Bool
deriving DecidableEq, Repr

/-- The call `db.Begin()`: with no driver failure it opens a transaction whose
view is the current store. -/
def Begin (fault : Option String) (db : Store) : Except String Tx :=
  match fault with
  | some e => .error e
  | none => .ok { view := db, done := false }

/-- The call `tx.Rollback()`: returns the error, if any. A finished transaction
reports `ErrTxDone`; otherwise the transaction is marked finished before the
driver is asked to roll back. -/
def Tx.Rollback (fault : Option String) (tx : Tx) : Option String × Tx :=
  if tx.done then (some ErrTxDone, tx)
  else (fault, { tx with done := true })

/-- The call `tx.Commit()`: returns the error, if any, and the store afterwards.
A finished transaction reports `ErrTxDone`; a driver failure leaves the store as
it was; otherwise the view of the transaction becomes the store. -/
def Tx.Commit (fault : Option String) (db : Store) (tx : Tx) : Option String × Store :=
  if tx.done then (some ErrTxDone, db)
  else
    match fault with
    | some e => (some e, db)
    | none => (none, tx.view)

/-! ## Failure environments -/

/-- Driver failures of a prepared `SELECT`: of `tx.Prepare`, and of
`QueryRow(..).Scan(..)` for a reason other than an empty result. -/
structure QueryFault where
  prepare : Option String
  scan : Option String
deriving DecidableEq, Repr

/-- Driver failures of `transfer`: of `tx.Prepare` and of each of the two
`stmt.Exec` calls. -/
structure TransferFault where
  prepare : Option String
  execSrc : Option String
  execDst : Option String
deriving DecidableEq, Repr

/-- Driver failures of `createTransaction`: of `tx.Prepare` and of `stmt.Exec`. -/
structure InsertFault where
  prepare : Option String
  exec : Option String
deriving DecidableEq, Repr

/-- No failure of a `SELECT`. -/
def QueryFault.none : QueryFault := { prepare := Option.none, scan := Option.none }

/-- No failure of `transfer`. -/
def TransferFault.none : TransferFault :=
  { prepare := Option.none, execSrc := Option.none, execDst := Option.none }

/-- No failure of `createTransaction`. -/
def InsertFault.none : InsertFault := { prepare := Option.none, exec := Option.none }

/-! ## Statements -/

/-- The function `fetchWallet`: the first wallet row with the given `user_id`. -/
def fetchWallet (f : QueryFault) (tx : Tx) (userID : String) : Except Status wallet :=
  match f.prepare with
  | some e => .error ⟨.Internal, e⟩
  | none =>
    match f.scan with
    | some e => .error ⟨.Internal, e⟩
    | none =>
      match tx.view.wallets.find? (fun w => w.userID == userID) with
      | none => .error ⟨.NotFound, ErrNoRows⟩
      | some w => .ok w

/-- The function `fetchWalletWithWalletID`: the first wallet row with the given `id`. -/
def fetchWalletWithWalletID (f : QueryFault) (tx : Tx) (walletID : Int) : Except Status wallet :=
  match f.prepare with
  | some e => .error ⟨.Internal, e⟩
  | none =>
    match f.scan with
    | some e => .error ⟨.Internal, e⟩
    | none =>
      match tx.view.wallets.find? (fun w => w.ID == walletID) with
      | none => .error ⟨.NotFound, ErrNoRows⟩
      | some w => .ok w

/-- The function `fetchAccount`: the first account row with the given `wallet_id`
and `account_type`. -/
def fetchAccount (f : QueryFault) (tx : Tx) (walletID : Int) (accountType : String) :
    Except Status account :=
  match f.prepare with
  | some e => .error ⟨.Internal, e⟩
  | none =>
    match f.scan with
    | some e => .error ⟨.Internal, e⟩
    | none =>
      match tx.view.accounts.find?
          (fun a => a.walletID == walletID && a.accountType == accountType) with
      | none => .error ⟨.NotFound, ErrNoRows⟩
      | some a => .ok a

/-- The statement `UPDATE account SET cents=? WHERE id=?` on a table. -/
def updateCents (accounts : List account) (cents : Int) (id : Int) : List account :=
  accounts.map (fun a => if a.ID = id then { a with cents := cents } else a)

/-- The statement `UPDATE account SET cents=? WHERE id=?` run inside a transaction. -/
def Tx.execUpdate (tx : Tx) (cents : Int) (id : Int) : Tx :=
  { tx with view := { tx.view with accounts := updateCents tx.view.accounts cents id } }

/-- The function `transfer`: returns the error, if any, and the transaction with
the writes made so far. -/
def transfer (f : TransferFault) (tx : Tx) (srcAccount dstAccount : account) (amount : Int) :
    Option Status × Tx :=
  if srcAccount.cents < amount then (some ⟨.Aborted, "not enough money"⟩, tx)
  else
    match f.prepare with
    | some e => (some ⟨.Internal, e⟩, tx)
    | none =>
      match f.execSrc with
      | some e => (some ⟨.Internal, e⟩, tx)
      | none =>
        let tx1 := tx.execUpdate (wrap64 (srcAccount.cents - amount)) srcAccount.ID
        match f.execDst with
        | some e => (some ⟨.Internal, e⟩, tx1)
        | none => (none, tx1.execUpdate (wrap64 (dstAccount.cents + amount)) dstAccount.ID)

/-- The statement `insertTransactionQuery` run inside a transaction: the row is
appended and the table assigns it the next id. -/
def Tx.execInsert (tx : Tx) (pid srcUserID dstUserID : String) (srcWalletID dstWalletID : Int)
    (srcAccountType dstAccountType : String) (finalDstMerchantWalletID amount : Int) : Tx :=
  { tx with view := { tx.view with transactions := tx.view.transactions ++
      [{ ID := (tx.view.transactions.length : Int) + 1
         pid := pid
         srcUserID := srcUserID
         dstUserID := dstUserID
         srcAccountWalletID := srcWalletID
         dstAccountWalletID := dstWalletID
         srcAccountType := srcAccountType
         dstAccountType := dstAccountType
         finalDstMerchantWalletID := finalDstMerchantWalletID
         amount := amount }] } }

/-- The function `createTransaction`: returns the error, if any, and the
transaction after the insert. -/
def createTransaction (f : InsertFault) (tx : Tx) (pid : String) (srcAccount dstAccount : account)
    (srcWallet dstWallet finalDstWallet : wallet) (amount : Int) : Option Status × Tx :=
  match f.prepare with
  | some e => (some ⟨.Internal, e⟩, tx)
  | none =>
    match f.exec with
    | some e => (some ⟨.Internal, e⟩, tx)
    | none =>
      (none, tx.execInsert pid srcWallet.userID dstWallet.userID srcWallet.ID dstWallet.ID
        srcAccount.accountType dstAccount.accountType finalDstWallet.ID amount)

/-- The function `fetchTransaction`: the first journal row with the given `pid`. -/
def fetchTransaction (f : QueryFault) (tx : Tx) (pid : String) : Except Status transaction :=
  match f.prepare with
  | some e => .error ⟨.Internal, e⟩
  | none =>
    match f.scan with
    | some e => .error ⟨.Internal, e⟩
    | none =>
      match tx.view.transactions.find? (fun t => t.pid == pid) with
      | none => .error ⟨.NotFound, ErrNoRows⟩
      | some t => .ok t

/-! ## The event emitter (`producer.go`) -/

/-- A value of a JSON object built by `json.Marshal` from the message structs. -/
inductive JsonValue where
  | str (s : String)
  | num (n : Int)
deriving DecidableEq, Repr

/-- A `sarama.ProducerMessage`: the topic and the marshalled struct, kept as the
list of its JSON fields in declaration order. -/
structure ProducerMessage where
  topic : String
  value : List (String × JsonValue)
deriving DecidableEq, Repr

/-- The constant `emailTopic`. -/
def emailTopic : String := "email"

/-- The constant `ledgeTopic`. -/
def ledgeTopic : String := "ledger"

/-- The struct `EmailMsg` with its JSON tags. -/
structure EmailMsg where
  OrderID : String
  UserID : String
deriving DecidableEq, Repr

/-- The struct `LedgerMsg` with its JSON tags. -/
structure LedgerMsg where
  OrderID : String
  UserID : String
  Amount : Int
  Operation : String
  Date : String
deriving DecidableEq, Repr

/-- The JSON object of an `EmailMsg`. -/
def EmailMsg.marshal (m : EmailMsg) : List (String × JsonValue) :=
  [("order_id", .str m.OrderID), ("user_id", .str m.UserID)]

/-- The JSON object of a `LedgerMsg`. -/
def LedgerMsg.marshal (m : LedgerMsg) : List (String × JsonValue) :=
  [("order_id", .str m.OrderID), ("user_id", .str m.UserID), ("amount", .num m.Amount),
   ("operation", .str m.Operation), ("date", .str m.Date)]

/-- The environment of `SendCaptureMessage`: the failure of `sarama.NewSyncProducer`,
if any, and the value of `time.Now().Format("2006-01-02")`. -/
structure ProducerEnv where
  newProducer : Option String
  today : String
deriving DecidableEq, Repr

/-- The function `sendMsg` for an already marshalled struct: the message handed to
`producer.SendMessage`. -/
def sendMsg (value : List (String × JsonValue)) (topic : String) : ProducerMessage :=
  { topic := topic, value := value }

/-- The function `SendCaptureMessage`: the messages handed to the producer. The two
sends run concurrently on different topics; they are listed in the order in which
the source starts them. -/
def SendCaptureMessage (env : ProducerEnv) (pid userID : String) (amount : Int) :
    List ProducerMessage :=
  match env.newProducer with
  | some _ => []
  | none =>
    let emailMsg : EmailMsg := { OrderID := pid, UserID := userID }
    let ledgerMsg : LedgerMsg :=
      { OrderID := pid, UserID := userID, Amount := amount, Operation := "DEBIT",
        Date := env.today }
    [sendMsg emailMsg.marshal emailTopic, sendMsg ledgerMsg.marshal ledgeTopic]

/-- The error with which `sarama.NewSyncProducer` refuses a configuration whose
`Producer.Return.Successes` is false. The library is not part of the repository;
this is the message of its configuration check. -/
def ErrSyncProducerConfig : String :=
  "kafka: invalid configuration (Producer.Return.Successes must be true to be used in a SyncProducer)"

/-- The environment that the call `sarama.NewSyncProducer(addrs, sarama.NewConfig())`
of `SendCaptureMessage` meets: `sarama.NewConfig()` leaves `Producer.Return.Successes`
false and the source sets nothing on the configuration, so the library refuses to
create the synchronous producer, whatever the broker. -/
def ProducerEnv.asConfigured (today : String) : ProducerEnv :=
  { newProducer := some ErrSyncProducerConfig, today := today }

/-! ## The orchestrator -/

/-- An external call made by an RPC, in the order made. -/
inductive Call where
  | Begin
  | Rollback
  | Commit
  | SendCaptureMessage (pid userID : String) (amount : Int)
deriving DecidableEq, Repr

/-- What one RPC did: the response or error, the store afterwards, the external
calls it made and the messages handed to the event bus. -/
structure Outcome (α : Type) where
  result : Except Status α
  db : Store
  calls : List Call
  sent : List ProducerMessage

/-- The message `pb.AuthorizePayload`. -/
structure AuthorizePayload where
  CustomerWalletUserID : String
  MerchantWalletUserID : String
  Cents : Int
  Currency : String
deriving DecidableEq, Repr

/-- The environment of one `Authorize` call: the driver failure, if any, of each
database statement in the order of the source, and the value of `uuid.NewString()`. -/
structure AuthorizeEnv where
  begin : Option String
  merchantWallet : QueryFault
  customerWallet : QueryFault
  srcAccount : QueryFault
  dstAccount : QueryFault
  transfer : TransferFault
  create : InsertFault
  commit : Option String
  rollback : Option String
  pid : String
deriving DecidableEq, Repr

/-- The error path shared by the steps of `Authorize` and `Capture`:
`if rollbackErr := tx.Rollback(); rollbackErr != nil` return Internal with the
rollback message, else return the error of the step. The store is left as it was. -/
def rollbackReturn {α : Type} (fault : Option String) (db : Store) (tx : Tx) (err : Status) :
    Outcome α :=
  match (tx.Rollback fault).1 with
  | some rollbackErr => ⟨.error ⟨.Internal, rollbackErr⟩, db, [.Begin, .Rollback], []⟩
  | none => ⟨.error err, db, [.Begin, .Rollback], []⟩

/-- The method `Authorize`. -/
def Authorize (env : AuthorizeEnv) (db : Store) (authorizePayload : AuthorizePayload) :
    Outcome String :=
  if authorizePayload.Currency ≠ "USD" then
    ⟨.error ⟨.InvalidArgument, "only accepts USD"⟩, db, [], []⟩
  else
    match Begin env.begin db with
    | .error e => ⟨.error ⟨.Internal, e⟩, db, [.Begin], []⟩
    | .ok tx =>
      match fetchWallet env.merchantWallet tx authorizePayload.MerchantWalletUserID with
      | .error err => rollbackReturn env.rollback db tx err
      | .ok merchantWallet =>
        match fetchWallet env.customerWallet tx authorizePayload.CustomerWalletUserID with
        | .error err => rollbackReturn env.rollback db tx err
        | .ok customerWallet =>
          match fetchAccount env.srcAccount tx customerWallet.ID "DEFAULT" with
          | .error err => rollbackReturn env.rollback db tx err
          | .ok srcAccount =>
            match fetchAccount env.dstAccount tx customerWallet.ID "PAYMENT" with
            | .error err => rollbackReturn env.rollback db tx err
            | .ok dstAccount =>
              match transfer env.transfer tx srcAccount dstAccount authorizePayload.Cents with
              | (some err, tx1) => rollbackReturn env.rollback db tx1 err
              | (none, tx1) =>
                let pid := env.pid
                match createTransaction env.create tx1 pid srcAccount dstAccount
                    customerWallet customerWallet merchantWallet authorizePayload.Cents with
                | (some err, tx2) => rollbackReturn env.rollback db tx2 err
                | (none, tx2) =>
                  match tx2.Commit env.commit db with
                  | (some e, db1) => ⟨.error ⟨.Internal, e⟩, db1, [.Begin, .Commit], []⟩
                  | (none, db1) => ⟨.ok pid, db1, [.Begin, .Commit], []⟩

/-- The environment of one `Capture` call: the driver failure, if any, of each
database statement in the order of the source, and the environment of the emitter. -/
structure CaptureEnv where
  begin : Option String
  fetchTransaction : QueryFault
  srcAccount : QueryFault
  dstMerchantAccount : QueryFault
  customerWallet : QueryFault
  merchantWallet : QueryFault
  transfer : TransferFault
  create : InsertFault
  commit : Option String
  rollback : Option String
  producer : ProducerEnv
deriving DecidableEq, Repr

/-- The end of `Capture`, from `tx.Commit()` on: a failed commit returns Internal;
after a successful one `producer.SendCaptureMessage` is called and the RPC succeeds.
The argument `calls` is the list of external calls made before. -/
def captureCommit (env : CaptureEnv) (db : Store) (tx : Tx) (calls : List Call)
    (authorizeTransaction : transaction) : Outcome Unit :=
  match tx.Commit env.commit db with
  | (some e, db1) => ⟨.error ⟨.Internal, e⟩, db1, calls ++ [.Commit], []⟩
  | (none, db1) =>
    ⟨.ok (), db1,
     calls ++ [.Commit, .SendCaptureMessage authorizeTransaction.pid
       authorizeTransaction.srcUserID authorizeTransaction.amount],
     SendCaptureMessage env.producer authorizeTransaction.pid
       authorizeTransaction.srcUserID authorizeTransaction.amount⟩

/-- The method `Capture`. When `createTransaction` fails and the rollback succeeds
the source does not return: it goes on to `tx.Commit()`. -/
def Capture (env : CaptureEnv) (db : Store) (pid : String) : Outcome Unit :=
  match Begin env.begin db with
  | .error e => ⟨.error ⟨.Internal, e⟩, db, [.Begin], []⟩
  | .ok tx =>
    match fetchTransaction env.fetchTransaction tx pid with
    | .error err => rollbackReturn env.rollback db tx err
    | .ok authorizeTransaction =>
      match fetchAccount env.srcAccount tx authorizeTransaction.dstAccountWalletID "PAYMENT" with
      | .error err => rollbackReturn env.rollback db tx err
      | .ok srcAccount =>
        match fetchAccount env.dstMerchantAccount tx
            authorizeTransaction.finalDstMerchantWalletID "INCOMING" with
        | .error err => rollbackReturn env.rollback db tx err
        | .ok dstMerchantAccount =>
          match fetchWallet env.customerWallet tx authorizeTransaction.srcUserID with
          | .error err => rollbackReturn env.rollback db tx err
          | .ok customerWallet =>
            match fetchWalletWithWalletID env.merchantWallet tx
                authorizeTransaction.finalDstMerchantWalletID with
            | .error err => rollbackReturn env.rollback db tx err
            | .ok merchantWallet =>
              match transfer env.transfer tx srcAccount dstMerchantAccount
                  authorizeTransaction.amount with
              | (some err, tx1) => rollbackReturn env.rollback db tx1 err
              | (none, tx1) =>
                match createTransaction env.create tx1 authorizeTransaction.pid srcAccount
                    dstMerchantAccount customerWallet merchantWallet merchantWallet
                    authorizeTransaction.amount with
                | (some _, tx2) =>
                  match tx2.Rollback env.rollback with
                  | (some rollbackErr, _) =>
                    ⟨.error ⟨.Internal, rollbackErr⟩, db, [.Begin, .Rollback], []⟩
                  | (none, tx3) =>
                    captureCommit env db tx3 [.Begin, .Rollback] authorizeTransaction
                | (none, tx2) => captureCommit env db tx2 [.Begin] authorizeTransaction

/-! ## Observations on the store -/

/-- The balance of the first account of the given wallet and purpose, as
`fetchAccount` would read it. -/
def Store.balance (s : Store) (walletID : Int) (accountType : String) : Option Int :=
  (s.accounts.find? (fun a => a.walletID == walletID && a.accountType == accountType)).map
    (fun a => a.cents)

/-- The wallet of a user, as `fetchWallet` would read it. -/
def Store.walletOf (s : Store) (userID : String) : Option wallet :=
  s.wallets.find? (fun w => w.userID == userID)

/-- The balance of the account of the given purpose under the wallet of a user. -/
def Store.userBalance (s : Store) (userID : String) (accountType : String) : Option Int :=
  (s.walletOf userID).bind (fun w => s.balance w.ID accountType)

/-- The sum of the balances of all accounts. -/
def Store.total (s : Store) : Int :=
  (s.accounts.map (fun a => a.cents)).sum

/-- The column `id` is a key of the table `account`: no two rows share an id. -/
def Store.accountIDsUnique (s : Store) : Prop :=
  (s.accounts.map (fun a => a.ID)).Nodup

instance (s : Store) : Decidable s.accountIDsUnique := by
  unfold Store.accountIDsUnique; infer_instance

/-- Each (wallet, purpose) pair identifies at most one account row. -/
def Store.purposesUnique (s : Store) : Prop :=
  (s.accounts.map (fun a => (a.walletID, a.accountType))).Nodup

instance (s : Store) : Decidable s.purposesUnique := by
  unfold Store.purposesUnique; infer_instance

/-- The environment of `Authorize` in which no database statement fails. -/
def AuthorizeEnv.healthy (pid : String) : AuthorizeEnv :=
  { begin := none, merchantWallet := QueryFault.none, customerWallet := QueryFault.none,
    srcAccount := QueryFault.none, dstAccount := QueryFault.none,
    transfer := TransferFault.none, create := InsertFault.none,
    commit := none, rollback := none, pid := pid }

/-- The environment of `Capture` in which no database statement fails and the
producer can be created. -/
def CaptureEnv.healthy (today : String) : CaptureEnv :=
  { begin := none, fetchTransaction := QueryFault.none, srcAccount := QueryFault.none,
    dstMerchantAccount := QueryFault.none, customerWallet := QueryFault.none,
    merchantWallet := QueryFault.none, transfer := TransferFault.none,
    create := InsertFault.none, commit := none, rollback := none,
    producer := { newProducer := none, today := today } }

deriving instance DecidableEq for Except

/-- One of the steps of `Authorize` between `Begin` and `Commit` fails with `err`,
the steps before it having succeeded: the merchant wallet lookup, the customer
wallet lookup, the fetch of the DEFAULT account, the fetch of the PAYMENT account,
the transfer, or the journal append. -/
def authorizeStepFails (env : AuthorizeEnv) (db : Store) (p : AuthorizePayload)
    (err : Status) : Prop :=
  fetchWallet env.merchantWallet ⟨db, false⟩ p.MerchantWalletUserID = .error err ∨
  ∃ merchantWallet,
    fetchWallet env.merchantWallet ⟨db, false⟩ p.MerchantWalletUserID = .ok merchantWallet ∧
    (fetchWallet env.customerWallet ⟨db, false⟩ p.CustomerWalletUserID = .error err ∨
     ∃ customerWallet,
      fetchWallet env.customerWallet ⟨db, false⟩ p.CustomerWalletUserID = .ok customerWallet ∧
      (fetchAccount env.srcAccount ⟨db, false⟩ customerWallet.ID "DEFAULT" = .error err ∨
       ∃ srcAccount,
        fetchAccount env.srcAccount ⟨db, false⟩ customerWallet.ID "DEFAULT" = .ok srcAccount ∧
        (fetchAccount env.dstAccount ⟨db, false⟩ customerWallet.ID "PAYMENT" = .error err ∨
         ∃ dstAccount,
          fetchAccount env.dstAccount ⟨db, false⟩ customerWallet.ID "PAYMENT" = .ok dstAccount ∧
          ((transfer env.transfer ⟨db, false⟩ srcAccount dstAccount p.Cents).1 = some err ∨
           ((transfer env.transfer ⟨db, false⟩ srcAccount dstAccount p.Cents).1 = none ∧
            (createTransaction env.create
              (transfer env.transfer ⟨db, false⟩ srcAccount dstAccount p.Cents).2 env.pid
              srcAccount dstAccount customerWallet customerWallet merchantWallet p.Cents).1
                = some err)))))

/-- The error is one of the three kinds the steps produce: the NotFound of a lookup
that found no row, the Aborted of a balance shortfall, or an Internal error. -/
def Status.known (e : Status) : Prop :=
  e = ⟨.NotFound, ErrNoRows⟩ ∨ e = ⟨.Aborted, "not enough money"⟩ ∨ e.code = .Internal

/-- The error mapping of a lookup, in the words of the spec: when the statement
runs and finds no row the lookup fails NotFound, and a failure of the driver,
in `Prepare` or in the scan, fails Internal with the message of the driver. -/
def LookupTaxonomy {α : Type} (lookup : QueryFault → Except Status α) (row : Option α) : Prop :=
  (∀ f, f.prepare = none → f.scan = none → row = none →
    lookup f = .error ⟨.NotFound, ErrNoRows⟩) ∧
  (∀ f m, f.prepare = some m → lookup f = .error ⟨.Internal, m⟩) ∧
  (∀ f m, f.prepare = none → f.scan = some m → lookup f = .error ⟨.Internal, m⟩)

/-- The commit of a run succeeded: `tx.Commit()` was called on a transaction that
had not been rolled back, and the driver reported no failure. -/
def commitSucceeded (commitFault : Option String) (calls : List Call) : Prop :=
  Call.Commit ∈ calls ∧ Call.Rollback ∉ calls ∧ commitFault = none

instance (commitFault : Option String) (calls : List Call) :
    Decidable (commitSucceeded commitFault calls) := by
  unfold commitSucceeded; infer_instance

/-- No database statement of a `Capture` call fails. -/
def CaptureEnv.faultless (env : CaptureEnv) : Prop :=
  env.begin = none ∧ env.fetchTransaction = QueryFault.none ∧
  env.srcAccount = QueryFault.none ∧ env.dstMerchantAccount = QueryFault.none ∧
  env.customerWallet = QueryFault.none ∧ env.merchantWallet = QueryFault.none ∧
  env.transfer = TransferFault.none ∧ env.create = InsertFault.none ∧
  env.commit = none ∧ env.rollback = none

instance (env : CaptureEnv) : Decidable env.faultless := by
  unfold CaptureEnv.faultless; infer_instance

/-- The columns of an account row that identify it: id, wallet id and account type. -/
def account.key (a : account) : Int × Int × String := (a.ID, a.walletID, a.accountType)

/-- The journal row records an authorization: DEFAULT to PAYMENT. -/
def transaction.isAuthorize (t : transaction) : Bool :=
  t.srcAccountType == "DEFAULT" && t.dstAccountType == "PAYMENT"

/-- The journal row records a capture: PAYMENT to INCOMING. -/
def transaction.isCapture (t : transaction) : Bool :=
  t.srcAccountType == "PAYMENT" && t.dstAccountType == "INCOMING"

/-- The payment has been captured: the journal holds a capture row with its pid. -/
def captured (journal : List transaction) (pid : String) : Bool :=
  journal.any (fun t => t.isCapture && t.pid == pid)

/-- What a journal row adds to the escrow of a customer: its amount when it is an
authorization of that customer whose pid is not among the captured ones. -/
def escrowTerm (cap : String → Bool) (customer : String) (t : transaction) : Int :=
  if t.isAuthorize && t.srcUserID == customer && !cap t.pid then t.amount else 0

/-- The sum of the amounts of the authorized but not yet captured payments of a
customer, read from the journal. -/
def escrowOf (journal : List transaction) (customer : String) : Int :=
  (journal.map (escrowTerm (captured journal) customer)).sum

/-- The column `id` is a key of the table `wallet`: no two rows share an id. -/
def Store.walletIDsUnique (s : Store) : Prop :=
  (s.wallets.map (fun w => w.ID)).Nodup

instance (s : Store) : Decidable s.walletIDsUnique := by
  unfold Store.walletIDsUnique; infer_instance

/-- One call of the engine with its environment. -/
inductive Op where
  | authorize (env : AuthorizeEnv) (p : AuthorizePayload)
  | capture (env : CaptureEnv) (pid : String)

/-- The store after the call. -/
def Op.run (db : Store) : Op → Store
  | .authorize env p => (Authorize env db p).db
  | .capture env pid => (Capture env db pid).db

/-- The call is one the escrow claim speaks of: a successful `Authorize` with a
positive amount whose generated pid occurs nowhere in the journal, or a successful
`Capture` of a pid that has not been captured yet. -/
def Op.admissible (db : Store) : Op → Prop
  | .authorize env p =>
    (Authorize env db p).result = .ok env.pid ∧ 0 < p.Cents ∧
      ∀ t ∈ db.transactions, t.pid ≠ env.pid
  | .capture env pid =>
    (Capture env db pid).result = .ok () ∧ captured db.transactions pid = false

/-- The store after a sequence of calls. -/
def runOps : Store → List Op → Store
  | db, [] => db
  | db, op :: ops => runOps (op.run db) ops

/-- Every call of the sequence is admissible in the store it is made on. -/
def admissibleRun : Store → List Op → Prop
  | _, [] => True
  | db, op :: ops => op.admissible db ∧ admissibleRun (op.run db) ops

/-- The invariant of the escrow of a customer with wallet `cw`: the keys of the
tables are unique, each authorization row has a positive amount and the wallet of
its user, authorization rows have distinct pids, the first row of any pid is an
authorization, and the PAYMENT balance of the customer is the escrow read from
the journal, within the range of `int64` together with the DEFAULT balance. -/
structure EscrowInv (customer : String) (cw : wallet) (db : Store) : Prop where
  accountKey : db.accountIDsUnique
  walletKey : db.walletIDsUnique
  wallet : db.wallets.find? (fun w => w.userID == customer) = some cw
  authRows : ∀ t ∈ db.transactions, t.isAuthorize = true →
    0 < t.amount ∧ ∃ w, db.wallets.find? (fun w => w.userID == t.srcUserID) = some w ∧
      t.dstAccountWalletID = w.ID
  pids : ((db.transactions.filter transaction.isAuthorize).map (fun t => t.pid)).Nodup
  first : ∀ P e, db.transactions.find? (fun t => t.pid == P) = some e → e.isAuthorize = true
  payment : db.balance cw.ID "PAYMENT" = some (escrowOf db.transactions customer)
  range : escrowOf db.transactions customer ≤ 9223372036854775807
  bound : ∀ d, db.balance cw.ID "DEFAULT" = some d →
    d + escrowOf db.transactions customer ≤ 9223372036854775807

/-! ## Example stores -/

/-- A store in which the PAYMENT balance of the customer is the largest `int64`. -/
def overflowStore : Store :=
  { wallets := [⟨1, "customer", "CUSTOMER"⟩, ⟨2, "merchant", "MERCHANT"⟩]
    accounts := [⟨1, 1, "DEFAULT", 1⟩, ⟨2, 9223372036854775807, "PAYMENT", 1⟩,
                 ⟨3, 0, "INCOMING", 2⟩]
    transactions := [] }

/-- A store in which the INCOMING balance of the merchant is the largest `int64`
and the journal holds an authorization of 1 cent. -/
def captureOverflowStore : Store :=
  { wallets := [⟨1, "customer", "CUSTOMER"⟩, ⟨2, "merchant", "MERCHANT"⟩]
    accounts := [⟨1, 0, "DEFAULT", 1⟩, ⟨2, 1, "PAYMENT", 1⟩,
                 ⟨3, 9223372036854775807, "INCOMING", 2⟩]
    transactions := [⟨1, "P", "customer", "customer", 1, 1, "DEFAULT", "PAYMENT", 2, 1⟩] }

/-- The scenario store after an authorization of 2500 cents with pid "P". -/
def authorizedStore : Store :=
  { wallets := [⟨1, "customer", "CUSTOMER"⟩, ⟨2, "merchant", "MERCHANT"⟩]
    accounts := [⟨1, 7500, "DEFAULT", 1⟩, ⟨2, 2500, "PAYMENT", 1⟩, ⟨3, 0, "INCOMING", 2⟩]
    transactions := [⟨1, "P", "customer", "customer", 1, 1, "DEFAULT", "PAYMENT", 2, 2500⟩] }

/-- The store of the end-to-end scenario: customer DEFAULT 10000 and PAYMENT 0,
merchant INCOMING 0, empty journal. -/
def scenarioStore : Store :=
  { wallets := [⟨1, "customer", "CUSTOMER"⟩, ⟨2, "merchant", "MERCHANT"⟩]
    accounts := [⟨1, 10000, "DEFAULT", 1⟩, ⟨2, 0, "PAYMENT", 1⟩, ⟨3, 0, "INCOMING", 2⟩]
    transactions := [] }

/-- A store holding an authorization of 1 cent, with PAYMENT 2 and the INCOMING
balance of the merchant one below the largest `int64`. -/
def twiceOverflowStore : Store :=
  { wallets := [⟨1, "customer", "CUSTOMER"⟩, ⟨2, "merchant", "MERCHANT"⟩]
    accounts := [⟨1, 0, "DEFAULT", 1⟩, ⟨2, 2, "PAYMENT", 1⟩,
                 ⟨3, 9223372036854775806, "INCOMING", 2⟩]
    transactions := [⟨1, "P", "customer", "customer", 1, 1, "DEFAULT", "PAYMENT", 2, 1⟩] }

/-- A store holding two authorizations of 2500 cents of the same customer, with
pids "P" and "Q": 5000 cents are in escrow. -/
def twiceStore : Store :=
  { wallets := [⟨1, "customer", "CUSTOMER"⟩, ⟨2, "merchant", "MERCHANT"⟩]
    accounts := [⟨1, 5000, "DEFAULT", 1⟩, ⟨2, 5000, "PAYMENT", 1⟩, ⟨3, 0, "INCOMING", 2⟩]
    transactions := [⟨1, "P", "customer", "customer", 1, 1, "DEFAULT", "PAYMENT", 2, 2500⟩,
                     ⟨2, "Q", "customer", "customer", 1, 1, "DEFAULT", "PAYMENT", 2, 2500⟩] }

/-- The scenario store without the INCOMING account of the merchant. -/
def noIncomingStore : Store :=
  { wallets := [⟨1, "customer", "CUSTOMER"⟩, ⟨2, "merchant", "MERCHANT"⟩]
    accounts := [⟨1, 10000, "DEFAULT", 1⟩, ⟨2, 0, "PAYMENT", 1⟩]
    transactions := [] }

/-- A sequence of calls on the scenario store: two authorizations of the customer,
of 2500 and 1000 cents, then the capture of the first. -/
def escrowOps : List Op :=
  [.authorize (AuthorizeEnv.healthy "P") ⟨"customer", "merchant", 2500, "USD"⟩,
   .authorize (AuthorizeEnv.healthy "Q") ⟨"customer", "merchant", 1000, "USD"⟩,
   .capture (CaptureEnv.healthy "2024-01-01") "P"]

/-! ## Lemmas on the statements -/

theorem wrap64_of_isInt64 {x : Int} (h : isInt64 x) : wrap64 x = x := by
  unfold isInt64 at h
  unfold wrap64
  omega

theorem fetchWallet_ok {f : QueryFault} {tx : Tx} {u : String} {w : wallet}
    (h : fetchWallet f tx u = .ok w) :
    f.prepare = none ∧ f.scan = none ∧ tx.view.wallets.find? (fun w => w.userID == u) = some w := by
  rcases f with ⟨_ | _, _ | _⟩ <;>
    cases hf : tx.view.wallets.find? (fun w => w.userID == u) <;>
    simp [fetchWallet, hf] at h ⊢
  exact h

theorem fetchAccount_ok {f : QueryFault} {tx : Tx} {wid : Int} {ty : String} {a : account}
    (h : fetchAccount f tx wid ty = .ok a) :
    f.prepare = none ∧ f.scan = none ∧
    tx.view.accounts.find? (fun a => a.walletID == wid && a.accountType == ty) = some a := by
  rcases f with ⟨_ | _, _ | _⟩ <;>
    cases hf : tx.view.accounts.find? (fun a => a.walletID == wid && a.accountType == ty) <;>
    simp [fetchAccount, hf] at h ⊢
  exact h

theorem transfer_ok {f : TransferFault} {tx tx1 : Tx} {src dst : account} {amount : Int}
    (h : transfer f tx src dst amount = (none, tx1)) :
    ¬ src.cents < amount ∧ f.prepare = none ∧ f.execSrc = none ∧ f.execDst = none ∧
    tx1 = (tx.execUpdate (wrap64 (src.cents - amount)) src.ID).execUpdate
      (wrap64 (dst.cents + amount)) dst.ID := by
  by_cases hlt : src.cents < amount
  · simp [transfer, hlt] at h
  · rcases f with ⟨_ | _, _ | _, _ | _⟩ <;> simp [transfer, hlt] at h ⊢
    exact h.symm

theorem createTransaction_ok {f : InsertFault} {tx tx1 : Tx} {pid : String} {src dst : account}
    {sw dw fw : wallet} {amount : Int}
    (h : createTransaction f tx pid src dst sw dw fw amount = (none, tx1)) :
    f.prepare = none ∧ f.exec = none ∧
    tx1 = tx.execInsert pid sw.userID dw.userID sw.ID dw.ID src.accountType dst.accountType
      fw.ID amount := by
  rcases f with ⟨_ | _, _ | _⟩ <;> simp [createTransaction] at h ⊢
  exact h.symm

theorem rollbackReturn_not_ok {α : Type} (fault : Option String) (db : Store) (tx : Tx)
    (err : Status) (x : α) : (rollbackReturn fault db tx err : Outcome α).result ≠ .ok x := by
  unfold rollbackReturn
  split <;> simp

theorem authorize_ok_inv {env : AuthorizeEnv} {db : Store} {p : AuthorizePayload} {pid : String}
    (h : (Authorize env db p).result = .ok pid) :
    ∃ mw cw src dst,
      p.Currency = "USD" ∧
      db.wallets.find? (fun w => w.userID == p.MerchantWalletUserID) = some mw ∧
      db.wallets.find? (fun w => w.userID == p.CustomerWalletUserID) = some cw ∧
      db.accounts.find? (fun a => a.walletID == cw.ID && a.accountType == "DEFAULT") = some src ∧
      db.accounts.find? (fun a => a.walletID == cw.ID && a.accountType == "PAYMENT") = some dst ∧
      ¬ src.cents < p.Cents ∧
      pid = env.pid ∧
      Authorize env db p =
        ⟨.ok env.pid,
         (((Tx.mk db false).execUpdate (wrap64 (src.cents - p.Cents)) src.ID).execUpdate
            (wrap64 (dst.cents + p.Cents)) dst.ID |>.execInsert env.pid cw.userID cw.userID
            cw.ID cw.ID src.accountType dst.accountType mw.ID p.Cents).view,
         [.Begin, .Commit], []⟩ := by
  unfold Authorize at h ⊢
  by_cases hc : p.Currency = "USD"
  swap
  · simp [hc] at h
  simp only [hc, ne_eq, not_true_eq_false, if_false] at h ⊢
  cases hb : env.begin with
  | some e => simp [Begin, hb] at h
  | none =>
    simp only [Begin, hb] at h ⊢
    cases hmw : fetchWallet env.merchantWallet ⟨db, false⟩ p.MerchantWalletUserID with
    | error e => simp [hmw, rollbackReturn_not_ok] at h
    | ok mw =>
      simp only [hmw] at h ⊢
      cases hcw : fetchWallet env.customerWallet ⟨db, false⟩ p.CustomerWalletUserID with
      | error e => simp [hcw, rollbackReturn_not_ok] at h
      | ok cw =>
        simp only [hcw] at h ⊢
        cases hsrc : fetchAccount env.srcAccount ⟨db, false⟩ cw.ID "DEFAULT" with
        | error e => simp [hsrc, rollbackReturn_not_ok] at h
        | ok src =>
          simp only [hsrc] at h ⊢
          cases hdst : fetchAccount env.dstAccount ⟨db, false⟩ cw.ID "PAYMENT" with
          | error e => simp [hdst, rollbackReturn_not_ok] at h
          | ok dst =>
            simp only [hdst] at h ⊢
            rcases htr : transfer env.transfer ⟨db, false⟩ src dst p.Cents with ⟨_ | e, tx1⟩
            swap
            · simp [htr, rollbackReturn_not_ok] at h
            simp only [htr] at h ⊢
            rcases hcr : createTransaction env.create tx1 env.pid src dst cw cw mw p.Cents
              with ⟨_ | e, tx2⟩
            swap
            · simp [hcr, rollbackReturn_not_ok] at h
            simp only [hcr] at h ⊢
            obtain ⟨hnlt, -, -, -, htx1⟩ := transfer_ok htr
            obtain ⟨-, -, htx2⟩ := createTransaction_ok hcr
            subst htx1
            subst htx2
            refine ⟨mw, cw, src, dst, trivial, (fetchWallet_ok hmw).2.2, (fetchWallet_ok hcw).2.2,
              (fetchAccount_ok hsrc).2.2, (fetchAccount_ok hdst).2.2, hnlt, ?_⟩
            cases hcm : env.commit with
            | some e => simp [Tx.Commit, Tx.execInsert, Tx.execUpdate, hcm] at h
            | none =>
              simp [Tx.Commit, Tx.execInsert, Tx.execUpdate, hcm] at h ⊢
              exact h.symm

theorem updateCents_ids (l : List account) (c id : Int) :
    (updateCents l c id).map (fun a => a.ID) = l.map (fun a => a.ID) := by
  unfold updateCents
  rw [List.map_map]
  apply List.map_congr_left
  intro a _
  by_cases h : a.ID = id <;> simp [h]

theorem updateCents_find (l : List account) (c id w : Int) (t : String) :
    (updateCents l c id).find? (fun a => a.walletID == w && a.accountType == t) =
      (l.find? (fun a => a.walletID == w && a.accountType == t)).map
        (fun a => if a.ID = id then { a with cents := c } else a) := by
  unfold updateCents
  rw [List.find?_map]
  congr 1
  apply congrArg (fun p => List.find? p l)
  funext a
  by_cases h : a.ID = id <;> simp [h]

theorem updateCents_sum (l : List account) (c : Int) (a : account)
    (hnd : (l.map (fun a => a.ID)).Nodup) (ha : a ∈ l) :
    ((updateCents l c a.ID).map (fun a => a.cents)).sum =
      (l.map (fun a => a.cents)).sum - a.cents + c := by
  induction l with
  | nil => simp at ha
  | cons b l ih =>
    rw [List.map_cons, List.nodup_cons] at hnd
    rcases List.mem_cons.mp ha with rfl | hmem
    · have hrest : updateCents l c a.ID = l := by
        unfold updateCents
        conv_rhs => rw [← List.map_id l]
        apply List.map_congr_left
        intro x hx
        have : x.ID ≠ a.ID := fun e => hnd.1 (e ▸ List.mem_map_of_mem (fun a => a.ID) hx)
        simp [this]
      have hcons : updateCents (a :: l) c a.ID = { a with cents := c } :: updateCents l c a.ID := by
        simp [updateCents]
      rw [hcons, hrest]
      simp
      omega
    · have hne : b.ID ≠ a.ID := fun e => hnd.1 (e ▸ List.mem_map_of_mem (fun a => a.ID) hmem)
      have hcons : updateCents (b :: l) c a.ID = b :: updateCents l c a.ID := by
        simp [updateCents, hne]
      rw [hcons]
      simp only [List.map_cons, List.sum_cons]
      rw [ih hnd.2 hmem]
      omega

theorem account_eq_of_ID {l : List account} (hnd : (l.map (fun a => a.ID)).Nodup)
    {a b : account} (ha : a ∈ l) (hb : b ∈ l) (h : a.ID = b.ID) : a = b :=
  List.inj_on_of_nodup_map hnd ha hb h

theorem find_accountType {l : List account} {w : Int} {t : String} {a : account}
    (h : l.find? (fun a => a.walletID == w && a.accountType == t) = some a) :
    a ∈ l ∧ a.walletID = w ∧ a.accountType = t := by
  refine ⟨List.mem_of_find?_eq_some h, ?_⟩
  have := List.find?_some h
  simpa using this


theorem balance_after_transfer {l : List account} (hnd : (l.map (fun a => a.ID)).Nodup)
    {src dst x : account} (hs : src ∈ l) (hd : dst ∈ l)
    (c1 c2 w : Int) (t : String)
    (hx : l.find? (fun a => a.walletID == w && a.accountType == t) = some x) :
    ((updateCents (updateCents l c1 src.ID) c2 dst.ID).find?
        (fun a => a.walletID == w && a.accountType == t)).map (fun a => a.cents) =
      some (if x = dst then c2 else if x = src then c1 else x.cents) := by
  have hxm := (find_accountType hx).1
  rw [updateCents_find, updateCents_find, hx]
  by_cases h2 : x = dst
  · subst h2
    by_cases h1 : x.ID = src.ID <;> simp [h1]
  · have h2i : x.ID ≠ dst.ID := fun e => h2 (account_eq_of_ID hnd hxm hd e)
    by_cases h1 : x = src
    · subst h1
      simp [h2, h2i]
    · have h1i : x.ID ≠ src.ID := fun e => h1 (account_eq_of_ID hnd hxm hs e)
      simp [h1, h2, h1i, h2i]

theorem total_after_transfer {l : List account} (hnd : (l.map (fun a => a.ID)).Nodup)
    {src dst : account} (hs : src ∈ l) (hd : dst ∈ l) (hne : src ≠ dst) (c1 c2 : Int) :
    ((updateCents (updateCents l c1 src.ID) c2 dst.ID).map (fun a => a.cents)).sum =
      (l.map (fun a => a.cents)).sum - src.cents + c1 - dst.cents + c2 := by
  have hi : dst.ID ≠ src.ID := fun e => hne (account_eq_of_ID hnd hd hs e).symm
  have hd1 : dst ∈ updateCents l c1 src.ID := by
    unfold updateCents
    refine List.mem_map.mpr ⟨dst, hd, ?_⟩
    simp [hi]
  have hnd1 : ((updateCents l c1 src.ID).map (fun a => a.ID)).Nodup := by
    rw [updateCents_ids]; exact hnd
  rw [updateCents_sum _ c2 dst hnd1 hd1, updateCents_sum _ c1 src hnd hs]

theorem userBalance_of_wallet {s : Store} {u : String} {w : wallet}
    (h : s.wallets.find? (fun w => w.userID == u) = some w) (t : String) :
    s.userBalance u t = s.balance w.ID t := by
  simp [Store.userBalance, Store.walletOf, h]

/-- The outcome of a successful `Authorize`, spelled out. -/
theorem authorize_ok_effect {env : AuthorizeEnv} {db : Store} {p : AuthorizePayload}
    {pid : String} (h : (Authorize env db p).result = .ok pid) :
    ∃ mw cw src dst,
      db.wallets.find? (fun w => w.userID == p.MerchantWalletUserID) = some mw ∧
      db.wallets.find? (fun w => w.userID == p.CustomerWalletUserID) = some cw ∧
      db.accounts.find? (fun a => a.walletID == cw.ID && a.accountType == "DEFAULT") = some src ∧
      db.accounts.find? (fun a => a.walletID == cw.ID && a.accountType == "PAYMENT") = some dst ∧
      src ≠ dst ∧ ¬ src.cents < p.Cents ∧ pid = env.pid ∧
      (Authorize env db p).db.wallets = db.wallets ∧
      (Authorize env db p).db.accounts =
        updateCents (updateCents db.accounts (wrap64 (src.cents - p.Cents)) src.ID)
          (wrap64 (dst.cents + p.Cents)) dst.ID ∧
      (Authorize env db p).db.transactions = db.transactions ++
        [{ ID := (db.transactions.length : Int) + 1, pid := env.pid, srcUserID := cw.userID,
           dstUserID := cw.userID, srcAccountWalletID := cw.ID, dstAccountWalletID := cw.ID,
           srcAccountType := "DEFAULT", dstAccountType := "PAYMENT",
           finalDstMerchantWalletID := mw.ID, amount := p.Cents }] ∧
      (Authorize env db p).calls = [.Begin, .Commit] ∧
      (Authorize env db p).sent = [] := by
  obtain ⟨mw, cw, src, dst, -, hmw, hcw, hsrc, hdst, hnlt, hpid, heq⟩ := authorize_ok_inv h
  have hst := (find_accountType hsrc).2.2
  have hdt := (find_accountType hdst).2.2
  have hne : src ≠ dst := by
    intro e
    rw [e, hdt] at hst
    exact absurd hst (by decide)
  refine ⟨mw, cw, src, dst, hmw, hcw, hsrc, hdst, hne, hnlt, hpid, ?_⟩
  rw [heq]
  simp [Tx.execUpdate, Tx.execInsert, hst, hdt]

theorem fetchWalletWithWalletID_ok {f : QueryFault} {tx : Tx} {i : Int} {w : wallet}
    (h : fetchWalletWithWalletID f tx i = .ok w) :
    f.prepare = none ∧ f.scan = none ∧ tx.view.wallets.find? (fun w => w.ID == i) = some w := by
  rcases f with ⟨_ | _, _ | _⟩ <;>
    cases hf : tx.view.wallets.find? (fun w => w.ID == i) <;>
    simp [fetchWalletWithWalletID, hf] at h ⊢
  exact h

theorem fetchTransaction_ok {f : QueryFault} {tx : Tx} {pid : String} {t : transaction}
    (h : fetchTransaction f tx pid = .ok t) :
    f.prepare = none ∧ f.scan = none ∧
    tx.view.transactions.find? (fun t => t.pid == pid) = some t := by
  rcases f with ⟨_ | _, _ | _⟩ <;>
    cases hf : tx.view.transactions.find? (fun t => t.pid == pid) <;>
    simp [fetchTransaction, hf] at h ⊢
  exact h

theorem rollbackReturn_calls {α : Type} (fault : Option String) (db : Store) (tx : Tx)
    (err : Status) : (rollbackReturn fault db tx err : Outcome α).calls = [.Begin, .Rollback] := by
  unfold rollbackReturn
  split <;> rfl

theorem rollbackReturn_sent {α : Type} (fault : Option String) (db : Store) (tx : Tx)
    (err : Status) : (rollbackReturn fault db tx err : Outcome α).sent = [] := by
  unfold rollbackReturn
  split <;> rfl

theorem transfer_done (f : TransferFault) (tx : Tx) (src dst : account) (amount : Int) :
    (transfer f tx src dst amount).2.done = tx.done := by
  unfold transfer
  split
  · rfl
  · rcases f with ⟨_ | _, _ | _, _ | _⟩ <;> simp [Tx.execUpdate]

theorem capture_ok_inv {env : CaptureEnv} {db : Store} {pid : String} {u : Unit}
    (h : (Capture env db pid).result = .ok u) :
    ∃ e src dst cw mw,
      db.transactions.find? (fun t => t.pid == pid) = some e ∧
      db.accounts.find? (fun a => a.walletID == e.dstAccountWalletID &&
        a.accountType == "PAYMENT") = some src ∧
      db.accounts.find? (fun a => a.walletID == e.finalDstMerchantWalletID &&
        a.accountType == "INCOMING") = some dst ∧
      db.wallets.find? (fun w => w.userID == e.srcUserID) = some cw ∧
      db.wallets.find? (fun w => w.ID == e.finalDstMerchantWalletID) = some mw ∧
      ¬ src.cents < e.amount ∧
      Capture env db pid =
        ⟨.ok (),
         (((Tx.mk db false).execUpdate (wrap64 (src.cents - e.amount)) src.ID).execUpdate
            (wrap64 (dst.cents + e.amount)) dst.ID |>.execInsert e.pid cw.userID mw.userID
            cw.ID mw.ID src.accountType dst.accountType mw.ID e.amount).view,
         [.Begin, .Commit, .SendCaptureMessage e.pid e.srcUserID e.amount],
         SendCaptureMessage env.producer e.pid e.srcUserID e.amount⟩ := by
  unfold Capture at h ⊢
  cases hb : env.begin with
  | some e => simp [Begin, hb] at h
  | none =>
    simp only [Begin, hb] at h ⊢
    cases hft : fetchTransaction env.fetchTransaction ⟨db, false⟩ pid with
    | error e => simp [hft, rollbackReturn_not_ok] at h
    | ok e =>
      simp only [hft] at h ⊢
      cases hsrc : fetchAccount env.srcAccount ⟨db, false⟩ e.dstAccountWalletID "PAYMENT" with
      | error e => simp [hsrc, rollbackReturn_not_ok] at h
      | ok src =>
        simp only [hsrc] at h ⊢
        cases hdst : fetchAccount env.dstMerchantAccount ⟨db, false⟩
            e.finalDstMerchantWalletID "INCOMING" with
        | error e => simp [hdst, rollbackReturn_not_ok] at h
        | ok dst =>
          simp only [hdst] at h ⊢
          cases hcw : fetchWallet env.customerWallet ⟨db, false⟩ e.srcUserID with
          | error e => simp [hcw, rollbackReturn_not_ok] at h
          | ok cw =>
            simp only [hcw] at h ⊢
            cases hmw : fetchWalletWithWalletID env.merchantWallet ⟨db, false⟩
                e.finalDstMerchantWalletID with
            | error e => simp [hmw, rollbackReturn_not_ok] at h
            | ok mw =>
              simp only [hmw] at h ⊢
              rcases htr : transfer env.transfer ⟨db, false⟩ src dst e.amount with ⟨_ | er, tx1⟩
              swap
              · simp [htr, rollbackReturn_not_ok] at h
              simp only [htr] at h ⊢
              obtain ⟨hnlt, -, -, -, htx1⟩ := transfer_ok htr
              subst htx1
              refine ⟨e, src, dst, cw, mw, (fetchTransaction_ok hft).2.2,
                (fetchAccount_ok hsrc).2.2, (fetchAccount_ok hdst).2.2, (fetchWallet_ok hcw).2.2,
                (fetchWalletWithWalletID_ok hmw).2.2, hnlt, ?_⟩
              rcases env with ⟨_, _, _, _, _, _, _, ⟨_ | _, _ | _⟩, _ | _, _ | _, _⟩ <;>
                simp [createTransaction, Tx.Rollback, Tx.Commit, Tx.execInsert, Tx.execUpdate,
                  captureCommit] at h ⊢


/-- The outcome of a successful `Capture`, spelled out. -/
theorem capture_ok_effect {env : CaptureEnv} {db : Store} {pid : String} {u : Unit}
    (h : (Capture env db pid).result = .ok u) :
    ∃ e src dst cw mw,
      db.transactions.find? (fun t => t.pid == pid) = some e ∧
      db.accounts.find? (fun a => a.walletID == e.dstAccountWalletID &&
        a.accountType == "PAYMENT") = some src ∧
      db.accounts.find? (fun a => a.walletID == e.finalDstMerchantWalletID &&
        a.accountType == "INCOMING") = some dst ∧
      db.wallets.find? (fun w => w.userID == e.srcUserID) = some cw ∧
      db.wallets.find? (fun w => w.ID == e.finalDstMerchantWalletID) = some mw ∧
      src ≠ dst ∧ ¬ src.cents < e.amount ∧
      (Capture env db pid).db.wallets = db.wallets ∧
      (Capture env db pid).db.accounts =
        updateCents (updateCents db.accounts (wrap64 (src.cents - e.amount)) src.ID)
          (wrap64 (dst.cents + e.amount)) dst.ID ∧
      (Capture env db pid).db.transactions = db.transactions ++
        [{ ID := (db.transactions.length : Int) + 1, pid := e.pid, srcUserID := cw.userID,
           dstUserID := mw.userID, srcAccountWalletID := cw.ID, dstAccountWalletID := mw.ID,
           srcAccountType := "PAYMENT", dstAccountType := "INCOMING",
           finalDstMerchantWalletID := mw.ID, amount := e.amount }] ∧
      (Capture env db pid).calls =
        [.Begin, .Commit, .SendCaptureMessage e.pid e.srcUserID e.amount] ∧
      (Capture env db pid).sent = SendCaptureMessage env.producer e.pid e.srcUserID e.amount := by
  obtain ⟨e, src, dst, cw, mw, he, hsrc, hdst, hcw, hmw, hnlt, heq⟩ := capture_ok_inv h
  have hst := (find_accountType hsrc).2.2
  have hdt := (find_accountType hdst).2.2
  have hne : src ≠ dst := by
    intro e
    rw [e, hdt] at hst
    exact absurd hst (by decide)
  refine ⟨e, src, dst, cw, mw, he, hsrc, hdst, hcw, hmw, hne, hnlt, ?_⟩
  rw [heq]
  simp [Tx.execUpdate, Tx.execInsert, hst, hdt]

theorem rollbackReturn_db {α : Type} (fault : Option String) (db : Store) (tx : Tx)
    (err : Status) : (rollbackReturn fault db tx err : Outcome α).db = db := by
  unfold rollbackReturn
  split <;> rfl

theorem commit_error_db {f : Option String} {db db1 : Store} {tx : Tx} {e : String}
    (h : tx.Commit f db = (some e, db1)) : db1 = db := by
  unfold Tx.Commit at h
  split at h
  · injection h with _ h; exact h.symm
  · split at h
    · injection h with _ h; exact h.symm
    · simp at h

theorem authorize_db_unchanged_or_ok (env : AuthorizeEnv) (db : Store) (p : AuthorizePayload) :
    (Authorize env db p).db = db ∨ ∃ pid, (Authorize env db p).result = .ok pid := by
  unfold Authorize
  repeat' split
  all_goals try dsimp only
  all_goals repeat' split
  all_goals first
    | exact Or.inl (rollbackReturn_db _ _ _ _)
    | exact Or.inl rfl
    | exact Or.inr ⟨_, rfl⟩
    | (left; rename_i h; exact commit_error_db h)

theorem captureCommit_db (env : CaptureEnv) (db : Store) (tx : Tx) (calls : List Call)
    (e : transaction) :
    (captureCommit env db tx calls e).db = db ∨ (captureCommit env db tx calls e).result = .ok () := by
  unfold captureCommit
  split
  · left; rename_i h; exact commit_error_db h
  · right; rfl

theorem capture_db_unchanged_or_ok (env : CaptureEnv) (db : Store) (pid : String) :
    (Capture env db pid).db = db ∨ (Capture env db pid).result = .ok () := by
  unfold Capture
  repeat' split
  all_goals first
    | exact Or.inl (rollbackReturn_db _ _ _ _)
    | exact Or.inl rfl
    | exact captureCommit_db _ _ _ _ _

theorem mem_updateCents {l : List account} {c id : Int} {a : account}
    (h : a ∈ updateCents l c id) : a ∈ l ∨ a.cents = c := by
  unfold updateCents at h
  obtain ⟨b, hb, rfl⟩ := List.mem_map.mp h
  by_cases hid : b.ID = id
  · right; simp [hid]
  · left; simpa [hid] using hb

theorem nonneg_after_transfer {l : List account} {src dst : account} {amount : Int}
    (hnn : ∀ a ∈ l, 0 ≤ a.cents ∧ isInt64 a.cents) (hs : src ∈ l) (hd : dst ∈ l)
    (hpos : 0 < amount) (hge : ¬ src.cents < amount)
    (hfit : dst.cents + amount ≤ 9223372036854775807) :
    ∀ a ∈ updateCents (updateCents l (wrap64 (src.cents - amount)) src.ID)
      (wrap64 (dst.cents + amount)) dst.ID, 0 ≤ a.cents := by
  intro a ha
  have h1 := hnn src hs
  have h2 := hnn dst hd
  unfold isInt64 at h1 h2
  rcases mem_updateCents ha with ha | ha
  · rcases mem_updateCents ha with ha | ha
    · exact (hnn a ha).1
    · rw [ha, wrap64_of_isInt64 (by unfold isInt64; omega)]
      omega
  · rw [ha, wrap64_of_isInt64 (by unfold isInt64; omega)]
    omega

theorem fetchWallet_error_code {f : QueryFault} {tx : Tx} {u : String} {err : Status}
    (h : fetchWallet f tx u = .error err) : err.code = .NotFound ∨ err.code = .Internal := by
  rcases f with ⟨_ | _, _ | _⟩ <;>
    cases hf : tx.view.wallets.find? (fun w => w.userID == u) <;>
    simp [fetchWallet, hf] at h <;> subst h <;> simp

theorem fetchAccount_error_code {f : QueryFault} {tx : Tx} {w : Int} {t : String} {err : Status}
    (h : fetchAccount f tx w t = .error err) : err.code = .NotFound ∨ err.code = .Internal := by
  rcases f with ⟨_ | _, _ | _⟩ <;>
    cases hf : tx.view.accounts.find? (fun a => a.walletID == w && a.accountType == t) <;>
    simp [fetchAccount, hf] at h <;> subst h <;> simp

theorem transfer_error_code {f : TransferFault} {tx tx1 : Tx} {src dst : account} {amount : Int}
    {err : Status} (h : transfer f tx src dst amount = (some err, tx1)) :
    err.code = .Aborted ∨ err.code = .Internal := by
  by_cases hlt : src.cents < amount
  · simp [transfer, hlt] at h
    rw [← h.1]; simp
  · rcases f with ⟨_ | _, _ | _, _ | _⟩ <;> simp [transfer, hlt] at h <;> rw [← h.1] <;> simp

theorem createTransaction_error_code {f : InsertFault} {tx tx1 : Tx} {pid : String}
    {src dst : account} {sw dw fw : wallet} {amount : Int} {err : Status}
    (h : createTransaction f tx pid src dst sw dw fw amount = (some err, tx1)) :
    err.code = .Internal := by
  rcases f with ⟨_ | _, _ | _⟩ <;> simp [createTransaction] at h <;> rw [← h.1]

theorem rollbackReturn_result {α : Type} (fault : Option String) (db : Store) (tx : Tx)
    (err : Status) :
    (rollbackReturn fault db tx err : Outcome α).result = .error err ∨
    ∃ m, (rollbackReturn fault db tx err : Outcome α).result = .error ⟨.Internal, m⟩ := by
  unfold rollbackReturn
  split
  · exact Or.inr ⟨_, rfl⟩
  · exact Or.inl rfl

theorem rollbackReturn_code {α : Type} {fault : Option String} {db : Store} {tx : Tx}
    {err e1 : Status} (h : (rollbackReturn fault db tx err : Outcome α).result = .error e1) :
    e1.code = err.code ∨ e1.code = .Internal := by
  rcases rollbackReturn_result (α := α) fault db tx err with h1 | ⟨m, h1⟩
  · rw [h1] at h; injection h with h; subst h; exact Or.inl rfl
  · rw [h1] at h; injection h with h; subst h; exact Or.inr rfl

/-- The codes of the errors of a "USD" `Authorize`. -/
theorem authorize_usd_error_code {env : AuthorizeEnv} {db : Store} {p : AuthorizePayload}
    {err : Status} (husd : p.Currency = "USD") (h : (Authorize env db p).result = .error err) :
    err.code = .NotFound ∨ err.code = .Aborted ∨ err.code = .Internal := by
  unfold Authorize at h
  simp only [husd, ne_eq, not_true_eq_false, if_false] at h
  cases hb : Begin env.begin db with
  | error e => simp [hb] at h; subst h; simp
  | ok tx =>
    simp only [hb] at h
    cases hmw : fetchWallet env.merchantWallet tx p.MerchantWalletUserID with
    | error e =>
      simp only [hmw] at h
      rcases rollbackReturn_code h with hc | hc <;>
        rcases fetchWallet_error_code hmw with hd | hd <;> simp_all
    | ok mw =>
      simp only [hmw] at h
      cases hcw : fetchWallet env.customerWallet tx p.CustomerWalletUserID with
      | error e =>
        simp only [hcw] at h
        rcases rollbackReturn_code h with hc | hc <;>
          rcases fetchWallet_error_code hcw with hd | hd <;> simp_all
      | ok cw =>
        simp only [hcw] at h
        cases hsrc : fetchAccount env.srcAccount tx cw.ID "DEFAULT" with
        | error e =>
          simp only [hsrc] at h
          rcases rollbackReturn_code h with hc | hc <;>
            rcases fetchAccount_error_code hsrc with hd | hd <;> simp_all
        | ok src =>
          simp only [hsrc] at h
          cases hdst : fetchAccount env.dstAccount tx cw.ID "PAYMENT" with
          | error e =>
            simp only [hdst] at h
            rcases rollbackReturn_code h with hc | hc <;>
              rcases fetchAccount_error_code hdst with hd | hd <;> simp_all
          | ok dst =>
            simp only [hdst] at h
            rcases htr : transfer env.transfer tx src dst p.Cents with ⟨_ | e, tx1⟩
            swap
            · simp only [htr] at h
              rcases rollbackReturn_code h with hc | hc <;>
                rcases transfer_error_code htr with hd | hd <;> simp_all
            simp only [htr] at h
            rcases hcr : createTransaction env.create tx1 env.pid src dst cw cw mw p.Cents
              with ⟨_ | e, tx2⟩
            swap
            · simp only [hcr] at h
              rcases rollbackReturn_code h with hc | hc <;>
                have hd := createTransaction_error_code hcr <;> simp_all
            simp only [hcr] at h
            rcases hcm : tx2.Commit env.commit db with ⟨_ | e, db1⟩
            · simp [hcm] at h
            · simp [hcm] at h; subst h; simp

/-- A "USD" `Authorize` with no database failure, all four rows found and a DEFAULT
balance not below the amount succeeds; its outcome spelled out. -/
theorem authorize_healthy_ok {db : Store} {p : AuthorizePayload} (pid : String)
    {mw cw : wallet} {src dst : account}
    (husd : p.Currency = "USD")
    (hmw : db.wallets.find? (fun w => w.userID == p.MerchantWalletUserID) = some mw)
    (hcw : db.wallets.find? (fun w => w.userID == p.CustomerWalletUserID) = some cw)
    (hsrc : db.accounts.find? (fun a => a.walletID == cw.ID && a.accountType == "DEFAULT")
      = some src)
    (hdst : db.accounts.find? (fun a => a.walletID == cw.ID && a.accountType == "PAYMENT")
      = some dst)
    (hge : ¬ src.cents < p.Cents) :
    (Authorize (AuthorizeEnv.healthy pid) db p).result = .ok pid := by
  simp [Authorize, AuthorizeEnv.healthy, husd, Begin, fetchWallet, fetchAccount, QueryFault.none,
    hmw, hcw, hsrc, hdst, transfer, TransferFault.none, hge, createTransaction, InsertFault.none,
    Tx.Commit, Tx.execInsert, Tx.execUpdate]



theorem find_after_transfer {l : List account} (hnd : (l.map (fun a => a.ID)).Nodup)
    {src dst x : account} (hs : src ∈ l) (hd : dst ∈ l)
    (c1 c2 w : Int) (t : String)
    (hx : l.find? (fun a => a.walletID == w && a.accountType == t) = some x) :
    (updateCents (updateCents l c1 src.ID) c2 dst.ID).find?
        (fun a => a.walletID == w && a.accountType == t) =
      some { x with cents := if x = dst then c2 else if x = src then c1 else x.cents } := by
  have hxm := (find_accountType hx).1
  rw [updateCents_find, updateCents_find, hx]
  by_cases h2 : x = dst
  · subst h2
    by_cases h1 : x.ID = src.ID <;> simp [h1]
  · have h2i : x.ID ≠ dst.ID := fun e => h2 (account_eq_of_ID hnd hxm hd e)
    by_cases h1 : x = src
    · subst h1
      simp [h2, h2i]
    · have h1i : x.ID ≠ src.ID := fun e => h1 (account_eq_of_ID hnd hxm hs e)
      simp [h1, h2, h1i, h2i]

theorem capture_healthy_ok {db : Store} {pid : String} (today : String)
    {e : transaction} {src dst : account} {cw mw : wallet}
    (he : db.transactions.find? (fun t => t.pid == pid) = some e)
    (hsrc : db.accounts.find? (fun a => a.walletID == e.dstAccountWalletID &&
      a.accountType == "PAYMENT") = some src)
    (hdst : db.accounts.find? (fun a => a.walletID == e.finalDstMerchantWalletID &&
      a.accountType == "INCOMING") = some dst)
    (hcw : db.wallets.find? (fun w => w.userID == e.srcUserID) = some cw)
    (hmw : db.wallets.find? (fun w => w.ID == e.finalDstMerchantWalletID) = some mw)
    (hge : ¬ src.cents < e.amount) :
    (Capture (CaptureEnv.healthy today) db pid).result = .ok () := by
  simp [Capture, CaptureEnv.healthy, Begin, fetchTransaction, fetchWallet, fetchAccount,
    fetchWalletWithWalletID, QueryFault.none, he, hsrc, hdst, hcw, hmw, transfer,
    TransferFault.none, hge, createTransaction, InsertFault.none, captureCommit, Tx.Commit,
    Tx.execInsert, Tx.execUpdate]

theorem userBalance_some {s : Store} {u t : String} {c : Int}
    (h : s.userBalance u t = some c) :
    ∃ w a, s.wallets.find? (fun w => w.userID == u) = some w ∧
      s.accounts.find? (fun a => a.walletID == w.ID && a.accountType == t) = some a ∧
      a.cents = c := by
  unfold Store.userBalance Store.walletOf at h
  cases hw : s.wallets.find? (fun w => w.userID == u) with
  | none => simp [hw] at h
  | some w =>
    rw [hw] at h
    simp only [Option.some_bind, Store.balance] at h
    cases ha : s.accounts.find? (fun a => a.walletID == w.ID && a.accountType == t) with
    | none => simp [ha] at h
    | some a =>
      rw [ha] at h
      exact ⟨w, a, rfl, ha, by simpa using h⟩



theorem rollbackReturn_eq {α : Type} (fault : Option String) (db : Store) (tx : Tx)
    (err : Status) (hnd : tx.done = false) :
    (rollbackReturn fault db tx err : Outcome α) =
      ⟨.error (match fault with | some m => ⟨.Internal, m⟩ | none => err), db,
       [.Begin, .Rollback], []⟩ := by
  unfold rollbackReturn Tx.Rollback
  cases fault <;> simp [hnd]

theorem createTransaction_done (f : InsertFault) (tx : Tx) (pid : String) (src dst : account)
    (sw dw fw : wallet) (amount : Int) :
    (createTransaction f tx pid src dst sw dw fw amount).2.done = tx.done := by
  rcases f with ⟨_ | _, _ | _⟩ <;> simp [createTransaction, Tx.execInsert]

theorem fetchWallet_error_known {f : QueryFault} {tx : Tx} {u : String} {err : Status}
    (h : fetchWallet f tx u = .error err) : err.known := by
  rcases f with ⟨_ | _, _ | _⟩ <;>
    cases hf : tx.view.wallets.find? (fun w => w.userID == u) <;>
    simp [fetchWallet, hf] at h <;> subst h <;> simp [Status.known]

theorem fetchWalletWithWalletID_error_known {f : QueryFault} {tx : Tx} {i : Int} {err : Status}
    (h : fetchWalletWithWalletID f tx i = .error err) : err.known := by
  rcases f with ⟨_ | _, _ | _⟩ <;>
    cases hf : tx.view.wallets.find? (fun w => w.ID == i) <;>
    simp [fetchWalletWithWalletID, hf] at h <;> subst h <;> simp [Status.known]

theorem fetchAccount_error_known {f : QueryFault} {tx : Tx} {w : Int} {t : String}
    {err : Status} (h : fetchAccount f tx w t = .error err) : err.known := by
  rcases f with ⟨_ | _, _ | _⟩ <;>
    cases hf : tx.view.accounts.find? (fun a => a.walletID == w && a.accountType == t) <;>
    simp [fetchAccount, hf] at h <;> subst h <;> simp [Status.known]

theorem fetchTransaction_error_known {f : QueryFault} {tx : Tx} {pid : String}
    {err : Status} (h : fetchTransaction f tx pid = .error err) : err.known := by
  rcases f with ⟨_ | _, _ | _⟩ <;>
    cases hf : tx.view.transactions.find? (fun t => t.pid == pid) <;>
    simp [fetchTransaction, hf] at h <;> subst h <;> simp [Status.known]

theorem transfer_error_known {f : TransferFault} {tx tx1 : Tx} {src dst : account}
    {amount : Int} {err : Status} (h : transfer f tx src dst amount = (some err, tx1)) :
    err.known := by
  by_cases hlt : src.cents < amount
  · simp [transfer, hlt] at h
    rw [← h.1]; simp [Status.known]
  · rcases f with ⟨_ | _, _ | _, _ | _⟩ <;> simp [transfer, hlt] at h <;> rw [← h.1] <;>
      simp [Status.known]

theorem rollbackReturn_known {α : Type} {fault : Option String} {db : Store} {tx : Tx}
    {err e1 : Status} (hk : err.known)
    (h : (rollbackReturn fault db tx err : Outcome α).result = .error e1) : e1.known := by
  rcases rollbackReturn_result (α := α) fault db tx err with h1 | ⟨m, h1⟩
  · rw [h1] at h; injection h with h; subst h; exact hk
  · rw [h1] at h; injection h with h; subst h; simp [Status.known]

theorem captureCommit_known {env : CaptureEnv} {db : Store} {tx : Tx} {calls : List Call}
    {e : transaction} {e1 : Status}
    (h : (captureCommit env db tx calls e).result = .error e1) : e1.known := by
  unfold captureCommit at h
  split at h
  · simp at h; subst h; simp [Status.known]
  · simp at h

theorem capture_error_known {env : CaptureEnv} {db : Store} {pid : String} {err : Status}
    (h : (Capture env db pid).result = .error err) : err.known := by
  unfold Capture at h
  cases hb : Begin env.begin db with
  | error e => simp [hb] at h; subst h; simp [Status.known]
  | ok tx =>
    simp only [hb] at h
    cases hft : fetchTransaction env.fetchTransaction tx pid with
    | error e =>
      simp only [hft] at h
      exact rollbackReturn_known (fetchTransaction_error_known hft) h
    | ok e =>
      simp only [hft] at h
      cases hsrc : fetchAccount env.srcAccount tx e.dstAccountWalletID "PAYMENT" with
      | error e =>
        simp only [hsrc] at h
        exact rollbackReturn_known (fetchAccount_error_known hsrc) h
      | ok src =>
        simp only [hsrc] at h
        cases hdst : fetchAccount env.dstMerchantAccount tx e.finalDstMerchantWalletID "INCOMING"
          with
        | error e =>
          simp only [hdst] at h
          exact rollbackReturn_known (fetchAccount_error_known hdst) h
        | ok dst =>
          simp only [hdst] at h
          cases hcw : fetchWallet env.customerWallet tx e.srcUserID with
          | error e =>
            simp only [hcw] at h
            exact rollbackReturn_known (fetchWallet_error_known hcw) h
          | ok cw =>
            simp only [hcw] at h
            cases hmw : fetchWalletWithWalletID env.merchantWallet tx e.finalDstMerchantWalletID
              with
            | error e =>
              simp only [hmw] at h
              exact rollbackReturn_known (fetchWalletWithWalletID_error_known hmw) h
            | ok mw =>
              simp only [hmw] at h
              rcases htr : transfer env.transfer tx src dst e.amount with ⟨_ | er, tx1⟩
              swap
              · simp only [htr] at h
                exact rollbackReturn_known (transfer_error_known htr) h
              simp only [htr] at h
              rcases hcr : createTransaction env.create tx1 e.pid src dst cw mw mw e.amount
                with ⟨_ | er, tx2⟩
              · simp only [hcr] at h
                exact captureCommit_known h
              · simp only [hcr] at h
                rcases hrb : tx2.Rollback env.rollback with ⟨_ | m, tx3⟩
                · simp only [hrb] at h
                  exact captureCommit_known h
                · simp only [hrb] at h
                  simp at h; subst h; simp [Status.known]

theorem authorize_usd_error_known {env : AuthorizeEnv} {db : Store} {p : AuthorizePayload}
    {err : Status} (husd : p.Currency = "USD") (h : (Authorize env db p).result = .error err) :
    err.known := by
  unfold Authorize at h
  simp only [husd, ne_eq, not_true_eq_false, if_false] at h
  cases hb : Begin env.begin db with
  | error e => simp [hb] at h; subst h; simp [Status.known]
  | ok tx =>
    simp only [hb] at h
    cases hmw : fetchWallet env.merchantWallet tx p.MerchantWalletUserID with
    | error e =>
      simp only [hmw] at h
      exact rollbackReturn_known (fetchWallet_error_known hmw) h
    | ok mw =>
      simp only [hmw] at h
      cases hcw : fetchWallet env.customerWallet tx p.CustomerWalletUserID with
      | error e =>
        simp only [hcw] at h
        exact rollbackReturn_known (fetchWallet_error_known hcw) h
      | ok cw =>
        simp only [hcw] at h
        cases hsrc : fetchAccount env.srcAccount tx cw.ID "DEFAULT" with
        | error e =>
          simp only [hsrc] at h
          exact rollbackReturn_known (fetchAccount_error_known hsrc) h
        | ok src =>
          simp only [hsrc] at h
          cases hdst : fetchAccount env.dstAccount tx cw.ID "PAYMENT" with
          | error e =>
            simp only [hdst] at h
            exact rollbackReturn_known (fetchAccount_error_known hdst) h
          | ok dst =>
            simp only [hdst] at h
            rcases htr : transfer env.transfer tx src dst p.Cents with ⟨_ | e, tx1⟩
            swap
            · simp only [htr] at h
              exact rollbackReturn_known (transfer_error_known htr) h
            simp only [htr] at h
            rcases hcr : createTransaction env.create tx1 env.pid src dst cw cw mw p.Cents
              with ⟨_ | e, tx2⟩
            swap
            · simp only [hcr] at h
              refine rollbackReturn_known ?_ h
              right; right; exact createTransaction_error_code hcr
            simp only [hcr] at h
            rcases hcm : tx2.Commit env.commit db with ⟨_ | e, db1⟩
            · simp [hcm] at h
            · simp [hcm] at h; subst h; simp [Status.known]



theorem authorize_no_emit (env : AuthorizeEnv) (db : Store) (p : AuthorizePayload) :
    (∀ c ∈ (Authorize env db p).calls, c = .Begin ∨ c = .Rollback ∨ c = .Commit) ∧
    (Authorize env db p).sent = [] := by
  unfold Authorize
  repeat' split
  all_goals try dsimp only
  all_goals repeat' split
  all_goals first
    | (rw [rollbackReturn_calls, rollbackReturn_sent]; simp)
    | simp

theorem rollbackReturn_shape {α : Type} (fault : Option String) (db : Store) (tx : Tx)
    (err : Status) :
    ∃ e1, (rollbackReturn fault db tx err : Outcome α) = ⟨.error e1, db, [.Begin, .Rollback], []⟩ := by
  unfold rollbackReturn
  split
  · exact ⟨_, rfl⟩
  · exact ⟨_, rfl⟩

/-- The shapes of a run of `Capture`. -/
theorem capture_cases (env : CaptureEnv) (db : Store) (pid : String) :
    (∃ err, Capture env db pid = ⟨.error err, db, [.Begin], []⟩) ∨
    (∃ err, Capture env db pid = ⟨.error err, db, [.Begin, .Rollback], []⟩) ∨
    (Capture env db pid = ⟨.error ⟨.Internal, ErrTxDone⟩, db, [.Begin, .Rollback, .Commit], []⟩) ∨
    (∃ m, env.commit = some m ∧
      Capture env db pid = ⟨.error ⟨.Internal, m⟩, db, [.Begin, .Commit], []⟩) ∨
    (∃ e db1, env.commit = none ∧
      db.transactions.find? (fun t => t.pid == pid) = some e ∧
      Capture env db pid = ⟨.ok (), db1,
        [.Begin, .Commit, .SendCaptureMessage e.pid e.srcUserID e.amount],
        SendCaptureMessage env.producer e.pid e.srcUserID e.amount⟩) := by
  unfold Capture
  cases hb : env.begin with
  | some m => left; exact ⟨⟨.Internal, m⟩, by simp [Begin]⟩
  | none =>
    right
    simp only [Begin]
    cases hft : fetchTransaction env.fetchTransaction ⟨db, false⟩ pid with
    | error e => left; exact rollbackReturn_shape _ _ _ _
    | ok e =>
      simp only
      cases hsrc : fetchAccount env.srcAccount ⟨db, false⟩ e.dstAccountWalletID "PAYMENT" with
      | error e => left; exact rollbackReturn_shape _ _ _ _
      | ok src =>
        simp only
        cases hdst : fetchAccount env.dstMerchantAccount ⟨db, false⟩
            e.finalDstMerchantWalletID "INCOMING" with
        | error e => left; exact rollbackReturn_shape _ _ _ _
        | ok dst =>
          simp only
          cases hcw : fetchWallet env.customerWallet ⟨db, false⟩ e.srcUserID with
          | error e => left; exact rollbackReturn_shape _ _ _ _
          | ok cw =>
            simp only
            cases hmw : fetchWalletWithWalletID env.merchantWallet ⟨db, false⟩
                e.finalDstMerchantWalletID with
            | error e => left; exact rollbackReturn_shape _ _ _ _
            | ok mw =>
              simp only
              have hd1 := transfer_done env.transfer ⟨db, false⟩ src dst e.amount
              rcases htr : transfer env.transfer ⟨db, false⟩ src dst e.amount with ⟨_ | er, tx1⟩
              swap
              · left; exact rollbackReturn_shape _ _ _ _
              rw [htr] at hd1
              simp only at hd1 ⊢
              have hd2 := createTransaction_done env.create tx1 e.pid src dst cw mw mw e.amount
              rcases hcr : createTransaction env.create tx1 e.pid src dst cw mw mw e.amount
                with ⟨_ | er, tx2⟩
              · rw [hcr] at hd2
                simp only at hd2 ⊢
                have hnd : tx2.done = false := hd2.trans hd1
                right; right
                cases hcm : env.commit with
                | some m =>
                  left
                  exact ⟨m, rfl, by simp [captureCommit, Tx.Commit, hnd, hcm]⟩
                | none =>
                  right
                  exact ⟨e, tx2.view, rfl, (fetchTransaction_ok hft).2.2,
                    by simp [captureCommit, Tx.Commit, hnd, hcm]⟩
              · rw [hcr] at hd2
                simp only at hd2 ⊢
                have hnd : tx2.done = false := hd2.trans hd1
                cases hrb : env.rollback with
                | some m => left; exact ⟨⟨.Internal, m⟩, by simp [Tx.Rollback, hnd]⟩
                | none =>
                  right; left
                  simp [Tx.Rollback, hnd, captureCommit, Tx.Commit]

theorem capture_faultless_ok {env : CaptureEnv} {db : Store} {pid : String}
    {e : transaction} {src dst : account} {cw mw : wallet} (hf : env.faultless)
    (he : db.transactions.find? (fun t => t.pid == pid) = some e)
    (hsrc : db.accounts.find? (fun a => a.walletID == e.dstAccountWalletID &&
      a.accountType == "PAYMENT") = some src)
    (hdst : db.accounts.find? (fun a => a.walletID == e.finalDstMerchantWalletID &&
      a.accountType == "INCOMING") = some dst)
    (hcw : db.wallets.find? (fun w => w.userID == e.srcUserID) = some cw)
    (hmw : db.wallets.find? (fun w => w.ID == e.finalDstMerchantWalletID) = some mw)
    (hge : ¬ src.cents < e.amount) :
    (Capture env db pid).result = .ok () := by
  obtain ⟨h1, h2, h3, h4, h5, h6, h7, h8, h9, -⟩ := hf
  simp [Capture, h1, h2, h3, h4, h5, h6, h7, h8, h9, Begin, fetchTransaction, fetchWallet,
    fetchAccount, fetchWalletWithWalletID, QueryFault.none, he, hsrc, hdst, hcw, hmw, transfer,
    TransferFault.none, hge, createTransaction, InsertFault.none, captureCommit, Tx.Commit,
    Tx.execInsert, Tx.execUpdate]

theorem updateCents_keys (l : List account) (c id : Int) :
    (updateCents l c id).map account.key = l.map account.key := by
  unfold updateCents
  rw [List.map_map]
  apply List.map_congr_left
  intro a _
  by_cases h : a.ID = id <;> simp [h, account.key]

theorem getElem?_after_transfer {l : List account} (hnd : (l.map (fun a => a.ID)).Nodup)
    {src dst a : account} (hs : src ∈ l) (hd : dst ∈ l) (c1 c2 : Int) (k : Nat)
    (ha : l[k]? = some a) (h1 : a ≠ src) (h2 : a ≠ dst) :
    (updateCents (updateCents l c1 src.ID) c2 dst.ID)[k]? = some a := by
  have ham : a ∈ l := List.getElem?_mem ha
  have h1i : a.ID ≠ src.ID := fun e => h1 (account_eq_of_ID hnd ham hs e)
  have h2i : a.ID ≠ dst.ID := fun e => h2 (account_eq_of_ID hnd ham hd e)
  unfold updateCents
  rw [List.getElem?_map, List.getElem?_map, ha]
  simp [h1i, h2i]

theorem isCapture_of_isAuthorize {t : transaction} (h : t.isAuthorize = true) :
    t.isCapture = false := by
  unfold transaction.isAuthorize at h
  unfold transaction.isCapture
  simp only [Bool.and_eq_true, beq_iff_eq] at h
  rw [h.1]
  have : ("DEFAULT" == "PAYMENT") = false := by decide
  rw [this, Bool.false_and]

theorem isAuthorize_of_isCapture {t : transaction} (h : t.isCapture = true) :
    t.isAuthorize = false := by
  unfold transaction.isCapture at h
  unfold transaction.isAuthorize
  simp only [Bool.and_eq_true, beq_iff_eq] at h
  rw [h.1]
  have : ("PAYMENT" == "DEFAULT") = false := by decide
  rw [this, Bool.false_and]

theorem captured_append (J : List transaction) (r : transaction) (P : String) :
    captured (J ++ [r]) P = (captured J P || (r.isCapture && r.pid == P)) := by
  simp [captured, List.any_append]

theorem captured_false_of_fresh {J : List transaction} {P : String}
    (h : ∀ t ∈ J, t.pid ≠ P) : captured J P = false := by
  unfold captured
  rw [List.any_eq_false]
  intro t ht
  simp [h t ht]

theorem escrowOf_append_authorize (J : List transaction) (r : transaction) (c : String)
    (hr : r.isAuthorize = true) (hfresh : ∀ t ∈ J, t.pid ≠ r.pid) :
    escrowOf (J ++ [r]) c = escrowOf J c + (if r.srcUserID = c then r.amount else 0) := by
  have hcap : captured (J ++ [r]) = captured J := by
    funext P
    rw [captured_append, isCapture_of_isAuthorize hr]
    simp
  unfold escrowOf
  rw [hcap, List.map_append, List.sum_append]
  congr 1
  simp [escrowTerm, hr, captured_false_of_fresh hfresh]

theorem escrowTerm_capture_one (cap : String → Bool) (c P : String) (t : transaction) :
    escrowTerm (fun Q => cap Q || P == Q) c t =
      escrowTerm cap c t - (if t.pid = P then escrowTerm cap c t else 0) := by
  unfold escrowTerm
  by_cases hp : t.pid = P
  · subst hp; simp
  · have : (P == t.pid) = false := by
      simp only [beq_eq_false_iff_ne, ne_eq]
      exact fun e => hp e.symm
    simp [hp, this]

theorem escrow_sum_capture_one (cap : String → Bool) (c P : String) (L : List transaction) :
    (L.map (escrowTerm (fun Q => cap Q || P == Q) c)).sum =
      (L.map (escrowTerm cap c)).sum -
        (L.map (fun t => if t.pid = P then escrowTerm cap c t else 0)).sum := by
  induction L with
  | nil => simp
  | cons t L ih =>
    simp only [List.map_cons, List.sum_cons]
    rw [ih, escrowTerm_capture_one]
    omega

theorem escrow_sum_of_pid_zero (cap : String → Bool) (c P : String) (L : List transaction)
    (h : P ∉ (L.filter transaction.isAuthorize).map (fun t => t.pid)) :
    (L.map (fun t => if t.pid = P then escrowTerm cap c t else 0)).sum = 0 := by
  induction L with
  | nil => simp
  | cons t L ih =>
    simp only [List.map_cons, List.sum_cons]
    by_cases ha : t.isAuthorize = true
    · rw [List.filter_cons_of_pos ha, List.map_cons, List.mem_cons, not_or] at h
      rw [ih h.2]
      have : ¬ t.pid = P := fun e => h.1 e.symm
      simp [this]
    · rw [List.filter_cons_of_neg ha] at h
      rw [ih h]
      have : t.isAuthorize = false := by simpa using ha
      simp [escrowTerm, this]

theorem escrow_sum_of_pid (cap : String → Bool) (c : String) (e : transaction)
    (L : List transaction)
    (hnd : ((L.filter transaction.isAuthorize).map (fun t => t.pid)).Nodup)
    (he : e ∈ L) (hea : e.isAuthorize = true) :
    (L.map (fun t => if t.pid = e.pid then escrowTerm cap c t else 0)).sum
      = escrowTerm cap c e := by
  induction L with
  | nil => simp at he
  | cons t L ih =>
    simp only [List.map_cons, List.sum_cons]
    by_cases ha : t.isAuthorize = true
    · rw [List.filter_cons_of_pos ha, List.map_cons, List.nodup_cons] at hnd
      rcases List.mem_cons.mp he with rfl | hmem
      · rw [escrow_sum_of_pid_zero cap c e.pid L hnd.1]
        simp
      · have hpe : e.pid ∈ (L.filter transaction.isAuthorize).map (fun t => t.pid) :=
          List.mem_map.mpr ⟨e, List.mem_filter.mpr ⟨hmem, hea⟩, rfl⟩
        have : ¬ t.pid = e.pid := fun h => hnd.1 (h ▸ hpe)
        rw [ih hnd.2 hmem]
        simp [this]
    · rw [List.filter_cons_of_neg ha] at hnd
      have hne : e ≠ t := fun h => ha (h ▸ hea)
      rcases List.mem_cons.mp he with h | hmem
      · exact absurd h hne
      · rw [ih hnd hmem]
        have : t.isAuthorize = false := by simpa using ha
        simp [escrowTerm, this]

theorem escrowOf_append_capture (J : List transaction) (r e : transaction) (c : String)
    (hr : r.isCapture = true)
    (hnd : ((J.filter transaction.isAuthorize).map (fun t => t.pid)).Nodup)
    (he : e ∈ J) (hea : e.isAuthorize = true) (hep : e.pid = r.pid)
    (hnc : captured J r.pid = false) :
    escrowOf (J ++ [r]) c = escrowOf J c - (if e.srcUserID = c then e.amount else 0) := by
  have hcap : captured (J ++ [r]) = fun Q => captured J Q || r.pid == Q := by
    funext P
    rw [captured_append, hr]
    simp
  unfold escrowOf
  rw [hcap, List.map_append, List.sum_append, escrow_sum_capture_one, ← hep,
    escrow_sum_of_pid _ c e J hnd he hea]
  have h1 : escrowTerm (captured J) c e = if e.srcUserID = c then e.amount else 0 := by
    simp [escrowTerm, hea, hep, hnc]
  have h2 : escrowTerm (fun Q => captured J Q || e.pid == Q) c r = 0 := by
    simp [escrowTerm, isAuthorize_of_isCapture hr]
  simp only [List.map_cons, List.map_nil, List.sum_cons, List.sum_nil]
  rw [h1, h2]
  omega

theorem escrowTerm_nonneg (cap : String → Bool) (c : String) (t : transaction)
    (h : t.isAuthorize = true → 0 < t.amount) : 0 ≤ escrowTerm cap c t := by
  unfold escrowTerm
  split
  · rename_i hc
    simp only [Bool.and_eq_true] at hc
    exact le_of_lt (h hc.1.1)
  · exact le_refl 0

theorem escrow_sum_nonneg (cap : String → Bool) (c : String) (L : List transaction)
    (h : ∀ t ∈ L, t.isAuthorize = true → 0 < t.amount) :
    0 ≤ (L.map (escrowTerm cap c)).sum := by
  induction L with
  | nil => simp
  | cons t L ih =>
    simp only [List.map_cons, List.sum_cons]
    have h1 := escrowTerm_nonneg cap c t (h t (List.mem_cons_self _ _))
    have h2 := ih (fun s hs => h s (List.mem_cons_of_mem _ hs))
    omega

theorem escrowTerm_le_sum (cap : String → Bool) (c : String) (L : List transaction)
    (h : ∀ t ∈ L, t.isAuthorize = true → 0 < t.amount) (e : transaction) (he : e ∈ L) :
    escrowTerm cap c e ≤ (L.map (escrowTerm cap c)).sum := by
  induction L with
  | nil => simp at he
  | cons t L ih =>
    simp only [List.map_cons, List.sum_cons]
    rcases List.mem_cons.mp he with rfl | hmem
    · have := escrow_sum_nonneg cap c L (fun s hs => h s (List.mem_cons_of_mem _ hs))
      omega
    · have h1 := escrowTerm_nonneg cap c t (h t (List.mem_cons_self _ _))
      have h2 := ih (fun s hs => h s (List.mem_cons_of_mem _ hs)) hmem
      omega

theorem wallet_eq_of_ID {l : List wallet} (hnd : (l.map (fun w => w.ID)).Nodup)
    {a b : wallet} (ha : a ∈ l) (hb : b ∈ l) (h : a.ID = b.ID) : a = b :=
  List.inj_on_of_nodup_map hnd ha hb h

theorem find_wallet_userID {l : List wallet} {u : String} {w : wallet}
    (h : l.find? (fun w => w.userID == u) = some w) : w ∈ l ∧ w.userID = u := by
  refine ⟨List.mem_of_find?_eq_some h, ?_⟩
  have := List.find?_some h
  simpa using this

theorem balance_some {s : Store} {w : Int} {t : String} {c : Int}
    (h : s.balance w t = some c) :
    ∃ a, s.accounts.find? (fun a => a.walletID == w && a.accountType == t) = some a ∧
      a.cents = c := by
  unfold Store.balance at h
  cases ha : s.accounts.find? (fun a => a.walletID == w && a.accountType == t) with
  | none => simp [ha] at h
  | some a => exact ⟨a, rfl, by simpa [ha] using h⟩

/-- The balance of any account after the two updates of a transfer. -/
theorem balance_transfer_cases {l : List account} (hnd : (l.map (fun a => a.ID)).Nodup)
    {src dst : account} (hs : src ∈ l) (hd : dst ∈ l) (c1 c2 w : Int) (t : String) (b : Int)
    (h : ((updateCents (updateCents l c1 src.ID) c2 dst.ID).find?
        (fun a => a.walletID == w && a.accountType == t)).map (fun a => a.cents) = some b) :
    ∃ x, l.find? (fun a => a.walletID == w && a.accountType == t) = some x ∧
      b = if x = dst then c2 else if x = src then c1 else x.cents := by
  cases hx : l.find? (fun a => a.walletID == w && a.accountType == t) with
  | none =>
    rw [updateCents_find, updateCents_find, hx] at h
    simp at h
  | some x =>
    rw [balance_after_transfer hnd hs hd c1 c2 w t hx] at h
    exact ⟨x, rfl, (Option.some.inj h).symm⟩

theorem escrowOf_nonneg {customer : String} {cw : wallet} {db : Store}
    (inv : EscrowInv customer cw db) : 0 ≤ escrowOf db.transactions customer :=
  escrow_sum_nonneg _ _ _ (fun t ht ha => (inv.authRows t ht ha).1)

theorem escrow_step_authorize {customer : String} {cw : wallet} {db : Store}
    (inv : EscrowInv customer cw db) {env : AuthorizeEnv} {p : AuthorizePayload}
    (hok : (Authorize env db p).result = .ok env.pid) (hpos : 0 < p.Cents)
    (hfresh : ∀ t ∈ db.transactions, t.pid ≠ env.pid) :
    EscrowInv customer cw (Authorize env db p).db := by
  obtain ⟨mw, cwu, src, dst, -, hcwu, hsrc, hdst, hne, hge, -, hw, ha, ht, -⟩ :=
    authorize_ok_effect hok
  generalize (Authorize env db p).db = A at hw ha ht ⊢
  obtain ⟨hs, hsw, hst⟩ := find_accountType hsrc
  obtain ⟨hd, hdw, hdt⟩ := find_accountType hdst
  obtain ⟨hcwum, hcwuu⟩ := find_wallet_userID hcwu
  obtain ⟨hcwm, hcwc⟩ := find_wallet_userID inv.wallet
  have hkey := inv.accountKey
  have hnn := escrowOf_nonneg inv
  -- the appended row
  have hrow : (⟨(db.transactions.length : Int) + 1, env.pid, cwu.userID, cwu.userID, cwu.ID,
      cwu.ID, "DEFAULT", "PAYMENT", mw.ID, p.Cents⟩ : transaction).isAuthorize = true := by
    simp [transaction.isAuthorize]
  have hesc := escrowOf_append_authorize db.transactions _ customer hrow hfresh
  rw [← ht] at hesc
  simp only at hesc
  -- the two balances of the customer after the transfer
  have hbal : A.balance cw.ID "PAYMENT" = some (escrowOf A.transactions customer) ∧
      escrowOf A.transactions customer ≤ 9223372036854775807 ∧
      ∀ d, A.balance cw.ID "DEFAULT" = some d →
        d + escrowOf A.transactions customer ≤ 9223372036854775807 := by
    obtain ⟨x, hx, hxc⟩ := balance_some inv.payment
    obtain ⟨hxm, hxw, hxt⟩ := find_accountType hx
    by_cases hu : cwu.userID = customer
    · -- an authorization of this customer
      have hcw : cwu = cw := by
        rw [hcwuu] at hu
        rw [hu] at hcwu
        exact Option.some.inj (hcwu.symm.trans inv.wallet)
      subst hcw
      obtain rfl : dst = x := Option.some.inj (hdst.symm.trans hx)
      have hb := inv.bound src.cents (by simp [Store.balance, hsrc])
      rw [hesc, if_pos hu]
      have hr1 : isInt64 (dst.cents + p.Cents) := by unfold isInt64; omega
      have hr2 : isInt64 (src.cents - p.Cents) := by unfold isInt64; omega
      rw [wrap64_of_isInt64 hr1, wrap64_of_isInt64 hr2] at ha
      refine ⟨?_, by omega, ?_⟩
      · rw [Store.balance, ha, balance_after_transfer hkey hs hd _ _ _ _ hdst, if_pos rfl, hxc]
      · intro d hdd
        rw [Store.balance, ha, balance_after_transfer hkey hs hd _ _ _ _ hsrc, if_neg hne,
          if_pos rfl] at hdd
        have := Option.some.inj hdd
        omega
    · -- an authorization of another customer
      have hid : cwu.ID ≠ cw.ID := by
        intro e
        have := wallet_eq_of_ID inv.walletKey hcwum hcwm e
        rw [this, hcwc] at hu
        exact hu rfl
      rw [hesc, if_neg hu, add_zero]
      have hxs : x ≠ src := by
        intro e; rw [e, hsw] at hxw; exact hid hxw
      have hxd : x ≠ dst := by
        intro e; rw [e, hdw] at hxw; exact hid hxw
      refine ⟨?_, inv.range, ?_⟩
      · rw [Store.balance, ha, balance_after_transfer hkey hs hd _ _ _ _ hx, if_neg hxd,
          if_neg hxs, hxc]
      · intro d hdd
        rw [Store.balance, ha] at hdd
        obtain ⟨y, hy, hyc⟩ := balance_transfer_cases hkey hs hd _ _ _ _ _ hdd
        obtain ⟨-, hyw, -⟩ := find_accountType hy
        have hys : y ≠ src := by
          intro e; rw [e, hsw] at hyw; exact hid hyw
        have hyd : y ≠ dst := by
          intro e; rw [e, hdw] at hyw; exact hid hyw
        rw [if_neg hyd, if_neg hys] at hyc
        rw [hyc]
        exact inv.bound y.cents (by simp [Store.balance, hy])
  refine ⟨?_, ?_, ?_, ?_, ?_, ?_, hbal.1, hbal.2.1, hbal.2.2⟩
  · show (A.accounts.map (fun a => a.ID)).Nodup
    rw [ha, updateCents_ids, updateCents_ids]; exact hkey
  · show (A.wallets.map (fun w => w.ID)).Nodup
    rw [hw]; exact inv.walletKey
  · rw [hw]; exact inv.wallet
  · intro t htm hta
    rw [ht] at htm
    rw [hw]
    rcases List.mem_append.mp htm with h | h
    · exact inv.authRows t h hta
    · rw [List.mem_singleton] at h
      subst h
      refine ⟨hpos, cwu, ?_, rfl⟩
      show db.wallets.find? (fun w => w.userID == cwu.userID) = some cwu
      rw [hcwuu]; exact hcwu
  · rw [ht, List.filter_append, List.map_append]
    rw [List.filter_cons_of_pos hrow]
    simp only [List.filter_nil, List.map_cons, List.map_nil]
    rw [List.nodup_append]
    refine ⟨inv.pids, List.nodup_singleton _, ?_⟩
    intro P hP1 hP2
    rw [List.mem_singleton] at hP2
    obtain ⟨t, htm, htp⟩ := List.mem_map.mp hP1
    exact hfresh t (List.mem_filter.mp htm).1 (htp.trans hP2)
  · intro P e he
    rw [ht, List.find?_append] at he
    cases hJ : db.transactions.find? (fun t => t.pid == P) with
    | some e1 =>
      rw [hJ] at he
      simp only [Option.or_some] at he
      obtain rfl := Option.some.inj he
      exact inv.first P _ hJ
    | none =>
      rw [hJ] at he
      simp only [Option.none_or] at he
      have := List.mem_of_find?_eq_some he
      rw [List.mem_singleton] at this
      subst this
      exact hrow

theorem escrow_step_capture {customer : String} {cw : wallet} {db : Store}
    (inv : EscrowInv customer cw db) {env : CaptureEnv} {pid : String}
    (hok : (Capture env db pid).result = .ok ())
    (hnc : captured db.transactions pid = false) :
    EscrowInv customer cw (Capture env db pid).db := by
  obtain ⟨e, src, dst, cw1, mw, he, hsrc, hdst, -, -, hne, hge, hw, ha, ht, -⟩ :=
    capture_ok_effect hok
  generalize (Capture env db pid).db = C at hw ha ht ⊢
  obtain ⟨hs, hsw, hst⟩ := find_accountType hsrc
  obtain ⟨hd, hdw, hdt⟩ := find_accountType hdst
  obtain ⟨hcwm, hcwc⟩ := find_wallet_userID inv.wallet
  have hkey := inv.accountKey
  have hnn := escrowOf_nonneg inv
  have hem : e ∈ db.transactions := List.mem_of_find?_eq_some he
  have hep : e.pid = pid := by
    have := List.find?_some he
    simpa using this
  have hea : e.isAuthorize = true := inv.first pid e he
  obtain ⟨hepos, w, hwf, hew⟩ := inv.authRows e hem hea
  obtain ⟨hwm, hwu⟩ := find_wallet_userID hwf
  -- the appended row
  have hrow : (⟨(db.transactions.length : Int) + 1, e.pid, cw1.userID, mw.userID, cw1.ID,
      mw.ID, "PAYMENT", "INCOMING", mw.ID, e.amount⟩ : transaction).isCapture = true := by
    simp [transaction.isCapture]
  have hrowa := isAuthorize_of_isCapture hrow
  have hesc := escrowOf_append_capture db.transactions _ e customer hrow inv.pids hem hea rfl
    (by simpa [hep] using hnc)
  rw [← ht] at hesc
  have hbal : C.balance cw.ID "PAYMENT" = some (escrowOf C.transactions customer) ∧
      escrowOf C.transactions customer ≤ escrowOf db.transactions customer := by
    obtain ⟨x, hx, hxc⟩ := balance_some inv.payment
    obtain ⟨hxm, hxw, hxt⟩ := find_accountType hx
    have hxd : x ≠ dst := by
      intro e1; rw [e1, hdt] at hxt; exact absurd hxt (by decide)
    by_cases hu : e.srcUserID = customer
    · -- a capture of a payment of this customer
      have hwc : w = cw := by
        rw [hu] at hwf
        exact Option.some.inj (hwf.symm.trans inv.wallet)
      subst hwc
      rw [hew] at hsrc
      obtain rfl : src = x := Option.some.inj (hsrc.symm.trans hx)
      have hrange := inv.range
      rw [hesc, if_pos hu]
      have hr1 : isInt64 (src.cents - e.amount) := by unfold isInt64; omega
      rw [wrap64_of_isInt64 hr1] at ha
      refine ⟨?_, by omega⟩
      rw [Store.balance, ha, balance_after_transfer hkey hs hd _ _ _ _ hx, if_neg hne, if_pos rfl,
        hxc]
    · -- a capture of a payment of another customer
      have hid : w.ID ≠ cw.ID := by
        intro e1
        have := wallet_eq_of_ID inv.walletKey hwm hcwm e1
        rw [this, hcwc] at hwu
        exact hu hwu.symm
      rw [hesc, if_neg hu, sub_zero]
      have hxs : x ≠ src := by
        intro e1; rw [e1, hsw, hew] at hxw; exact hid hxw
      refine ⟨?_, le_refl _⟩
      rw [Store.balance, ha, balance_after_transfer hkey hs hd _ _ _ _ hx, if_neg hxd, if_neg hxs,
        hxc]
  refine ⟨?_, ?_, ?_, ?_, ?_, ?_, hbal.1, le_trans hbal.2 inv.range, ?_⟩
  · show (C.accounts.map (fun a => a.ID)).Nodup
    rw [ha, updateCents_ids, updateCents_ids]; exact hkey
  · show (C.wallets.map (fun w => w.ID)).Nodup
    rw [hw]; exact inv.walletKey
  · rw [hw]; exact inv.wallet
  · intro t htm hta
    rw [ht] at htm
    rw [hw]
    rcases List.mem_append.mp htm with h | h
    · exact inv.authRows t h hta
    · rw [List.mem_singleton] at h
      subst h
      rw [hrowa] at hta
      cases hta
  · rw [ht, List.filter_append]
    have : ([(⟨(db.transactions.length : Int) + 1, e.pid, cw1.userID, mw.userID, cw1.ID,
        mw.ID, "PAYMENT", "INCOMING", mw.ID, e.amount⟩ : transaction)].filter
          transaction.isAuthorize) = [] := by
      rw [List.filter_cons_of_neg (by rw [hrowa]; decide)]
      rfl
    rw [this, List.append_nil]
    exact inv.pids
  · intro P e1 he1
    rw [ht, List.find?_append] at he1
    cases hJ : db.transactions.find? (fun t => t.pid == P) with
    | some e2 =>
      rw [hJ] at he1
      simp only [Option.or_some] at he1
      obtain rfl := Option.some.inj he1
      exact inv.first P _ hJ
    | none =>
      rw [hJ] at he1
      simp only [Option.none_or] at he1
      have hm := List.mem_of_find?_eq_some he1
      rw [List.mem_singleton] at hm
      subst hm
      have hp := List.find?_some he1
      simp only [beq_iff_eq] at hp
      rw [List.find?_eq_none] at hJ
      have := hJ e hem
      simp [hp] at this
  · intro d hdd
    rw [Store.balance, ha] at hdd
    obtain ⟨y, hy, hyc⟩ := balance_transfer_cases hkey hs hd _ _ _ _ _ hdd
    obtain ⟨-, -, hyt⟩ := find_accountType hy
    have hys : y ≠ src := by
      intro e1; rw [e1, hst] at hyt; exact absurd hyt (by decide)
    have hyd : y ≠ dst := by
      intro e1; rw [e1, hdt] at hyt; exact absurd hyt (by decide)
    rw [if_neg hyd, if_neg hys] at hyc
    rw [hyc]
    have := inv.bound y.cents (by simp [Store.balance, hy])
    have := hbal.2
    omega

theorem escrow_run {customer : String} {cw : wallet} (ops : List Op) :
    ∀ db : Store, EscrowInv customer cw db → admissibleRun db ops →
      EscrowInv customer cw (runOps db ops) := by
  induction ops with
  | nil => intro db inv _; exact inv
  | cons op ops ih =>
    intro db inv hadm
    obtain ⟨h1, h2⟩ := hadm
    refine ih (op.run db) ?_ h2
    cases op with
    | authorize env p => exact escrow_step_authorize inv h1.1 h1.2.1 h1.2.2
    | capture env pid => exact escrow_step_capture inv h1.1 h1.2

theorem fetchTransaction_error_code {f : QueryFault} {tx : Tx} {pid : String} {err : Status}
    (h : fetchTransaction f tx pid = .error err) :
    err.code = .NotFound ∨ err.code = .Internal := by
  rcases f with ⟨_ | _, _ | _⟩ <;>
    cases hf : tx.view.transactions.find? (fun t => t.pid == pid) <;>
    simp [fetchTransaction, hf] at h <;> subst h <;> simp

theorem fetchWalletWithWalletID_error_code {f : QueryFault} {tx : Tx} {i : Int} {err : Status}
    (h : fetchWalletWithWalletID f tx i = .error err) :
    err.code = .NotFound ∨ err.code = .Internal := by
  rcases f with ⟨_ | _, _ | _⟩ <;>
    cases hf : tx.view.wallets.find? (fun w => w.ID == i) <;>
    simp [fetchWalletWithWalletID, hf] at h <;> subst h <;> simp

theorem transfer_aborted {f : TransferFault} {tx tx1 : Tx} {src dst : account} {amount : Int}
    {err : Status} (h : transfer f tx src dst amount = (some err, tx1))
    (hc : err.code = .Aborted) : src.cents < amount := by
  by_contra hlt
  rcases f with ⟨_ | _, _ | _, _ | _⟩ <;> simp [transfer, hlt] at h <;>
    (rw [← h.1] at hc; cases hc)

theorem rollbackReturn_aborted {α : Type} {fault : Option String} {db : Store} {tx : Tx}
    {err e1 : Status} (h : (rollbackReturn fault db tx err : Outcome α).result = .error e1)
    (hc : e1.code = .Aborted) : err.code = .Aborted := by
  rcases rollbackReturn_code h with h1 | h1
  · rw [← h1]; exact hc
  · rw [h1] at hc; cases hc

theorem captureCommit_not_aborted {env : CaptureEnv} {db : Store} {tx : Tx}
    {calls : List Call} {e : transaction} {e1 : Status}
    (h : (captureCommit env db tx calls e).result = .error e1) : e1.code = .Internal := by
  unfold captureCommit at h
  split at h
  · simp at h; subst h; rfl
  · simp at h

/-- A `Capture` that fails with Aborted found the entry and its escrow account, and
the balance of that account was below the amount of the entry. -/
theorem capture_aborted_inv {env : CaptureEnv} {db : Store} {pid : String} {err : Status}
    (h : (Capture env db pid).result = .error err) (hc : err.code = .Aborted) :
    ∃ e src, db.transactions.find? (fun t => t.pid == pid) = some e ∧
      db.accounts.find? (fun a => a.walletID == e.dstAccountWalletID &&
        a.accountType == "PAYMENT") = some src ∧
      src.cents < e.amount := by
  unfold Capture at h
  cases hb : env.begin with
  | some m => simp [Begin, hb] at h; subst h; cases hc
  | none =>
    simp only [Begin, hb] at h
    cases hft : fetchTransaction env.fetchTransaction ⟨db, false⟩ pid with
    | error e =>
      simp only [hft] at h
      have := rollbackReturn_aborted h hc
      rcases fetchTransaction_error_code hft with h1 | h1 <;> rw [h1] at this <;> cases this
    | ok e =>
      simp only [hft] at h
      cases hsrc : fetchAccount env.srcAccount ⟨db, false⟩ e.dstAccountWalletID "PAYMENT" with
      | error e =>
        simp only [hsrc] at h
        have := rollbackReturn_aborted h hc
        rcases fetchAccount_error_code hsrc with h1 | h1 <;> rw [h1] at this <;> cases this
      | ok src =>
        simp only [hsrc] at h
        cases hdst : fetchAccount env.dstMerchantAccount ⟨db, false⟩
            e.finalDstMerchantWalletID "INCOMING" with
        | error e =>
          simp only [hdst] at h
          have := rollbackReturn_aborted h hc
          rcases fetchAccount_error_code hdst with h1 | h1 <;> rw [h1] at this <;> cases this
        | ok dst =>
          simp only [hdst] at h
          cases hcw : fetchWallet env.customerWallet ⟨db, false⟩ e.srcUserID with
          | error e =>
            simp only [hcw] at h
            have := rollbackReturn_aborted h hc
            rcases fetchWallet_error_code hcw with h1 | h1 <;> rw [h1] at this <;> cases this
          | ok cw =>
            simp only [hcw] at h
            cases hmw : fetchWalletWithWalletID env.merchantWallet ⟨db, false⟩
                e.finalDstMerchantWalletID with
            | error e =>
              simp only [hmw] at h
              have := rollbackReturn_aborted h hc
              rcases fetchWalletWithWalletID_error_code hmw with h1 | h1 <;>
                rw [h1] at this <;> cases this
            | ok mw =>
              simp only [hmw] at h
              rcases htr : transfer env.transfer ⟨db, false⟩ src dst e.amount with ⟨_ | er, tx1⟩
              swap
              · simp only [htr] at h
                have := rollbackReturn_aborted h hc
                exact ⟨e, src, (fetchTransaction_ok hft).2.2, (fetchAccount_ok hsrc).2.2,
                  transfer_aborted htr this⟩
              simp only [htr] at h
              rcases hcr : createTransaction env.create tx1 e.pid src dst cw mw mw e.amount
                with ⟨_ | er, tx2⟩
              · simp only [hcr] at h
                have := captureCommit_not_aborted h
                rw [this] at hc; cases hc
              · simp only [hcr] at h
                rcases hrb : tx2.Rollback env.rollback with ⟨_ | m, tx3⟩
                · simp only [hrb] at h
                  have := captureCommit_not_aborted h
                  rw [this] at hc; cases hc
                · simp only [hrb] at h
                  simp at h; subst h; cases hc

theorem escrow_initial {db : Store} {customer : String}
    (hkey : db.accountIDsUnique) (hwkey : db.walletIDsUnique)
    (hint : ∀ a ∈ db.accounts, isInt64 a.cents)
    (hJ : db.transactions = [])
    (hP : db.userBalance customer "PAYMENT" = some 0) :
    ∃ cw, db.walletOf customer = some cw ∧ EscrowInv customer cw db := by
  obtain ⟨cw, x, hcw, hx, hxc⟩ := userBalance_some hP
  have hesc : escrowOf db.transactions customer = 0 := by rw [hJ]; rfl
  refine ⟨cw, hcw, hkey, hwkey, hcw, ?_, ?_, ?_, ?_, ?_, ?_⟩
  · intro t ht; rw [hJ] at ht; cases ht
  · rw [hJ]; exact List.nodup_nil
  · intro P e he; rw [hJ] at he; cases he
  · rw [hesc]; simp [Store.balance, hx, hxc]
  · rw [hesc]; decide
  · intro d hd
    obtain ⟨y, hy, hyc⟩ := balance_some hd
    have := hint y (find_accountType hy).1
    unfold isInt64 at this
    rw [hesc]; omega

/-! ## Claim C1 -/

/-- Claim C1 (amended): after a successful `Authorize`, provided the ids of the
account rows are unique and neither new balance leaves the range of `int64`, the
DEFAULT balance of the customer has decreased by the amount, the PAYMENT balance
has increased by it, and their sum is unchanged. -/
theorem authorize_success_moves_funds (env : AuthorizeEnv) (db : Store) (p : AuthorizePayload)
    (pid : String) (hkey : db.accountIDsUnique)
    (hok : (Authorize env db p).result = .ok pid)
    (hfit : ∀ d q, db.userBalance p.CustomerWalletUserID "DEFAULT" = some d →
      db.userBalance p.CustomerWalletUserID "PAYMENT" = some q →
      isInt64 (d - p.Cents) ∧ isInt64 (q + p.Cents)) :
    ∃ d q d1 q1,
      db.userBalance p.CustomerWalletUserID "DEFAULT" = some d ∧
      db.userBalance p.CustomerWalletUserID "PAYMENT" = some q ∧
      (Authorize env db p).db.userBalance p.CustomerWalletUserID "DEFAULT" = some d1 ∧
      (Authorize env db p).db.userBalance p.CustomerWalletUserID "PAYMENT" = some q1 ∧
      d1 = d - p.Cents ∧ q1 = q + p.Cents ∧ d1 + q1 = d + q := by
  obtain ⟨mw, cw, src, dst, -, hcw, hsrc, hdst, hne, -, -, hw, ha, -⟩ := authorize_ok_effect hok
  have hs := (find_accountType hsrc).1
  have hd := (find_accountType hdst).1
  have hbd : db.userBalance p.CustomerWalletUserID "DEFAULT" = some src.cents := by
    simp [Store.userBalance, Store.walletOf, Store.balance, hcw, hsrc]
  have hbq : db.userBalance p.CustomerWalletUserID "PAYMENT" = some dst.cents := by
    simp [Store.userBalance, Store.walletOf, Store.balance, hcw, hdst]
  obtain ⟨hf1, hf2⟩ := hfit _ _ hbd hbq
  have had : (Authorize env db p).db.userBalance p.CustomerWalletUserID "DEFAULT" =
      some (src.cents - p.Cents) := by
    rw [userBalance_of_wallet (hw ▸ hcw), Store.balance, ha,
      balance_after_transfer hkey hs hd _ _ _ _ hsrc, if_neg hne, if_pos rfl,
      wrap64_of_isInt64 hf1]
  have haq : (Authorize env db p).db.userBalance p.CustomerWalletUserID "PAYMENT" =
      some (dst.cents + p.Cents) := by
    rw [userBalance_of_wallet (hw ▸ hcw), Store.balance, ha,
      balance_after_transfer hkey hs hd _ _ _ _ hdst, if_pos rfl, wrap64_of_isInt64 hf2]
  exact ⟨_, _, _, _, hbd, hbq, had, haq, rfl, rfl, by omega⟩

/-- Claim C1, counterexample: with PAYMENT at the largest `int64`, a successful
`Authorize` of 1 cent does not leave PAYMENT at its previous balance plus 1. -/
theorem authorize_credit_overflow :
    (Authorize (AuthorizeEnv.healthy "P") overflowStore ⟨"customer", "merchant", 1, "USD"⟩).result
      = .ok "P" ∧
    overflowStore.userBalance "customer" "PAYMENT" = some 9223372036854775807 ∧
    (Authorize (AuthorizeEnv.healthy "P") overflowStore
      ⟨"customer", "merchant", 1, "USD"⟩).db.userBalance "customer" "PAYMENT" ≠
      some (9223372036854775807 + 1) := by
  decide

/-- Claim C1, witness: the amended statement at the scenario store. -/
theorem authorize_success_moves_funds_witness :
    ∃ d q d1 q1 : Int,
      scenarioStore.userBalance "customer" "DEFAULT" = some d ∧
      scenarioStore.userBalance "customer" "PAYMENT" = some q ∧
      (Authorize (AuthorizeEnv.healthy "P") scenarioStore
        ⟨"customer", "merchant", 2500, "USD"⟩).db.userBalance "customer" "DEFAULT" = some d1 ∧
      (Authorize (AuthorizeEnv.healthy "P") scenarioStore
        ⟨"customer", "merchant", 2500, "USD"⟩).db.userBalance "customer" "PAYMENT" = some q1 ∧
      d1 = d - 2500 ∧ q1 = q + 2500 ∧ d1 + q1 = d + q :=
  authorize_success_moves_funds (AuthorizeEnv.healthy "P") scenarioStore
    ⟨"customer", "merchant", 2500, "USD"⟩ "P" (by decide) (by decide)
    (by
      intro d q hd hq
      obtain rfl : (10000 : Int) = d := Option.some.inj hd
      obtain rfl : (0 : Int) = q := Option.some.inj hq
      decide)

/-! ## Claim C2 -/

/-- Claim C2 (amended): after a successful `Capture(pid)`, with `e` the journal row
that `fetchTransaction` returns for `pid`, provided the ids of the account rows
are unique and neither new balance leaves the range of `int64`: the PAYMENT
account of wallet `e.dst_wallet_id` ends with its previous balance minus
`e.amount` and the INCOMING account of wallet `e.final_dst_merchant_wallet_id`
ends with its previous balance plus `e.amount`. -/
theorem capture_success_moves_funds (env : CaptureEnv) (db : Store) (pid : String)
    (e : transaction) (hkey : db.accountIDsUnique)
    (hok : (Capture env db pid).result = .ok ())
    (he : fetchTransaction QueryFault.none ⟨db, false⟩ pid = .ok e)
    (hfit : ∀ q i, db.balance e.dstAccountWalletID "PAYMENT" = some q →
      db.balance e.finalDstMerchantWalletID "INCOMING" = some i →
      isInt64 (q - e.amount) ∧ isInt64 (i + e.amount)) :
    ∃ q i,
      db.balance e.dstAccountWalletID "PAYMENT" = some q ∧
      db.balance e.finalDstMerchantWalletID "INCOMING" = some i ∧
      (Capture env db pid).db.balance e.dstAccountWalletID "PAYMENT" = some (q - e.amount) ∧
      (Capture env db pid).db.balance e.finalDstMerchantWalletID "INCOMING" =
        some (i + e.amount) := by
  obtain ⟨e1, src, dst, cw, mw, he1, hsrc, hdst, -, -, hne, -, -, ha, -⟩ := capture_ok_effect hok
  have hee : e1 = e := by
    have := (fetchTransaction_ok he).2.2
    simp only at this
    rw [he1] at this
    exact Option.some.inj this
  subst hee
  have hs := (find_accountType hsrc).1
  have hd := (find_accountType hdst).1
  have hbq : db.balance e1.dstAccountWalletID "PAYMENT" = some src.cents := by
    simp [Store.balance, hsrc]
  have hbi : db.balance e1.finalDstMerchantWalletID "INCOMING" = some dst.cents := by
    simp [Store.balance, hdst]
  obtain ⟨hf1, hf2⟩ := hfit _ _ hbq hbi
  refine ⟨_, _, hbq, hbi, ?_, ?_⟩
  · rw [Store.balance, ha, balance_after_transfer hkey hs hd _ _ _ _ hsrc, if_neg hne,
      if_pos rfl, wrap64_of_isInt64 hf1]
  · rw [Store.balance, ha, balance_after_transfer hkey hs hd _ _ _ _ hdst, if_pos rfl,
      wrap64_of_isInt64 hf2]

/-- Claim C2, counterexample: with INCOMING at the largest `int64`, a successful
`Capture` of 1 cent does not leave INCOMING at its previous balance plus 1. -/
theorem capture_credit_overflow :
    (Capture (CaptureEnv.healthy "2024-01-01") captureOverflowStore "P").result = .ok () ∧
    fetchTransaction QueryFault.none ⟨captureOverflowStore, false⟩ "P" =
      .ok ⟨1, "P", "customer", "customer", 1, 1, "DEFAULT", "PAYMENT", 2, 1⟩ ∧
    captureOverflowStore.balance 2 "INCOMING" = some 9223372036854775807 ∧
    (Capture (CaptureEnv.healthy "2024-01-01") captureOverflowStore "P").db.balance 2 "INCOMING"
      = some (-9223372036854775808) ∧
    (Capture (CaptureEnv.healthy "2024-01-01") captureOverflowStore "P").db.balance 2 "INCOMING"
      ≠ some (9223372036854775807 + 1) := by
  decide

/-- Claim C2, witness: the amended statement at a store holding an authorization
of 2500 cents. -/
theorem capture_success_moves_funds_witness :
    ∃ q i : Int,
      authorizedStore.balance 1 "PAYMENT" = some q ∧
      authorizedStore.balance 2 "INCOMING" = some i ∧
      (Capture (CaptureEnv.healthy "2024-01-01") authorizedStore "P").db.balance 1 "PAYMENT"
        = some (q - 2500) ∧
      (Capture (CaptureEnv.healthy "2024-01-01") authorizedStore "P").db.balance 2 "INCOMING"
        = some (i + 2500) :=
  capture_success_moves_funds (CaptureEnv.healthy "2024-01-01") authorizedStore "P"
    ⟨1, "P", "customer", "customer", 1, 1, "DEFAULT", "PAYMENT", 2, 2500⟩
    (by decide) (by decide) (by decide)
    (by
      intro q i hq hi
      obtain rfl : (2500 : Int) = q := Option.some.inj hq
      obtain rfl : (0 : Int) = i := Option.some.inj hi
      decide)

/-! ## Claim C3 -/

/-- Claim C3: an `Authorize` call whose currency is not exactly "USD" returns
InvalidArgument, leaves the whole store (balances and journal) as it was, and
makes no external call at all: no transaction is opened. This holds whatever the
user ids, the amount and the failures of the database would be. -/
theorem authorize_non_usd_rejected (env : AuthorizeEnv) (db : Store) (p : AuthorizePayload)
    (h : p.Currency ≠ "USD") :
    (Authorize env db p).result = .error ⟨.InvalidArgument, "only accepts USD"⟩ ∧
    (Authorize env db p).db = db ∧
    (Authorize env db p).calls = [] ∧
    (Authorize env db p).sent = [] := by
  simp [Authorize, h]

/-- Claim C3, witness: a call in EUR on the scenario store, with a database whose
`Begin` would fail. -/
theorem authorize_non_usd_rejected_witness :
    (Authorize { AuthorizeEnv.healthy "P" with begin := some "connection refused" } scenarioStore
      ⟨"customer", "merchant", 2500, "EUR"⟩).result
        = .error ⟨.InvalidArgument, "only accepts USD"⟩ ∧
    (Authorize { AuthorizeEnv.healthy "P" with begin := some "connection refused" } scenarioStore
      ⟨"customer", "merchant", 2500, "EUR"⟩).db = scenarioStore ∧
    (Authorize { AuthorizeEnv.healthy "P" with begin := some "connection refused" } scenarioStore
      ⟨"customer", "merchant", 2500, "EUR"⟩).calls = [] ∧
    (Authorize { AuthorizeEnv.healthy "P" with begin := some "connection refused" } scenarioStore
      ⟨"customer", "merchant", 2500, "EUR"⟩).sent = [] :=
  authorize_non_usd_rejected _ _ _ (by decide)

/-! ## Claim C4 -/

/-- Claim C4: when both wallets and the DEFAULT and PAYMENT accounts of the
customer exist, the DEFAULT balance is below the amount, and `Begin`, the four
lookups and the rollback succeed, a "USD" `Authorize` returns Aborted and leaves
the whole store (every balance and the journal) as it was. -/
theorem authorize_insufficient_funds (env : AuthorizeEnv) (db : Store) (p : AuthorizePayload)
    (mw cw : wallet) (d q : Int)
    (husd : p.Currency = "USD")
    (hbegin : env.begin = none)
    (hq1 : env.merchantWallet = QueryFault.none) (hq2 : env.customerWallet = QueryFault.none)
    (hq3 : env.srcAccount = QueryFault.none) (hq4 : env.dstAccount = QueryFault.none)
    (hrb : env.rollback = none)
    (hmw : db.walletOf p.MerchantWalletUserID = some mw)
    (hcw : db.walletOf p.CustomerWalletUserID = some cw)
    (hd : db.balance cw.ID "DEFAULT" = some d)
    (hq : db.balance cw.ID "PAYMENT" = some q)
    (hlt : d < p.Cents) :
    (Authorize env db p).result = .error ⟨.Aborted, "not enough money"⟩ ∧
    (Authorize env db p).db = db := by
  unfold Store.walletOf at hmw hcw
  unfold Store.balance at hd hq
  cases hsrc : db.accounts.find? (fun a => a.walletID == cw.ID && a.accountType == "DEFAULT") with
  | none => simp [hsrc] at hd
  | some src =>
    cases hdst : db.accounts.find? (fun a => a.walletID == cw.ID && a.accountType == "PAYMENT")
      with
    | none => simp [hdst] at hq
    | some dst =>
      have hsc : src.cents = d := by simpa [hsrc] using hd
      have hlt1 : src.cents < p.Cents := hsc ▸ hlt
      simp [Authorize, husd, hbegin, hq1, hq2, hq3, hq4, hrb, Begin, fetchWallet, fetchAccount,
        QueryFault.none, hmw, hcw, hsrc, hdst, transfer, hlt1, rollbackReturn, Tx.Rollback]

/-- Claim C4, witness: 20000 cents asked from the scenario store, which holds 10000. -/
theorem authorize_insufficient_funds_witness :
    (Authorize (AuthorizeEnv.healthy "P") scenarioStore
      ⟨"customer", "merchant", 20000, "USD"⟩).result = .error ⟨.Aborted, "not enough money"⟩ ∧
    (Authorize (AuthorizeEnv.healthy "P") scenarioStore
      ⟨"customer", "merchant", 20000, "USD"⟩).db = scenarioStore :=
  authorize_insufficient_funds (AuthorizeEnv.healthy "P") scenarioStore
    ⟨"customer", "merchant", 20000, "USD"⟩ ⟨2, "merchant", "MERCHANT"⟩
    ⟨1, "customer", "CUSTOMER"⟩ 10000 0 rfl rfl rfl rfl rfl rfl rfl (by decide) (by decide)
    (by decide) (by decide) (by decide)

/-! ## Claim C5 -/

/-- Claim C5 (amended): when the journal holds no row for `pid`, `Capture(pid)`
returns an error, NotFound when `Begin`, the journal lookup and the rollback
succeed and otherwise NotFound or Internal; it leaves the whole store (every
balance and the journal) as it was, never calls the event emitter and hands no
message to either topic. -/
theorem capture_unknown_pid (env : CaptureEnv) (db : Store) (pid : String)
    (hno : ∀ t ∈ db.transactions, t.pid ≠ pid) :
    (∃ err, (Capture env db pid).result = .error err ∧
      (err.code = .NotFound ∨ err.code = .Internal)) ∧
    (env.begin = none → env.fetchTransaction = QueryFault.none → env.rollback = none →
      (Capture env db pid).result = .error ⟨.NotFound, ErrNoRows⟩) ∧
    (Capture env db pid).db = db ∧
    (∀ a b c, Call.SendCaptureMessage a b c ∉ (Capture env db pid).calls) ∧
    (Capture env db pid).sent = [] := by
  have hfind : db.transactions.find? (fun t => t.pid == pid) = none := by
    rw [List.find?_eq_none]
    intro t ht
    simpa using hno t ht
  rcases env with ⟨_ | b, ⟨_ | fp, _ | fs⟩, _, _, _, _, _, _, _, _ | r, _⟩ <;>
    simp [Capture, Begin, fetchTransaction, hfind, rollbackReturn, Tx.Rollback, QueryFault.none]

/-- Claim C5, counterexample: with no journal row for the pid, `Capture` returns
Internal, not NotFound, when `db.Begin()` fails. -/
theorem capture_unknown_pid_begin_fails :
    (∀ t ∈ scenarioStore.transactions, t.pid ≠ "P") ∧
    (Capture { CaptureEnv.healthy "2024-01-01" with begin := some "connection refused" }
      scenarioStore "P").result = .error ⟨.Internal, "connection refused"⟩ := by
  decide

/-- Claim C5, witness: an unknown pid on the scenario store, whose journal is empty. -/
theorem capture_unknown_pid_witness :
    (Capture (CaptureEnv.healthy "2024-01-01") scenarioStore "P").result
      = .error ⟨.NotFound, ErrNoRows⟩ ∧
    (Capture (CaptureEnv.healthy "2024-01-01") scenarioStore "P").db = scenarioStore ∧
    (Capture (CaptureEnv.healthy "2024-01-01") scenarioStore "P").sent = [] :=
  have h := capture_unknown_pid (CaptureEnv.healthy "2024-01-01") scenarioStore "P" (by decide)
  ⟨h.2.1 rfl rfl rfl, h.2.2.1, h.2.2.2.2⟩

/-! ## Claim C6 -/

/-- Claim C6 (amended): when the ids of the account rows are unique, every
`Authorize` call and every `Capture` call, successful or failed, leaves the sum of
the balances of all accounts unchanged, provided neither balance the transfer
would write leaves the range of `int64`. -/
theorem total_balance_conserved (db : Store) (hkey : db.accountIDsUnique) :
    (∀ (env : AuthorizeEnv) (p : AuthorizePayload),
      (∀ d q, db.userBalance p.CustomerWalletUserID "DEFAULT" = some d →
        db.userBalance p.CustomerWalletUserID "PAYMENT" = some q →
        isInt64 (d - p.Cents) ∧ isInt64 (q + p.Cents)) →
      (Authorize env db p).db.total = db.total) ∧
    (∀ (env : CaptureEnv) (pid : String),
      (∀ e q i, fetchTransaction QueryFault.none ⟨db, false⟩ pid = .ok e →
        db.balance e.dstAccountWalletID "PAYMENT" = some q →
        db.balance e.finalDstMerchantWalletID "INCOMING" = some i →
        isInt64 (q - e.amount) ∧ isInt64 (i + e.amount)) →
      (Capture env db pid).db.total = db.total) := by
  constructor
  · intro env p hfit
    rcases authorize_db_unchanged_or_ok env db p with h | ⟨pid, hok⟩
    · rw [h]
    · obtain ⟨mw, cw, src, dst, -, hcw, hsrc, hdst, hne, -, -, -, ha, -⟩ :=
        authorize_ok_effect hok
      have hs := (find_accountType hsrc).1
      have hd := (find_accountType hdst).1
      obtain ⟨hf1, hf2⟩ := hfit src.cents dst.cents
        (by simp [Store.userBalance, Store.walletOf, Store.balance, hcw, hsrc])
        (by simp [Store.userBalance, Store.walletOf, Store.balance, hcw, hdst])
      rw [Store.total, ha, total_after_transfer hkey hs hd hne, wrap64_of_isInt64 hf1,
        wrap64_of_isInt64 hf2, Store.total]
      omega
  · intro env pid hfit
    rcases capture_db_unchanged_or_ok env db pid with h | hok
    · rw [h]
    · obtain ⟨e, src, dst, cw, mw, he, hsrc, hdst, -, -, hne, -, -, ha, -⟩ :=
        capture_ok_effect hok
      have hs := (find_accountType hsrc).1
      have hd := (find_accountType hdst).1
      obtain ⟨hf1, hf2⟩ := hfit e src.cents dst.cents
        (by simp [fetchTransaction, QueryFault.none, he])
        (by simp [Store.balance, hsrc]) (by simp [Store.balance, hdst])
      rw [Store.total, ha, total_after_transfer hkey hs hd hne, wrap64_of_isInt64 hf1,
        wrap64_of_isInt64 hf2, Store.total]
      omega

/-- Claim C6, counterexample: each (wallet, purpose) pair identifies one account,
the call succeeds, and the sum of all balances drops from 2^63 to -2^63. -/
theorem total_balance_overflow :
    overflowStore.purposesUnique ∧
    (Authorize (AuthorizeEnv.healthy "P") overflowStore ⟨"customer", "merchant", 1, "USD"⟩).result
      = .ok "P" ∧
    overflowStore.total = 9223372036854775808 ∧
    (Authorize (AuthorizeEnv.healthy "P") overflowStore
      ⟨"customer", "merchant", 1, "USD"⟩).db.total = -9223372036854775808 := by
  decide

/-- Claim C6, witness: the authorization of the scenario and the capture that
follows it. -/
theorem total_balance_conserved_witness :
    (Authorize (AuthorizeEnv.healthy "P") scenarioStore
      ⟨"customer", "merchant", 2500, "USD"⟩).db.total = scenarioStore.total ∧
    (Capture (CaptureEnv.healthy "2024-01-01") authorizedStore "P").db.total
      = authorizedStore.total :=
  ⟨(total_balance_conserved scenarioStore (by decide)).1 (AuthorizeEnv.healthy "P")
      ⟨"customer", "merchant", 2500, "USD"⟩
      (by
        intro d q hd hq
        obtain rfl : (10000 : Int) = d := Option.some.inj hd
        obtain rfl : (0 : Int) = q := Option.some.inj hq
        decide),
   (total_balance_conserved authorizedStore (by decide)).2 (CaptureEnv.healthy "2024-01-01") "P"
      (by
        intro e q i he hq hi
        obtain rfl : (⟨1, "P", "customer", "customer", 1, 1, "DEFAULT", "PAYMENT", 2, 2500⟩ :
          transaction) = e := Except.ok.inj he
        obtain rfl : (2500 : Int) = q := Option.some.inj hq
        obtain rfl : (0 : Int) = i := Option.some.inj hi
        decide)⟩

/-! ## Claim C7 -/

/-- Claim C7 (amended): from a store in which every balance is a non-negative
`int64`, every balance is still non-negative after any `Authorize` call with a
positive amount and after any `Capture` call whose journal entry has a positive
amount, provided the credited balance plus the amount does not exceed the largest
`int64` 9223372036854775807. -/
theorem balances_stay_nonnegative (db : Store)
    (hnn : ∀ a ∈ db.accounts, 0 ≤ a.cents ∧ isInt64 a.cents) :
    (∀ (env : AuthorizeEnv) (p : AuthorizePayload), 0 < p.Cents →
      (∀ q, db.userBalance p.CustomerWalletUserID "PAYMENT" = some q →
        q + p.Cents ≤ 9223372036854775807) →
      ∀ a ∈ (Authorize env db p).db.accounts, 0 ≤ a.cents) ∧
    (∀ (env : CaptureEnv) (pid : String),
      (∀ e, fetchTransaction QueryFault.none ⟨db, false⟩ pid = .ok e → 0 < e.amount) →
      (∀ e i, fetchTransaction QueryFault.none ⟨db, false⟩ pid = .ok e →
        db.balance e.finalDstMerchantWalletID "INCOMING" = some i →
        i + e.amount ≤ 9223372036854775807) →
      ∀ a ∈ (Capture env db pid).db.accounts, 0 ≤ a.cents) := by
  constructor
  · intro env p hpos hfit
    rcases authorize_db_unchanged_or_ok env db p with h | ⟨pid, hok⟩
    · rw [h]; exact fun a ha => (hnn a ha).1
    · obtain ⟨mw, cw, src, dst, -, hcw, hsrc, hdst, -, hge, -, -, ha, -⟩ :=
        authorize_ok_effect hok
      rw [ha]
      exact nonneg_after_transfer hnn (find_accountType hsrc).1 (find_accountType hdst).1 hpos hge
        (hfit dst.cents (by simp [Store.userBalance, Store.walletOf, Store.balance, hcw, hdst]))
  · intro env pid hpos hfit
    rcases capture_db_unchanged_or_ok env db pid with h | hok
    · rw [h]; exact fun a ha => (hnn a ha).1
    · obtain ⟨e, src, dst, cw, mw, he, hsrc, hdst, -, -, -, hge, -, ha, -⟩ :=
        capture_ok_effect hok
      have hfe : fetchTransaction QueryFault.none ⟨db, false⟩ pid = .ok e := by
        simp [fetchTransaction, QueryFault.none, he]
      rw [ha]
      exact nonneg_after_transfer hnn (find_accountType hsrc).1 (find_accountType hdst).1
        (hpos e hfe) hge (hfit e dst.cents hfe (by simp [Store.balance, hdst]))

/-- Claim C7, counterexample: every balance is a non-negative `int64`, the amount
is 1, and after the call the PAYMENT balance is negative. -/
theorem balance_negative_after_overflow :
    (∀ a ∈ overflowStore.accounts, 0 ≤ a.cents ∧ isInt64 a.cents) ∧
    (∃ a ∈ (Authorize (AuthorizeEnv.healthy "P") overflowStore
      ⟨"customer", "merchant", 1, "USD"⟩).db.accounts, a.cents < 0) := by
  decide

/-- Claim C7, witness: the authorization of the scenario and the capture that
follows it. -/
theorem balances_stay_nonnegative_witness :
    (∀ a ∈ (Authorize (AuthorizeEnv.healthy "P") scenarioStore
      ⟨"customer", "merchant", 2500, "USD"⟩).db.accounts, 0 ≤ a.cents) ∧
    (∀ a ∈ (Capture (CaptureEnv.healthy "2024-01-01") authorizedStore "P").db.accounts,
      0 ≤ a.cents) :=
  ⟨(balances_stay_nonnegative scenarioStore (by decide)).1 (AuthorizeEnv.healthy "P")
      ⟨"customer", "merchant", 2500, "USD"⟩ (by decide)
      (by
        intro q hq
        obtain rfl : (0 : Int) = q := Option.some.inj hq
        decide),
   (balances_stay_nonnegative authorizedStore (by decide)).2 (CaptureEnv.healthy "2024-01-01") "P"
      (by
        intro e he
        obtain rfl : (⟨1, "P", "customer", "customer", 1, 1, "DEFAULT", "PAYMENT", 2, 2500⟩ :
          transaction) = e := Except.ok.inj he
        decide)
      (by
        intro e i he hi
        obtain rfl : (⟨1, "P", "customer", "customer", 1, 1, "DEFAULT", "PAYMENT", 2, 2500⟩ :
          transaction) = e := Except.ok.inj he
        obtain rfl : (0 : Int) = i := Option.some.inj hi
        decide)⟩

/-! ## Claim C8 -/

/-- Claim C8 (amended): `Authorize` does not validate the amount. A "USD" call
never fails with InvalidArgument; and with an amount of zero or less, both
wallets and both accounts of the customer present, a non-negative DEFAULT balance
and no database failure, it succeeds and the transfer is applied with that
amount: DEFAULT becomes its balance minus the amount and PAYMENT its balance plus
the amount, in `int64` arithmetic. -/
theorem authorize_accepts_nonpositive_amount :
    (∀ (env : AuthorizeEnv) (db : Store) (p : AuthorizePayload) (err : Status),
      p.Currency = "USD" → (Authorize env db p).result = .error err →
      err.code ≠ .InvalidArgument) ∧
    (∀ (db : Store) (p : AuthorizePayload) (pid : String) (mw cw : wallet) (d q : Int),
      db.accountIDsUnique → p.Currency = "USD" → p.Cents ≤ 0 →
      db.walletOf p.MerchantWalletUserID = some mw →
      db.walletOf p.CustomerWalletUserID = some cw →
      db.balance cw.ID "DEFAULT" = some d → db.balance cw.ID "PAYMENT" = some q → 0 ≤ d →
      (Authorize (AuthorizeEnv.healthy pid) db p).result = .ok pid ∧
      (Authorize (AuthorizeEnv.healthy pid) db p).db.balance cw.ID "DEFAULT"
        = some (wrap64 (d - p.Cents)) ∧
      (Authorize (AuthorizeEnv.healthy pid) db p).db.balance cw.ID "PAYMENT"
        = some (wrap64 (q + p.Cents))) := by
  constructor
  · intro env db p err husd h
    rcases authorize_usd_error_code husd h with hc | hc | hc <;> simp [hc]
  · intro db p pid mw cw d q hkey husd hle hmw hcw hd hq hnn
    unfold Store.walletOf at hmw hcw
    unfold Store.balance at hd hq
    cases hsrc : db.accounts.find? (fun a => a.walletID == cw.ID && a.accountType == "DEFAULT")
      with
    | none => simp [hsrc] at hd
    | some src =>
      cases hdst : db.accounts.find? (fun a => a.walletID == cw.ID && a.accountType == "PAYMENT")
        with
      | none => simp [hdst] at hq
      | some dst =>
        have hsc : src.cents = d := by simpa [hsrc] using hd
        have hdc : dst.cents = q := by simpa [hdst] using hq
        have hge : ¬ src.cents < p.Cents := by omega
        have hok := authorize_healthy_ok pid husd hmw hcw hsrc hdst hge
        refine ⟨hok, ?_⟩
        obtain ⟨mw1, cw1, src1, dst1, -, hcw1, hsrc1, hdst1, hne, -, -, -, ha, -⟩ :=
          authorize_ok_effect hok
        obtain rfl : cw = cw1 := Option.some.inj (hcw.symm.trans hcw1)
        obtain rfl : src = src1 := Option.some.inj (hsrc.symm.trans hsrc1)
        obtain rfl : dst = dst1 := Option.some.inj (hdst.symm.trans hdst1)
        have hs := (find_accountType hsrc).1
        have hdm := (find_accountType hdst).1
        constructor
        · rw [Store.balance, ha, balance_after_transfer hkey hs hdm _ _ _ _ hsrc, if_neg hne,
            if_pos rfl, hsc]
        · rw [Store.balance, ha, balance_after_transfer hkey hs hdm _ _ _ _ hdst, if_pos rfl, hdc]

/-- Claim C8, counterexample: an amount of -2500 is accepted and moves 2500 cents
from PAYMENT back to DEFAULT, leaving PAYMENT negative. -/
theorem authorize_negative_amount_succeeds :
    (Authorize (AuthorizeEnv.healthy "P") scenarioStore
      ⟨"customer", "merchant", -2500, "USD"⟩).result = .ok "P" ∧
    (Authorize (AuthorizeEnv.healthy "P") scenarioStore
      ⟨"customer", "merchant", -2500, "USD"⟩).db.userBalance "customer" "DEFAULT" = some 12500 ∧
    (Authorize (AuthorizeEnv.healthy "P") scenarioStore
      ⟨"customer", "merchant", -2500, "USD"⟩).db.userBalance "customer" "PAYMENT"
        = some (-2500) := by
  decide

/-- Claim C8, witness: the amended statement at the scenario store and amount -2500. -/
theorem authorize_accepts_nonpositive_amount_witness :
    (Authorize (AuthorizeEnv.healthy "P") scenarioStore
      ⟨"customer", "merchant", -2500, "USD"⟩).result = .ok "P" ∧
    (Authorize (AuthorizeEnv.healthy "P") scenarioStore
      ⟨"customer", "merchant", -2500, "USD"⟩).db.balance 1 "DEFAULT"
        = some (wrap64 (10000 - -2500)) ∧
    (Authorize (AuthorizeEnv.healthy "P") scenarioStore
      ⟨"customer", "merchant", -2500, "USD"⟩).db.balance 1 "PAYMENT"
        = some (wrap64 (0 + -2500)) :=
  authorize_accepts_nonpositive_amount.2 scenarioStore ⟨"customer", "merchant", -2500, "USD"⟩ "P"
    ⟨2, "merchant", "MERCHANT"⟩ ⟨1, "customer", "CUSTOMER"⟩ 10000 0
    (by decide) (by decide) (by decide) (by decide) (by decide) (by decide) (by decide) (by decide)

/-! ## Claim C9 -/

/-- Claim C9, what the code does: from a store with customer DEFAULT 10000,
customer PAYMENT 0, merchant INCOMING 0 and an empty journal, with no database
failure, `Authorize(customer, merchant, 2500, "USD")` succeeds with the generated
pid `P` and leaves DEFAULT 7500 and PAYMENT 2500; then `Capture(P)` succeeds and
leaves PAYMENT 0 and INCOMING 2500, and calls the emitter once with `(P, customer,
2500)`, whatever the emitter then meets. The events are those of that one call of
`SendCaptureMessage`: the email and the ledger message, both with `order_id = P`,
the ledger one with `amount = 2500`, when the producer is created, and no event at
all when `sarama.NewSyncProducer` fails. -/
theorem end_to_end_scenario (db : Store) (customer merchant P : String) (envC : CaptureEnv)
    (hfC : envC.faultless)
    (hkey : db.accountIDsUnique)
    (hD : db.userBalance customer "DEFAULT" = some 10000)
    (hP : db.userBalance customer "PAYMENT" = some 0)
    (hI : db.userBalance merchant "INCOMING" = some 0)
    (hJ : db.transactions = []) :
    (Authorize (AuthorizeEnv.healthy P) db ⟨customer, merchant, 2500, "USD"⟩).result = .ok P ∧
    (Authorize (AuthorizeEnv.healthy P) db ⟨customer, merchant, 2500, "USD"⟩).db.userBalance
      customer "DEFAULT" = some 7500 ∧
    (Authorize (AuthorizeEnv.healthy P) db ⟨customer, merchant, 2500, "USD"⟩).db.userBalance
      customer "PAYMENT" = some 2500 ∧
    (Capture envC
      (Authorize (AuthorizeEnv.healthy P) db ⟨customer, merchant, 2500, "USD"⟩).db P).result
        = .ok () ∧
    (Capture envC
      (Authorize (AuthorizeEnv.healthy P) db ⟨customer, merchant, 2500, "USD"⟩).db
        P).db.userBalance customer "PAYMENT" = some 0 ∧
    (Capture envC
      (Authorize (AuthorizeEnv.healthy P) db ⟨customer, merchant, 2500, "USD"⟩).db
        P).db.userBalance merchant "INCOMING" = some 2500 ∧
    (Capture envC
      (Authorize (AuthorizeEnv.healthy P) db ⟨customer, merchant, 2500, "USD"⟩).db P).calls
        = [.Begin, .Commit, .SendCaptureMessage P customer 2500] ∧
    (Capture envC
      (Authorize (AuthorizeEnv.healthy P) db ⟨customer, merchant, 2500, "USD"⟩).db P).sent
        = SendCaptureMessage envC.producer P customer 2500 ∧
    (envC.producer.newProducer = none →
      SendCaptureMessage envC.producer P customer 2500
        = [⟨"email", [("order_id", .str P), ("user_id", .str customer)]⟩,
           ⟨"ledger", [("order_id", .str P), ("user_id", .str customer), ("amount", .num 2500),
             ("operation", .str "DEBIT"), ("date", .str envC.producer.today)]⟩]) ∧
    (∀ m, envC.producer.newProducer = some m →
      SendCaptureMessage envC.producer P customer 2500 = []) := by
  obtain ⟨cw, src, hcw, hsrc, hsc⟩ := userBalance_some hD
  obtain ⟨cw', dst, hcw', hdst, hdc⟩ := userBalance_some hP
  obtain rfl : cw = cw' := Option.some.inj (hcw.symm.trans hcw')
  obtain ⟨mw, inc, hmw, hinc, hic⟩ := userBalance_some hI
  have hge : ¬ src.cents < 2500 := by omega
  have hok := authorize_healthy_ok (p := ⟨customer, merchant, 2500, "USD"⟩) P rfl hmw hcw
    hsrc hdst hge
  obtain ⟨mw1, cw1, src1, dst1, hmw1, hcw1, hsrc1, hdst1, hne, -, -, hw, ha, ht, -⟩ :=
    authorize_ok_effect hok
  simp only at hmw1 hcw1 hsrc1 hdst1 ha ht
  obtain rfl : mw = mw1 := Option.some.inj (hmw.symm.trans hmw1)
  obtain rfl : cw = cw1 := Option.some.inj (hcw.symm.trans hcw1)
  obtain rfl : src = src1 := Option.some.inj (hsrc.symm.trans hsrc1)
  obtain rfl : dst = dst1 := Option.some.inj (hdst.symm.trans hdst1)
  generalize Authorize (AuthorizeEnv.healthy P) db ⟨customer, merchant, 2500, "USD"⟩ = A
    at hok hw ha ht ⊢
  have hs := (find_accountType hsrc).1
  have hd := (find_accountType hdst).1
  have hi := (find_accountType hinc).1
  have hit := (find_accountType hinc).2.2
  have hst := (find_accountType hsrc).2.2
  have hdt := (find_accountType hdst).2.2
  have hcu : cw.userID = customer := by
    have := List.find?_some hcw
    simpa using this
  have hw1 : wrap64 (src.cents - 2500) = 7500 := by rw [hsc]; decide
  have hw2 : wrap64 (dst.cents + 2500) = 2500 := by rw [hdc]; decide
  rw [hw1, hw2] at ha
  -- rows read by the capture
  have hsrcA := find_after_transfer hkey hs hd 7500 2500 cw.ID "PAYMENT" hdst
  rw [if_pos rfl, ← ha] at hsrcA
  have hincA := find_after_transfer hkey hs hd 7500 2500 mw.ID "INCOMING" hinc
  have hne1 : inc ≠ dst := by
    intro e; rw [e, hdt] at hit; exact absurd hit (by decide)
  have hne2 : inc ≠ src := by
    intro e; rw [e, hst] at hit; exact absurd hit (by decide)
  rw [if_neg hne1, if_neg hne2, ← ha] at hincA
  have hdefA := find_after_transfer hkey hs hd 7500 2500 cw.ID "DEFAULT" hsrc
  rw [if_neg hne, if_pos rfl, ← ha] at hdefA
  have heA : A.db.transactions.find? (fun t => t.pid == P) =
      some { ID := (db.transactions.length : Int) + 1, pid := P, srcUserID := cw.userID,
             dstUserID := cw.userID, srcAccountWalletID := cw.ID, dstAccountWalletID := cw.ID,
             srcAccountType := "DEFAULT", dstAccountType := "PAYMENT",
             finalDstMerchantWalletID := mw.ID, amount := 2500 } := by
    rw [ht, hJ]
    simp [AuthorizeEnv.healthy]
  have hcwA : A.db.wallets.find? (fun w => w.userID == cw.userID) = some cw := by
    rw [hw, hcu]; exact hcw
  have hmwm : mw ∈ db.wallets := List.mem_of_find?_eq_some hmw
  obtain ⟨mw2, hmw2⟩ : ∃ mw2, A.db.wallets.find? (fun w => w.ID == mw.ID) = some mw2 := by
    rw [hw]
    cases hf : db.wallets.find? (fun w => w.ID == mw.ID) with
    | none =>
      rw [List.find?_eq_none] at hf
      exact absurd (hf mw hmwm) (by simp)
    | some x => exact ⟨x, rfl⟩
  have hcok := capture_faultless_ok hfC heA hsrcA hincA hcwA hmw2 (by simp)
  obtain ⟨e, srcC, dstC, cwC, mwC, he, hsrcC, hdstC, hcwC, hmwC, hneC, -, hwC, haC, -, hcalls,
    hsent⟩ := capture_ok_effect hcok
  obtain rfl := Option.some.inj (heA.symm.trans he)
  simp only at hsrcC hdstC hcwC hmwC haC hcalls hsent
  obtain rfl := Option.some.inj (hsrcA.symm.trans hsrcC)
  obtain rfl := Option.some.inj (hincA.symm.trans hdstC)
  have hkeyA : (A.db.accounts.map (fun a => a.ID)).Nodup := by
    rw [ha, updateCents_ids, updateCents_ids]; exact hkey
  have hsA := (find_accountType hsrcA).1
  have hiA := (find_accountType hincA).1
  generalize Capture envC A.db P = C at hcok hwC haC hcalls hsent ⊢
  refine ⟨hok, ?_, ?_, hcok, ?_, ?_, ?_, ?_, ?_, ?_⟩
  · rw [userBalance_of_wallet (hw ▸ hcw), Store.balance, hdefA]; rfl
  · rw [userBalance_of_wallet (hw ▸ hcw), Store.balance, hsrcA]; rfl
  · rw [userBalance_of_wallet (hwC ▸ hw ▸ hcw), Store.balance, haC,
      balance_after_transfer hkeyA hsA hiA _ _ _ _ hsrcA, if_neg hneC, if_pos rfl]
    show some (wrap64 (2500 - 2500)) = some 0
    decide
  · rw [userBalance_of_wallet (hwC ▸ hw ▸ hmw), Store.balance, haC,
      balance_after_transfer hkeyA hsA hiA _ _ _ _ hincA, if_pos rfl]
    show some (wrap64 (inc.cents + 2500)) = some 2500
    rw [hic]
    decide
  · rw [hcalls, hcu]
  · rw [hsent, hcu]
  · intro hnp
    simp [SendCaptureMessage, hnp, sendMsg, EmailMsg.marshal, LedgerMsg.marshal, emailTopic,
      ledgeTopic]
  · intro m hnp
    simp [SendCaptureMessage, hnp]

/-- Claim C9, failing input: the scenario on a store of two wallets and three
accounts, with the emitter as the source configures it. `Authorize` returns the
pid, `Capture` returns success, INCOMING is 2500 and the emitter is called with
`("P", "customer", 2500)`, but `sarama.NewSyncProducer` refuses the bare
`sarama.NewConfig()`, `SendCaptureMessage` logs the error and returns, and no
event is handed to a producer. -/
theorem end_to_end_scenario_witness :
    (Authorize (AuthorizeEnv.healthy "P") scenarioStore
      ⟨"customer", "merchant", 2500, "USD"⟩).result = .ok "P" ∧
    (Capture { CaptureEnv.healthy "2024-01-01" with
        producer := ProducerEnv.asConfigured "2024-01-01" }
      (Authorize (AuthorizeEnv.healthy "P") scenarioStore
        ⟨"customer", "merchant", 2500, "USD"⟩).db "P").result = .ok () ∧
    (Capture { CaptureEnv.healthy "2024-01-01" with
        producer := ProducerEnv.asConfigured "2024-01-01" }
      (Authorize (AuthorizeEnv.healthy "P") scenarioStore
        ⟨"customer", "merchant", 2500, "USD"⟩).db "P").db.userBalance "merchant" "INCOMING"
        = some 2500 ∧
    (Capture { CaptureEnv.healthy "2024-01-01" with
        producer := ProducerEnv.asConfigured "2024-01-01" }
      (Authorize (AuthorizeEnv.healthy "P") scenarioStore
        ⟨"customer", "merchant", 2500, "USD"⟩).db "P").calls
        = [.Begin, .Commit, .SendCaptureMessage "P" "customer" 2500] ∧
    (Capture { CaptureEnv.healthy "2024-01-01" with
        producer := ProducerEnv.asConfigured "2024-01-01" }
      (Authorize (AuthorizeEnv.healthy "P") scenarioStore
        ⟨"customer", "merchant", 2500, "USD"⟩).db "P").sent = [] :=
  have h := end_to_end_scenario scenarioStore "customer" "merchant" "P"
    { CaptureEnv.healthy "2024-01-01" with producer := ProducerEnv.asConfigured "2024-01-01" }
    (by decide) (by decide) (by decide) (by decide) (by decide) (by decide)
  ⟨h.1, h.2.2.2.1, h.2.2.2.2.2.1, h.2.2.2.2.2.2.1,
   h.2.2.2.2.2.2.2.1.trans (h.2.2.2.2.2.2.2.2.2 ErrSyncProducerConfig rfl)⟩

/-! ## Claim C10 -/

/-- Claim C10: in a "USD" `Authorize` whose transaction was opened, when one of the
steps before the commit (merchant wallet lookup, customer wallet lookup, DEFAULT
or PAYMENT account fetch, transfer, journal append) fails with `err`: the store
after the call equals the store before it; the call returns exactly `err` when the
rollback succeeds; and when the rollback fails with message `m` it returns
Internal with message `m`. -/
theorem authorize_failure_atomic (env : AuthorizeEnv) (db : Store) (p : AuthorizePayload)
    (err : Status) (husd : p.Currency = "USD") (hbegin : env.begin = none)
    (hfail : authorizeStepFails env db p err) :
    (env.rollback = none → (Authorize env db p).result = .error err) ∧
    (Authorize env db p).db = db ∧
    (∀ m, env.rollback = some m →
      (Authorize env db p).result = .error ⟨.Internal, m⟩) := by
  have key : Authorize env db p =
      ⟨.error (match env.rollback with | some m => ⟨.Internal, m⟩ | none => err), db,
       [.Begin, .Rollback], []⟩ := by
    unfold authorizeStepFails at hfail
    unfold Authorize
    simp only [husd, ne_eq, not_true_eq_false, if_false, Begin, hbegin]
    rcases hfail with h | ⟨mw, hmw, hfail⟩
    · simp only [h]; exact rollbackReturn_eq _ _ _ _ rfl
    simp only [hmw]
    rcases hfail with h | ⟨cw, hcw, hfail⟩
    · simp only [h]; exact rollbackReturn_eq _ _ _ _ rfl
    simp only [hcw]
    rcases hfail with h | ⟨src, hsrc, hfail⟩
    · simp only [h]; exact rollbackReturn_eq _ _ _ _ rfl
    simp only [hsrc]
    rcases hfail with h | ⟨dst, hdst, hfail⟩
    · simp only [h]; exact rollbackReturn_eq _ _ _ _ rfl
    simp only [hdst]
    have hd1 := transfer_done env.transfer ⟨db, false⟩ src dst p.Cents
    rcases htr : transfer env.transfer ⟨db, false⟩ src dst p.Cents with ⟨r, tx1⟩
    rw [htr] at hfail hd1
    simp only at hfail hd1
    rcases hfail with h | ⟨h, hcr⟩
    · subst h
      exact rollbackReturn_eq _ _ _ _ hd1
    subst h
    simp only
    have hd2 := createTransaction_done env.create tx1 env.pid src dst cw cw mw p.Cents
    rcases hc : createTransaction env.create tx1 env.pid src dst cw cw mw p.Cents with ⟨r2, tx2⟩
    rw [hc] at hcr hd2
    simp only at hcr hd2
    subst hcr
    exact rollbackReturn_eq _ _ _ _ (hd2.trans hd1)
  rw [key]
  refine ⟨?_, rfl, ?_⟩
  · intro h; simp [h]
  · intro m h; simp [h]

/-- Claim C10, witness: the merchant has no wallet; the lookup fails with NotFound,
which is returned after a successful rollback. -/
theorem authorize_failure_atomic_witness :
    (Authorize (AuthorizeEnv.healthy "P") scenarioStore
      ⟨"customer", "nobody", 2500, "USD"⟩).result = .error ⟨.NotFound, ErrNoRows⟩ ∧
    (Authorize (AuthorizeEnv.healthy "P") scenarioStore
      ⟨"customer", "nobody", 2500, "USD"⟩).db = scenarioStore :=
  have h := authorize_failure_atomic (AuthorizeEnv.healthy "P") scenarioStore
    ⟨"customer", "nobody", 2500, "USD"⟩ ⟨.NotFound, ErrNoRows⟩ rfl rfl (Or.inl (by decide))
  ⟨h.1 rfl, h.2.1⟩

/-! ## Claim C11 -/

/-- Claim C11: the error taxonomy is closed. Every error returned by `Authorize` has
a code among InvalidArgument, NotFound, Aborted and Internal, and every error
returned by `Capture` a code among NotFound, Internal and Aborted; more
precisely every error of a "USD" `Authorize` and of `Capture` is the NotFound of a
lookup that found no row, the Aborted of a balance shortfall, or an Internal
error. At the point of detection each lookup (wallet by user, wallet by id,
account, journal row) that finds no row yields NotFound and its driver failures
yield Internal; in `transfer` a shortfall yields Aborted and any other failure
Internal; a failure of `createTransaction` yields Internal; a failure of `Begin`
makes either call return Internal. -/
theorem error_taxonomy_closed :
    (∀ (env : AuthorizeEnv) (db : Store) (p : AuthorizePayload) (err : Status),
      (Authorize env db p).result = .error err →
      (err.code = .InvalidArgument ∨ err.code = .NotFound ∨ err.code = .Aborted ∨
        err.code = .Internal) ∧
      (p.Currency = "USD" → err.known)) ∧
    (∀ (env : CaptureEnv) (db : Store) (pid : String) (err : Status),
      (Capture env db pid).result = .error err →
      (err.code = .NotFound ∨ err.code = .Internal ∨ err.code = .Aborted) ∧ err.known) ∧
    (∀ (tx : Tx) (userID : String),
      LookupTaxonomy (fun f => fetchWallet f tx userID)
        (tx.view.wallets.find? (fun w => w.userID == userID))) ∧
    (∀ (tx : Tx) (walletID : Int),
      LookupTaxonomy (fun f => fetchWalletWithWalletID f tx walletID)
        (tx.view.wallets.find? (fun w => w.ID == walletID))) ∧
    (∀ (tx : Tx) (walletID : Int) (accountType : String),
      LookupTaxonomy (fun f => fetchAccount f tx walletID accountType)
        (tx.view.accounts.find?
          (fun a => a.walletID == walletID && a.accountType == accountType))) ∧
    (∀ (tx : Tx) (pid : String),
      LookupTaxonomy (fun f => fetchTransaction f tx pid)
        (tx.view.transactions.find? (fun t => t.pid == pid))) ∧
    (∀ (f : TransferFault) (tx : Tx) (src dst : account) (amount : Int),
      (src.cents < amount →
        (transfer f tx src dst amount).1 = some ⟨.Aborted, "not enough money"⟩) ∧
      (¬ src.cents < amount → ∀ err, (transfer f tx src dst amount).1 = some err →
        err.code = .Internal)) ∧
    (∀ (f : InsertFault) (tx : Tx) (pid : String) (src dst : account) (sw dw fw : wallet)
      (amount : Int) (err : Status),
      (createTransaction f tx pid src dst sw dw fw amount).1 = some err →
      err.code = .Internal) ∧
    (∀ (env : AuthorizeEnv) (db : Store) (p : AuthorizePayload) (m : String),
      p.Currency = "USD" → env.begin = some m →
      (Authorize env db p).result = .error ⟨.Internal, m⟩) ∧
    (∀ (env : CaptureEnv) (db : Store) (pid : String) (m : String),
      env.begin = some m → (Capture env db pid).result = .error ⟨.Internal, m⟩) := by
  refine ⟨?_, ?_, ?_, ?_, ?_, ?_, ?_, ?_, ?_, ?_⟩
  · intro env db p err h
    refine ⟨?_, fun husd => authorize_usd_error_known husd h⟩
    cases hc : err.code <;> simp
  · intro env db pid err h
    have hk := capture_error_known h
    refine ⟨?_, hk⟩
    rcases hk with hk | hk | hk
    · rw [hk]; simp
    · rw [hk]; simp
    · simp [hk]
  · intro tx u
    refine ⟨?_, ?_, ?_⟩
    · intro f hp hs hr; simp [fetchWallet, hp, hs, hr]
    · intro f m hp; simp [fetchWallet, hp]
    · intro f m hp hs; simp [fetchWallet, hp, hs]
  · intro tx u
    refine ⟨?_, ?_, ?_⟩
    · intro f hp hs hr; simp [fetchWalletWithWalletID, hp, hs, hr]
    · intro f m hp; simp [fetchWalletWithWalletID, hp]
    · intro f m hp hs; simp [fetchWalletWithWalletID, hp, hs]
  · intro tx w t
    refine ⟨?_, ?_, ?_⟩
    · intro f hp hs hr; simp [fetchAccount, hp, hs, hr]
    · intro f m hp; simp [fetchAccount, hp]
    · intro f m hp hs; simp [fetchAccount, hp, hs]
  · intro tx pid
    refine ⟨?_, ?_, ?_⟩
    · intro f hp hs hr; simp [fetchTransaction, hp, hs, hr]
    · intro f m hp; simp [fetchTransaction, hp]
    · intro f m hp hs; simp [fetchTransaction, hp, hs]
  · intro f tx src dst amount
    constructor
    · intro hlt; simp [transfer, hlt]
    · intro hge err h
      rcases f with ⟨_ | _, _ | _, _ | _⟩ <;> simp [transfer, hge] at h <;> rw [← h]
  · intro f tx pid src dst sw dw fw amount err h
    rcases f with ⟨_ | _, _ | _⟩ <;> simp [createTransaction] at h <;> rw [← h]
  · intro env db p m husd hb
    simp [Authorize, husd, Begin, hb]
  · intro env db pid m hb
    simp [Capture, Begin, hb]

/-- Claim C11, witness: `Capture` of an unknown pid on the scenario store returns
NotFound, a code of the set. -/
theorem error_taxonomy_closed_witness :
    (Capture (CaptureEnv.healthy "2024-01-01") scenarioStore "P").result
      = .error ⟨.NotFound, ErrNoRows⟩ ∧
    ((⟨.NotFound, ErrNoRows⟩ : Status).code = .NotFound ∨
      (⟨.NotFound, ErrNoRows⟩ : Status).code = .Internal ∨
      (⟨.NotFound, ErrNoRows⟩ : Status).code = .Aborted) :=
  ⟨by decide,
   (error_taxonomy_closed.2.1 (CaptureEnv.healthy "2024-01-01") scenarioStore "P"
      ⟨.NotFound, ErrNoRows⟩ (by decide)).1⟩

/-! ## Claim C12 -/

/-- Claim C12: every successful `Authorize` appends exactly one journal row after the
earlier rows, which are unchanged; the row has the pid returned to the caller,
the user id of the customer as source and destination user, the wallet id of the
customer as source and destination wallet, account types "DEFAULT" and "PAYMENT",
the wallet id of the merchant as final destination, and the amount of the call.
No `Authorize` call, successful or not, calls the event emitter or hands a
message to the event bus. -/
theorem authorize_appends_one_row :
    (∀ (env : AuthorizeEnv) (db : Store) (p : AuthorizePayload) (pid : String),
      (Authorize env db p).result = .ok pid →
      ∃ customerWallet merchantWallet row,
        db.walletOf p.CustomerWalletUserID = some customerWallet ∧
        db.walletOf p.MerchantWalletUserID = some merchantWallet ∧
        (Authorize env db p).db.transactions = db.transactions ++ [row] ∧
        row.pid = pid ∧
        row.srcUserID = p.CustomerWalletUserID ∧ row.dstUserID = p.CustomerWalletUserID ∧
        row.srcAccountWalletID = customerWallet.ID ∧
        row.dstAccountWalletID = customerWallet.ID ∧
        row.srcAccountType = "DEFAULT" ∧ row.dstAccountType = "PAYMENT" ∧
        row.finalDstMerchantWalletID = merchantWallet.ID ∧
        row.amount = p.Cents) ∧
    (∀ (env : AuthorizeEnv) (db : Store) (p : AuthorizePayload),
      (∀ a b c, Call.SendCaptureMessage a b c ∉ (Authorize env db p).calls) ∧
      (Authorize env db p).sent = []) := by
  constructor
  · intro env db p pid hok
    obtain ⟨mw, cw, src, dst, hmw, hcw, -, -, -, -, hpid, -, -, ht, -⟩ := authorize_ok_effect hok
    have hcu : cw.userID = p.CustomerWalletUserID := by
      have := List.find?_some hcw
      simpa using this
    exact ⟨cw, mw, _, hcw, hmw, ht, hpid.symm, hcu, hcu, rfl, rfl, rfl, rfl, rfl, rfl⟩
  · intro env db p
    obtain ⟨h1, h2⟩ := authorize_no_emit env db p
    refine ⟨?_, h2⟩
    intro a b c hmem
    rcases h1 _ hmem with h | h | h <;> cases h

/-- Claim C12, witness: the authorization of the scenario. -/
theorem authorize_appends_one_row_witness :
    ∃ customerWallet merchantWallet row,
      scenarioStore.walletOf "customer" = some customerWallet ∧
      scenarioStore.walletOf "merchant" = some merchantWallet ∧
      (Authorize (AuthorizeEnv.healthy "P") scenarioStore
        ⟨"customer", "merchant", 2500, "USD"⟩).db.transactions
          = scenarioStore.transactions ++ [row] ∧
      row.pid = "P" ∧
      row.srcUserID = "customer" ∧ row.dstUserID = "customer" ∧
      row.srcAccountWalletID = customerWallet.ID ∧
      row.dstAccountWalletID = customerWallet.ID ∧
      row.srcAccountType = "DEFAULT" ∧ row.dstAccountType = "PAYMENT" ∧
      row.finalDstMerchantWalletID = merchantWallet.ID ∧
      row.amount = 2500 :=
  authorize_appends_one_row.1 (AuthorizeEnv.healthy "P") scenarioStore
    ⟨"customer", "merchant", 2500, "USD"⟩ "P" (by decide)

/-! ## Claim C13 -/

/-- Claim C13: every successful `Capture(pid)` appends exactly one journal row after
the earlier rows, which are unchanged; with `e` the authorize entry read for
`pid`, the row has the same pid and the amount of `e`, account types "PAYMENT"
and "INCOMING", the source user of `e` (the customer) with the id of the wallet
resolved for that user as source, and the user and id of the wallet with id
`e.final_dst_merchant_wallet_id` (the merchant) as destination and as final
destination. -/
theorem capture_appends_one_row (env : CaptureEnv) (db : Store) (pid : String)
    (hok : (Capture env db pid).result = .ok ()) :
    ∃ e customerWallet merchantWallet row,
      fetchTransaction QueryFault.none ⟨db, false⟩ pid = .ok e ∧
      db.walletOf e.srcUserID = some customerWallet ∧
      db.wallets.find? (fun w => w.ID == e.finalDstMerchantWalletID) = some merchantWallet ∧
      (Capture env db pid).db.transactions = db.transactions ++ [row] ∧
      row.pid = pid ∧ row.amount = e.amount ∧
      row.srcAccountType = "PAYMENT" ∧ row.dstAccountType = "INCOMING" ∧
      row.srcUserID = e.srcUserID ∧ row.srcAccountWalletID = customerWallet.ID ∧
      row.dstUserID = merchantWallet.userID ∧ row.dstAccountWalletID = merchantWallet.ID ∧
      row.finalDstMerchantWalletID = merchantWallet.ID ∧
      merchantWallet.ID = e.finalDstMerchantWalletID := by
  obtain ⟨e, src, dst, cw, mw, he, -, -, hcw, hmw, -, -, -, -, ht, -⟩ := capture_ok_effect hok
  have hcu : cw.userID = e.srcUserID := by
    have := List.find?_some hcw
    simpa using this
  have hmi : mw.ID = e.finalDstMerchantWalletID := by
    have := List.find?_some hmw
    simpa using this
  have hep : e.pid = pid := by
    have := List.find?_some he
    simpa using this
  refine ⟨e, cw, mw, _, ?_, hcw, hmw, ht, hep, rfl, rfl, rfl, hcu, rfl, rfl, rfl, rfl, hmi⟩
  simp [fetchTransaction, QueryFault.none, he]

/-- Claim C13, witness: the capture of the authorization of the scenario. -/
theorem capture_appends_one_row_witness :
    ∃ e customerWallet merchantWallet row,
      fetchTransaction QueryFault.none ⟨authorizedStore, false⟩ "P" = .ok e ∧
      authorizedStore.walletOf e.srcUserID = some customerWallet ∧
      authorizedStore.wallets.find? (fun w => w.ID == e.finalDstMerchantWalletID)
        = some merchantWallet ∧
      (Capture (CaptureEnv.healthy "2024-01-01") authorizedStore "P").db.transactions
        = authorizedStore.transactions ++ [row] ∧
      row.pid = "P" ∧ row.amount = e.amount ∧
      row.srcAccountType = "PAYMENT" ∧ row.dstAccountType = "INCOMING" ∧
      row.srcUserID = e.srcUserID ∧ row.srcAccountWalletID = customerWallet.ID ∧
      row.dstUserID = merchantWallet.userID ∧ row.dstAccountWalletID = merchantWallet.ID ∧
      row.finalDstMerchantWalletID = merchantWallet.ID ∧
      merchantWallet.ID = e.finalDstMerchantWalletID :=
  capture_appends_one_row (CaptureEnv.healthy "2024-01-01") authorizedStore "P" (by decide)

/-! ## Claim C14 -/

/-- Claim C14: with the journal read in insertion order, when the row created by
`Authorize` for `pid` is the first row with that pid, `fetchTransaction(pid)`
returns that row whatever rows follow it; it fails NotFound exactly when no row
has that pid; and whenever it fails NotFound, for any behaviour of the driver,
the statement itself did not fail and no row has that pid. -/
theorem fetchTransaction_first_row :
    (∀ (ws : List wallet) (accs : List account) (earlier later : List transaction)
      (authorizeRow : transaction) (done : Bool) (pid : String),
      authorizeRow.pid = pid → (∀ t ∈ earlier, t.pid ≠ pid) →
      fetchTransaction QueryFault.none ⟨⟨ws, accs, earlier ++ authorizeRow :: later⟩, done⟩ pid
        = .ok authorizeRow) ∧
    (∀ (tx : Tx) (pid : String),
      fetchTransaction QueryFault.none tx pid = .error ⟨.NotFound, ErrNoRows⟩ ↔
        ∀ t ∈ tx.view.transactions, t.pid ≠ pid) ∧
    (∀ (f : QueryFault) (tx : Tx) (pid : String) (err : Status),
      fetchTransaction f tx pid = .error err → err.code = .NotFound →
        f.prepare = none ∧ f.scan = none ∧ ∀ t ∈ tx.view.transactions, t.pid ≠ pid) := by
  refine ⟨?_, ?_, ?_⟩
  · intro ws accs earlier later a done pid ha hpre
    have hfind : (earlier ++ a :: later).find? (fun t => t.pid == pid) = some a := by
      rw [List.find?_append]
      have h1 : earlier.find? (fun t => t.pid == pid) = none := by
        rw [List.find?_eq_none]
        intro t ht
        simpa using hpre t ht
      rw [h1]
      simp [ha]
    simp [fetchTransaction, QueryFault.none, hfind]
  · intro tx pid
    cases hf : tx.view.transactions.find? (fun t => t.pid == pid) with
    | none =>
      have hno := hf
      rw [List.find?_eq_none] at hno
      simp only [fetchTransaction, QueryFault.none, hf, true_iff]
      intro t ht
      simpa using hno t ht
    | some r =>
      have hm := List.mem_of_find?_eq_some hf
      have hp : r.pid = pid := by
        have := List.find?_some hf
        simpa using this
      simp only [fetchTransaction, QueryFault.none, hf]
      constructor
      · intro h; cases h
      · intro h; exact absurd hp (h r hm)
  · intro f tx pid err h hc
    rcases f with ⟨_ | _, _ | _⟩ <;>
      cases hf : tx.view.transactions.find? (fun t => t.pid == pid) <;>
      simp [fetchTransaction, hf] at h <;> subst h <;> simp at hc
    refine ⟨rfl, rfl, ?_⟩
    rw [List.find?_eq_none] at hf
    intro t ht
    simpa using hf t ht

/-- Claim C14, witness: a journal with a row of another payment, the authorize row
of "P" and its capture row. -/
theorem fetchTransaction_first_row_witness :
    fetchTransaction QueryFault.none
      ⟨⟨[], [], [⟨1, "Q", "other", "other", 3, 3, "DEFAULT", "PAYMENT", 2, 10⟩] ++
        ⟨2, "P", "customer", "customer", 1, 1, "DEFAULT", "PAYMENT", 2, 2500⟩ ::
        [⟨3, "P", "customer", "merchant", 1, 2, "PAYMENT", "INCOMING", 2, 2500⟩]⟩, false⟩ "P"
      = .ok ⟨2, "P", "customer", "customer", 1, 1, "DEFAULT", "PAYMENT", 2, 2500⟩ :=
  fetchTransaction_first_row.1 [] []
    [⟨1, "Q", "other", "other", 3, 3, "DEFAULT", "PAYMENT", 2, 10⟩]
    [⟨3, "P", "customer", "merchant", 1, 2, "PAYMENT", "INCOMING", 2, 2500⟩]
    ⟨2, "P", "customer", "customer", 1, 1, "DEFAULT", "PAYMENT", 2, 2500⟩ false "P"
    rfl (by decide)

/-! ## Claim C15 -/

/-- Claim C15: in every run of `Capture` the event emitter is called if and only if
the commit succeeded; in that case `Capture` returns success and the emitter is
called exactly once, with the pid, the source user id of the authorize entry and
its amount; the result, the store and the calls of `Capture` do not depend on
the environment of the emitter; and in every run that returns an error the
emitter is not called and no message is handed to the event bus. -/
theorem capture_emits_iff_committed (env : CaptureEnv) (db : Store) (pid : String) :
    ((∃ a b c, Call.SendCaptureMessage a b c ∈ (Capture env db pid).calls) ↔
      commitSucceeded env.commit (Capture env db pid).calls) ∧
    (commitSucceeded env.commit (Capture env db pid).calls →
      (Capture env db pid).result = .ok () ∧
      ∃ e, fetchTransaction QueryFault.none ⟨db, false⟩ pid = .ok e ∧
        (Capture env db pid).calls.count (.SendCaptureMessage pid e.srcUserID e.amount) = 1 ∧
        ∀ a b c, Call.SendCaptureMessage a b c ∈ (Capture env db pid).calls →
          a = pid ∧ b = e.srcUserID ∧ c = e.amount) ∧
    (∀ producer : ProducerEnv,
      (Capture { env with producer := producer } db pid).result = (Capture env db pid).result ∧
      (Capture { env with producer := producer } db pid).db = (Capture env db pid).db ∧
      (Capture { env with producer := producer } db pid).calls = (Capture env db pid).calls) ∧
    (∀ err, (Capture env db pid).result = .error err →
      (∀ a b c, Call.SendCaptureMessage a b c ∉ (Capture env db pid).calls) ∧
      (Capture env db pid).sent = []) := by
  have hprod : ∀ producer : ProducerEnv,
      (Capture { env with producer := producer } db pid).result = (Capture env db pid).result ∧
      (Capture { env with producer := producer } db pid).db = (Capture env db pid).db ∧
      (Capture { env with producer := producer } db pid).calls = (Capture env db pid).calls := by
    intro producer
    unfold Capture
    simp only
    repeat' split
    all_goals first
      | exact ⟨rfl, rfl, rfl⟩
      | (unfold captureCommit; simp only; split <;> exact ⟨rfl, rfl, rfl⟩)
  refine ⟨?_, ?_, hprod, ?_⟩
  · rcases capture_cases env db pid with ⟨err, h⟩ | ⟨err, h⟩ | h | ⟨m, hm, h⟩ | ⟨e, db1, hc, he, h⟩ <;>
      rw [h] <;> simp [commitSucceeded, *]
  · intro hcs
    rcases capture_cases env db pid with ⟨err, h⟩ | ⟨err, h⟩ | h | ⟨m, hm, h⟩ | ⟨e, db1, hc, he, h⟩
    · rw [h] at hcs; simp [commitSucceeded] at hcs
    · rw [h] at hcs; simp [commitSucceeded] at hcs
    · rw [h] at hcs; simp [commitSucceeded] at hcs
    · rw [h] at hcs; simp [commitSucceeded, hm] at hcs
    · have hep : e.pid = pid := by
        have := List.find?_some he
        simpa using this
      rw [h]
      refine ⟨rfl, e, by simp [fetchTransaction, QueryFault.none, he], ?_, ?_⟩
      · simp [hep]
      · intro a b c hmem
        simp at hmem
        rw [← hep]
        exact hmem
  · intro err herr
    rcases capture_cases env db pid with ⟨e1, h⟩ | ⟨e1, h⟩ | h | ⟨m, hm, h⟩ | ⟨e, db1, hc, he, h⟩
    · rw [h]; simp
    · rw [h]; simp
    · rw [h]; simp
    · rw [h]; simp
    · rw [h] at herr; simp at herr

/-- Claim C15, witness: the capture of the authorization of the scenario commits,
succeeds and calls the emitter. -/
theorem capture_emits_iff_committed_witness :
    commitSucceeded (CaptureEnv.healthy "2024-01-01").commit
      (Capture (CaptureEnv.healthy "2024-01-01") authorizedStore "P").calls ∧
    (Capture (CaptureEnv.healthy "2024-01-01") authorizedStore "P").result = .ok () :=
  ⟨by decide,
   ((capture_emits_iff_committed (CaptureEnv.healthy "2024-01-01") authorizedStore "P").2.1
      (by decide)).1⟩

/-! ## Claim C16 -/

/-- Claim C16: when the producer can be created, `SendCaptureMessage(pid, userID,
amount)` hands exactly two messages to it: one on topic "ledger" whose payload
is `order_id = pid`, `user_id = userID`, `amount = amount`, `operation = "DEBIT"`
and `date` = the value of `time.Now().Format("2006-01-02")`, and one on topic
"email" whose payload is `order_id = pid` and `user_id = userID` and nothing
else. -/
theorem send_capture_message_two_messages (env : ProducerEnv) (pid userID : String)
    (amount : Int) (havail : env.newProducer = none) :
    (SendCaptureMessage env pid userID amount).length = 2 ∧
    (⟨"ledger", [("order_id", .str pid), ("user_id", .str userID), ("amount", .num amount),
        ("operation", .str "DEBIT"), ("date", .str env.today)]⟩ : ProducerMessage)
      ∈ SendCaptureMessage env pid userID amount ∧
    (⟨"email", [("order_id", .str pid), ("user_id", .str userID)]⟩ : ProducerMessage)
      ∈ SendCaptureMessage env pid userID amount := by
  simp [SendCaptureMessage, havail, sendMsg, EmailMsg.marshal, LedgerMsg.marshal, emailTopic,
    ledgeTopic]

/-- Claim C16, witness: the messages of the scenario. -/
theorem send_capture_message_two_messages_witness :
    (SendCaptureMessage ⟨none, "2024-01-01"⟩ "P" "customer" 2500).length = 2 ∧
    (⟨"ledger", [("order_id", .str "P"), ("user_id", .str "customer"), ("amount", .num 2500),
        ("operation", .str "DEBIT"), ("date", .str "2024-01-01")]⟩ : ProducerMessage)
      ∈ SendCaptureMessage ⟨none, "2024-01-01"⟩ "P" "customer" 2500 ∧
    (⟨"email", [("order_id", .str "P"), ("user_id", .str "customer")]⟩ : ProducerMessage)
      ∈ SendCaptureMessage ⟨none, "2024-01-01"⟩ "P" "customer" 2500 :=
  send_capture_message_two_messages ⟨none, "2024-01-01"⟩ "P" "customer" 2500 rfl

/-! ## Claim C17 -/

/-- Claim C17 (amended): `Capture` is not idempotent. When the ids of the account rows
are unique, `Capture(pid)` succeeds, the PAYMENT balance of the escrow wallet is
afterwards still at least the amount of the entry, and no balance written leaves
the range of `int64`, a second `Capture(pid)` whose database statements succeed
also succeeds and transfers a second time: PAYMENT has shrunk by twice the
amount, INCOMING has grown by twice the amount, and two rows with that pid have
been appended to the journal. -/
theorem capture_twice_transfers_twice (env1 env2 : CaptureEnv) (db : Store) (pid : String)
    (e : transaction) (q i : Int)
    (hkey : db.accountIDsUnique)
    (hok1 : (Capture env1 db pid).result = .ok ())
    (hf2 : env2.faultless)
    (he : fetchTransaction QueryFault.none ⟨db, false⟩ pid = .ok e)
    (hq : db.balance e.dstAccountWalletID "PAYMENT" = some q)
    (hi : db.balance e.finalDstMerchantWalletID "INCOMING" = some i)
    (hstill : ∀ q1, (Capture env1 db pid).db.balance e.dstAccountWalletID "PAYMENT" = some q1 →
      e.amount ≤ q1)
    (hfit : isInt64 (q - e.amount) ∧ isInt64 (q - 2 * e.amount) ∧
      isInt64 (i + e.amount) ∧ isInt64 (i + 2 * e.amount)) :
    (Capture env2 (Capture env1 db pid).db pid).result = .ok () ∧
    (Capture env2 (Capture env1 db pid).db pid).db.balance e.dstAccountWalletID "PAYMENT"
      = some (q - 2 * e.amount) ∧
    (Capture env2 (Capture env1 db pid).db pid).db.balance e.finalDstMerchantWalletID "INCOMING"
      = some (i + 2 * e.amount) ∧
    ∃ row1 row2,
      (Capture env2 (Capture env1 db pid).db pid).db.transactions
        = db.transactions ++ [row1, row2] ∧
      row1.pid = pid ∧ row2.pid = pid := by
  obtain ⟨hf1, hf2', hf3, hf4⟩ := hfit
  obtain ⟨e1, src, dst, cw, mw, he1, hsrc, hdst, hcw, hmw, hne, -, hw, ha, ht, -⟩ :=
    capture_ok_effect hok1
  obtain rfl : e1 = e := by
    have := (fetchTransaction_ok he).2.2
    simp only at this
    rw [he1] at this
    exact Option.some.inj this
  have hep : e1.pid = pid := by
    have := List.find?_some he1
    simpa using this
  have hsc : src.cents = q := by simpa [Store.balance, hsrc] using hq
  have hdc : dst.cents = i := by simpa [Store.balance, hdst] using hi
  rw [hsc, hdc, wrap64_of_isInt64 hf1, wrap64_of_isInt64 hf3] at ha
  have hs := (find_accountType hsrc).1
  have hd := (find_accountType hdst).1
  generalize Capture env1 db pid = C1 at hok1 hw ha ht hstill ⊢
  -- rows read by the second capture
  have hsrc1 := find_after_transfer hkey hs hd (q - e1.amount) (i + e1.amount)
    e1.dstAccountWalletID "PAYMENT" hsrc
  rw [if_neg hne, if_pos rfl, ← ha] at hsrc1
  have hdst1 := find_after_transfer hkey hs hd (q - e1.amount) (i + e1.amount)
    e1.finalDstMerchantWalletID "INCOMING" hdst
  rw [if_pos rfl, ← ha] at hdst1
  have he2 : C1.db.transactions.find? (fun t => t.pid == pid) = some e1 := by
    rw [ht, List.find?_append, he1]; rfl
  have hge2 : ¬ ({ src with cents := q - e1.amount } : account).cents < e1.amount := by
    have := hstill (q - e1.amount) (by simp [Store.balance, hsrc1])
    simp only
    omega
  have hok2 := capture_faultless_ok hf2 he2 hsrc1 hdst1 (hw ▸ hcw) (hw ▸ hmw) hge2
  obtain ⟨e2, src2, dst2, cw2, mw2, he2', hsrc2, hdst2, -, -, hne2, -, -, ha2, ht2, -⟩ :=
    capture_ok_effect hok2
  obtain rfl := Option.some.inj (he2.symm.trans he2')
  obtain rfl := Option.some.inj (hsrc1.symm.trans hsrc2)
  obtain rfl := Option.some.inj (hdst1.symm.trans hdst2)
  have hkey1 : (C1.db.accounts.map (fun a => a.ID)).Nodup := by
    rw [ha, updateCents_ids, updateCents_ids]; exact hkey
  have hs1 := (find_accountType hsrc1).1
  have hd1 := (find_accountType hdst1).1
  generalize Capture env2 C1.db pid = C2 at hok2 ha2 ht2 ⊢
  refine ⟨hok2, ?_, ?_, ?_⟩
  · rw [Store.balance, ha2, balance_after_transfer hkey1 hs1 hd1 _ _ _ _ hsrc1, if_neg hne2,
      if_pos rfl]
    show some (wrap64 (q - e1.amount - e1.amount)) = _
    rw [wrap64_of_isInt64 (by unfold isInt64 at *; omega)]
    congr 1; omega
  · rw [Store.balance, ha2, balance_after_transfer hkey1 hs1 hd1 _ _ _ _ hdst1, if_pos rfl]
    show some (wrap64 (i + e1.amount + e1.amount)) = _
    rw [wrap64_of_isInt64 (by unfold isInt64 at *; omega)]
    congr 1; omega
  · rw [ht2, ht, List.append_assoc]
    exact ⟨_, _, rfl, hep, hep⟩

/-- Claim C17, counterexample: both captures succeed, the PAYMENT balance after the
first is still the amount, and INCOMING ends at the smallest `int64`, not at its
first balance plus twice the amount. -/
theorem capture_twice_overflow :
    (Capture (CaptureEnv.healthy "2024-01-01") twiceOverflowStore "P").result = .ok () ∧
    (Capture (CaptureEnv.healthy "2024-01-01") twiceOverflowStore "P").db.balance 1 "PAYMENT"
      = some 1 ∧
    (Capture (CaptureEnv.healthy "2024-01-02")
      (Capture (CaptureEnv.healthy "2024-01-01") twiceOverflowStore "P").db "P").result
        = .ok () ∧
    twiceOverflowStore.balance 2 "INCOMING" = some 9223372036854775806 ∧
    (Capture (CaptureEnv.healthy "2024-01-02")
      (Capture (CaptureEnv.healthy "2024-01-01") twiceOverflowStore "P").db "P").db.balance
        2 "INCOMING" = some (-9223372036854775808) ∧
    (Capture (CaptureEnv.healthy "2024-01-02")
      (Capture (CaptureEnv.healthy "2024-01-01") twiceOverflowStore "P").db "P").db.balance
        2 "INCOMING" ≠ some (9223372036854775806 + 2 * 1) := by
  decide

/-- Claim C17, witness: two authorizations of 2500 cents in escrow, the first one
captured twice. -/
theorem capture_twice_transfers_twice_witness :
    (Capture (CaptureEnv.healthy "2024-01-02")
      (Capture (CaptureEnv.healthy "2024-01-01") twiceStore "P").db "P").result = .ok () ∧
    (Capture (CaptureEnv.healthy "2024-01-02")
      (Capture (CaptureEnv.healthy "2024-01-01") twiceStore "P").db "P").db.balance 1 "PAYMENT"
        = some (5000 - 2 * 2500) ∧
    (Capture (CaptureEnv.healthy "2024-01-02")
      (Capture (CaptureEnv.healthy "2024-01-01") twiceStore "P").db "P").db.balance 2 "INCOMING"
        = some (0 + 2 * 2500) :=
  have h := capture_twice_transfers_twice (CaptureEnv.healthy "2024-01-01")
    (CaptureEnv.healthy "2024-01-02") twiceStore "P"
    ⟨1, "P", "customer", "customer", 1, 1, "DEFAULT", "PAYMENT", 2, 2500⟩ 5000 0
    (by decide) (by decide) (by decide) (by decide) (by decide) (by decide)
    (by
      intro q1 hq1
      obtain rfl : (2500 : Int) = q1 := Option.some.inj hq1
      decide)
    (by decide)
  ⟨h.1, h.2.1, h.2.2.1⟩

/-! ## Claim C18 -/

/-- Claim C18 (amended): after an `Authorize` call that returns success with pid `P`, a
`Capture(P)` issued on the resulting store with all database statements
succeeding returns success, provided the ids of the account rows are unique, no
earlier journal row has pid `P`, the PAYMENT balance of the customer was not
negative and its sum with the amount is an `int64`, and the wallet of the
merchant has an INCOMING account. -/
theorem authorized_payment_capturable (envA : AuthorizeEnv) (envC : CaptureEnv) (db : Store)
    (p : AuthorizePayload) (P : String) (q i : Int)
    (hkey : db.accountIDsUnique)
    (hokA : (Authorize envA db p).result = .ok P)
    (hfC : envC.faultless)
    (hfresh : ∀ t ∈ db.transactions, t.pid ≠ P)
    (hq : db.userBalance p.CustomerWalletUserID "PAYMENT" = some q)
    (hnn : 0 ≤ q) (hfit : isInt64 (q + p.Cents))
    (hinc : db.userBalance p.MerchantWalletUserID "INCOMING" = some i) :
    (Capture envC (Authorize envA db p).db P).result = .ok () := by
  obtain ⟨mw, cw, src, dst, hmw, hcw, hsrc, hdst, hne, -, hpid, hw, ha, ht, -⟩ :=
    authorize_ok_effect hokA
  obtain ⟨cw', dst', hcw', hdst', hdc⟩ := userBalance_some hq
  obtain rfl : cw = cw' := Option.some.inj (hcw.symm.trans hcw')
  obtain rfl : dst = dst' := Option.some.inj (hdst.symm.trans hdst')
  obtain ⟨mw', inc, hmw', hinc', -⟩ := userBalance_some hinc
  obtain rfl : mw = mw' := Option.some.inj (hmw.symm.trans hmw')
  rw [hdc, wrap64_of_isInt64 hfit] at ha
  generalize Authorize envA db p = A at hokA hw ha ht ⊢
  have hs := (find_accountType hsrc).1
  have hd := (find_accountType hdst).1
  have hit := (find_accountType hinc').2.2
  have hst := (find_accountType hsrc).2.2
  have hdt := (find_accountType hdst).2.2
  have hcu : cw.userID = p.CustomerWalletUserID := by
    have := List.find?_some hcw
    simpa using this
  have hsrcA := find_after_transfer hkey hs hd (wrap64 (src.cents - p.Cents)) (q + p.Cents)
    cw.ID "PAYMENT" hdst
  rw [if_pos rfl, ← ha] at hsrcA
  have hincA := find_after_transfer hkey hs hd (wrap64 (src.cents - p.Cents)) (q + p.Cents)
    mw.ID "INCOMING" hinc'
  have hne1 : inc ≠ dst := by
    intro e; rw [e, hdt] at hit; exact absurd hit (by decide)
  have hne2 : inc ≠ src := by
    intro e; rw [e, hst] at hit; exact absurd hit (by decide)
  rw [if_neg hne1, if_neg hne2, ← ha] at hincA
  have heA : A.db.transactions.find? (fun t => t.pid == P) =
      some { ID := (db.transactions.length : Int) + 1, pid := envA.pid, srcUserID := cw.userID,
             dstUserID := cw.userID, srcAccountWalletID := cw.ID, dstAccountWalletID := cw.ID,
             srcAccountType := "DEFAULT", dstAccountType := "PAYMENT",
             finalDstMerchantWalletID := mw.ID, amount := p.Cents } := by
    have hnone : db.transactions.find? (fun t => t.pid == P) = none := by
      rw [List.find?_eq_none]
      intro t ht
      simpa using hfresh t ht
    rw [ht, List.find?_append, hnone]
    simp [hpid]
  have hcwA : A.db.wallets.find? (fun w => w.userID == cw.userID) = some cw := by
    rw [hw, hcu]; exact hcw
  have hmwm : mw ∈ db.wallets := List.mem_of_find?_eq_some hmw
  obtain ⟨mw2, hmw2⟩ : ∃ mw2, A.db.wallets.find? (fun w => w.ID == mw.ID) = some mw2 := by
    rw [hw]
    cases hf : db.wallets.find? (fun w => w.ID == mw.ID) with
    | none =>
      rw [List.find?_eq_none] at hf
      exact absurd (hf mw hmwm) (by simp)
    | some x => exact ⟨x, rfl⟩
  exact capture_faultless_ok hfC heA hsrcA hincA hcwA hmw2 (by simp only; omega)

/-- Claim C18, counterexample: the merchant has a wallet but no INCOMING account;
`Authorize` succeeds and the `Capture` that follows fails NotFound. -/
theorem authorized_payment_not_capturable :
    (Authorize (AuthorizeEnv.healthy "P") noIncomingStore
      ⟨"customer", "merchant", 2500, "USD"⟩).result = .ok "P" ∧
    (Capture (CaptureEnv.healthy "2024-01-01")
      (Authorize (AuthorizeEnv.healthy "P") noIncomingStore
        ⟨"customer", "merchant", 2500, "USD"⟩).db "P").result
        = .error ⟨.NotFound, ErrNoRows⟩ := by
  decide

/-- Claim C18, witness: the authorization of the scenario is capturable. -/
theorem authorized_payment_capturable_witness :
    (Capture (CaptureEnv.healthy "2024-01-01")
      (Authorize (AuthorizeEnv.healthy "P") scenarioStore
        ⟨"customer", "merchant", 2500, "USD"⟩).db "P").result = .ok () :=
  authorized_payment_capturable (AuthorizeEnv.healthy "P") (CaptureEnv.healthy "2024-01-01")
    scenarioStore ⟨"customer", "merchant", 2500, "USD"⟩ "P" 0 0
    (by decide) (by decide) (by decide) (by decide) (by decide) (by decide) (by decide)
    (by decide)

/-! ## Claim C20 -/

/-- Claim C20, what the code does: when `Capture(pid)` reaches the journal append, the
append fails with `err` and the rollback succeeds, the source does not return
`err`; it goes on to `tx.Commit()` on the rolled back transaction and returns
Internal with the message of `sql.ErrTxDone`. The store is as before the call and
the emitter is not called. -/
theorem capture_append_failure_returns_tx_done (env : CaptureEnv) (db : Store) (pid : String)
    (e : transaction) (src dst : account) (cw mw : wallet) (err : Status)
    (hb : env.begin = none)
    (he : fetchTransaction env.fetchTransaction ⟨db, false⟩ pid = .ok e)
    (hsrc : fetchAccount env.srcAccount ⟨db, false⟩ e.dstAccountWalletID "PAYMENT" = .ok src)
    (hdst : fetchAccount env.dstMerchantAccount ⟨db, false⟩ e.finalDstMerchantWalletID
      "INCOMING" = .ok dst)
    (hcw : fetchWallet env.customerWallet ⟨db, false⟩ e.srcUserID = .ok cw)
    (hmw : fetchWalletWithWalletID env.merchantWallet ⟨db, false⟩ e.finalDstMerchantWalletID
      = .ok mw)
    (htr : (transfer env.transfer ⟨db, false⟩ src dst e.amount).1 = none)
    (hcr : (createTransaction env.create (transfer env.transfer ⟨db, false⟩ src dst e.amount).2
      e.pid src dst cw mw mw e.amount).1 = some err)
    (hrb : env.rollback = none) :
    (Capture env db pid).result = .error ⟨.Internal, ErrTxDone⟩ ∧
    (Capture env db pid).db = db ∧
    (Capture env db pid).calls = [.Begin, .Rollback, .Commit] ∧
    (Capture env db pid).sent = [] := by
  have hd1 := transfer_done env.transfer ⟨db, false⟩ src dst e.amount
  rcases htr' : transfer env.transfer ⟨db, false⟩ src dst e.amount with ⟨r, tx1⟩
  rw [htr'] at htr hcr hd1
  simp only at htr hcr hd1
  subst htr
  have hd2 := createTransaction_done env.create tx1 e.pid src dst cw mw mw e.amount
  rcases hcr' : createTransaction env.create tx1 e.pid src dst cw mw mw e.amount with ⟨r2, tx2⟩
  rw [hcr'] at hcr hd2
  simp only at hcr hd2
  subst hcr
  have hnd : tx2.done = false := hd2.trans hd1
  simp [Capture, Begin, hb, he, hsrc, hdst, hcw, hmw, htr', hcr', Tx.Rollback, hnd, hrb,
    captureCommit, Tx.Commit]

/-- Claim C20, failing input: the append fails with "duplicate entry for key pid" on
the store holding the authorization of the scenario; `Capture` returns Internal
with the message of `sql.ErrTxDone` instead. -/
theorem capture_append_failure_returns_tx_done_witness :
    (createTransaction ⟨none, some "duplicate entry for key pid"⟩
      (transfer TransferFault.none ⟨authorizedStore, false⟩ ⟨2, 2500, "PAYMENT", 1⟩
        ⟨3, 0, "INCOMING", 2⟩ 2500).2 "P" ⟨2, 2500, "PAYMENT", 1⟩ ⟨3, 0, "INCOMING", 2⟩
      ⟨1, "customer", "CUSTOMER"⟩ ⟨2, "merchant", "MERCHANT"⟩ ⟨2, "merchant", "MERCHANT"⟩ 2500).1
      = some ⟨.Internal, "duplicate entry for key pid"⟩ ∧
    (Capture { CaptureEnv.healthy "2024-01-01" with
        create := ⟨none, some "duplicate entry for key pid"⟩ } authorizedStore "P").result
      = .error ⟨.Internal, "sql: transaction has already been committed or rolled back"⟩ ∧
    (Capture { CaptureEnv.healthy "2024-01-01" with
        create := ⟨none, some "duplicate entry for key pid"⟩ } authorizedStore "P").db
      = authorizedStore :=
  have h := capture_append_failure_returns_tx_done
    { CaptureEnv.healthy "2024-01-01" with create := ⟨none, some "duplicate entry for key pid"⟩ }
    authorizedStore "P" ⟨1, "P", "customer", "customer", 1, 1, "DEFAULT", "PAYMENT", 2, 2500⟩
    ⟨2, 2500, "PAYMENT", 1⟩ ⟨3, 0, "INCOMING", 2⟩ ⟨1, "customer", "CUSTOMER"⟩
    ⟨2, "merchant", "MERCHANT"⟩ ⟨.Internal, "duplicate entry for key pid"⟩
    (by decide) (by decide) (by decide) (by decide) (by decide) (by decide) (by decide)
    (by decide) (by decide)
  ⟨by decide, h.1, h.2.1⟩

/-! ## Claim C21 -/

/-- Claim C21: from a store with an empty journal and customer PAYMENT balance 0 (the
ids of the account rows and of the wallet rows being unique and the balances
`int64` values), after any sequence of successful `Authorize` calls with
positive amounts, each generating a pid that is not yet in the journal, and
successful `Capture` calls of pids not yet captured, the PAYMENT balance of the
customer equals the sum of the amounts of the authorized but not yet captured
payments of that customer; and a `Capture` of such a payment never fails with
Aborted, whatever the database does. -/
theorem escrow_invariant (db0 : Store) (customer : String) (ops : List Op)
    (hkey : db0.accountIDsUnique) (hwkey : db0.walletIDsUnique)
    (hint : ∀ a ∈ db0.accounts, isInt64 a.cents)
    (hJ : db0.transactions = [])
    (hP : db0.userBalance customer "PAYMENT" = some 0)
    (hrun : admissibleRun db0 ops) :
    (runOps db0 ops).userBalance customer "PAYMENT"
      = some (escrowOf (runOps db0 ops).transactions customer) ∧
    ∀ (env : CaptureEnv) (pid : String) (t : transaction),
      t ∈ (runOps db0 ops).transactions → t.isAuthorize = true → t.srcUserID = customer →
      t.pid = pid → captured (runOps db0 ops).transactions pid = false →
      ∀ err, (Capture env (runOps db0 ops) pid).result = .error err → err.code ≠ .Aborted := by
  obtain ⟨cw, -, inv0⟩ := escrow_initial hkey hwkey hint hJ hP
  have inv := escrow_run ops db0 inv0 hrun
  generalize runOps db0 ops = db at inv ⊢
  constructor
  · rw [userBalance_of_wallet inv.wallet]; exact inv.payment
  · intro env pid t htm hta htu htp hnc err herr hc
    obtain ⟨e, src, he, hsrc, hlt⟩ := capture_aborted_inv herr hc
    have hem : e ∈ db.transactions := List.mem_of_find?_eq_some he
    have hep : e.pid = pid := by
      have := List.find?_some he
      simpa using this
    have hea := inv.first pid e he
    have het : e = t := by
      refine List.inj_on_of_nodup_map inv.pids (List.mem_filter.mpr ⟨hem, hea⟩)
        (List.mem_filter.mpr ⟨htm, hta⟩) ?_
      show e.pid = t.pid
      rw [hep, htp]
    subst het
    obtain ⟨-, w, hwf, hew⟩ := inv.authRows e hem hea
    rw [htu] at hwf
    obtain rfl : w = cw := Option.some.inj (hwf.symm.trans inv.wallet)
    obtain ⟨x, hx, hxc⟩ := balance_some inv.payment
    rw [hew] at hsrc
    obtain rfl : src = x := Option.some.inj (hsrc.symm.trans hx)
    have hle := escrowTerm_le_sum (captured db.transactions) customer db.transactions
      (fun s hs ha => (inv.authRows s hs ha).1) e hem
    have hterm : escrowTerm (captured db.transactions) customer e = e.amount := by
      simp [escrowTerm, hea, htu, hep, hnc]
    rw [hterm] at hle
    have : escrowOf db.transactions customer = src.cents := hxc.symm
    unfold escrowOf at this
    omega

/-- Claim C21, witness: two authorizations of 2500 and 1000 cents and the capture of
the first leave 1000 cents in escrow. -/
theorem escrow_invariant_witness :
    (runOps scenarioStore escrowOps).userBalance "customer" "PAYMENT"
      = some (escrowOf (runOps scenarioStore escrowOps).transactions "customer") ∧
    escrowOf (runOps scenarioStore escrowOps).transactions "customer" = 1000 :=
  ⟨(escrow_invariant scenarioStore "customer" escrowOps (by decide) (by decide) (by decide)
      rfl (by decide)
      ⟨⟨by decide, by decide, by decide⟩, ⟨by decide, by decide, by decide⟩,
        ⟨by decide, by decide⟩, trivial⟩).1,
   by decide⟩

/-! ## Claim C22 -/

/-- Claim C22: when the ids of the account rows are unique, a successful `Authorize`
leaves every account row as it was except the DEFAULT and PAYMENT accounts of the
wallet of the customer, and a successful `Capture` leaves every account row as it
was except the PAYMENT account of the wallet `e.dst_wallet_id` and the INCOMING
account of the wallet `e.final_dst_merchant_wallet_id` of the entry `e`; no
`Authorize` or `Capture` call, successful or not, changes a wallet row or the
id, wallet id or account type of any account row. -/
theorem frame_of_authorize_and_capture (db : Store) (hkey : db.accountIDsUnique) :
    (∀ (env : AuthorizeEnv) (p : AuthorizePayload) (pid : String),
      (Authorize env db p).result = .ok pid →
      ∃ customerWallet, db.walletOf p.CustomerWalletUserID = some customerWallet ∧
        ∀ (k : Nat) (a : account), db.accounts[k]? = some a →
          ¬ (a.walletID = customerWallet.ID ∧
              (a.accountType = "DEFAULT" ∨ a.accountType = "PAYMENT")) →
          (Authorize env db p).db.accounts[k]? = some a) ∧
    (∀ (env : CaptureEnv) (pid : String),
      (Capture env db pid).result = .ok () →
      ∃ e, fetchTransaction QueryFault.none ⟨db, false⟩ pid = .ok e ∧
        ∀ (k : Nat) (a : account), db.accounts[k]? = some a →
          ¬ (a.walletID = e.dstAccountWalletID ∧ a.accountType = "PAYMENT") →
          ¬ (a.walletID = e.finalDstMerchantWalletID ∧ a.accountType = "INCOMING") →
          (Capture env db pid).db.accounts[k]? = some a) ∧
    (∀ (env : AuthorizeEnv) (p : AuthorizePayload),
      (Authorize env db p).db.wallets = db.wallets ∧
      (Authorize env db p).db.accounts.map account.key = db.accounts.map account.key) ∧
    (∀ (env : CaptureEnv) (pid : String),
      (Capture env db pid).db.wallets = db.wallets ∧
      (Capture env db pid).db.accounts.map account.key = db.accounts.map account.key) := by
  refine ⟨?_, ?_, ?_, ?_⟩
  · intro env p pid hok
    obtain ⟨mw, cw, src, dst, -, hcw, hsrc, hdst, -, -, -, -, ha, -⟩ := authorize_ok_effect hok
    refine ⟨cw, hcw, ?_⟩
    intro k a hk hnot
    obtain ⟨hs, hsw, hst⟩ := find_accountType hsrc
    obtain ⟨hd, hdw, hdt⟩ := find_accountType hdst
    rw [ha]
    refine getElem?_after_transfer hkey hs hd _ _ k hk ?_ ?_
    · intro e; exact hnot ⟨e ▸ hsw, Or.inl (e ▸ hst)⟩
    · intro e; exact hnot ⟨e ▸ hdw, Or.inr (e ▸ hdt)⟩
  · intro env pid hok
    obtain ⟨e, src, dst, cw, mw, he, hsrc, hdst, -, -, -, -, -, ha, -⟩ := capture_ok_effect hok
    refine ⟨e, by simp [fetchTransaction, QueryFault.none, he], ?_⟩
    intro k a hk hn1 hn2
    obtain ⟨hs, hsw, hst⟩ := find_accountType hsrc
    obtain ⟨hd, hdw, hdt⟩ := find_accountType hdst
    rw [ha]
    refine getElem?_after_transfer hkey hs hd _ _ k hk ?_ ?_
    · intro e1; exact hn1 ⟨e1 ▸ hsw, e1 ▸ hst⟩
    · intro e1; exact hn2 ⟨e1 ▸ hdw, e1 ▸ hdt⟩
  · intro env p
    rcases authorize_db_unchanged_or_ok env db p with h | ⟨pid, hok⟩
    · rw [h]; exact ⟨rfl, rfl⟩
    · obtain ⟨mw, cw, src, dst, -, -, -, -, -, -, -, hw, ha, -⟩ := authorize_ok_effect hok
      exact ⟨hw, by rw [ha, updateCents_keys, updateCents_keys]⟩
  · intro env pid
    rcases capture_db_unchanged_or_ok env db pid with h | hok
    · rw [h]; exact ⟨rfl, rfl⟩
    · obtain ⟨e, src, dst, cw, mw, -, -, -, -, -, -, -, hw, ha, -⟩ := capture_ok_effect hok
      exact ⟨hw, by rw [ha, updateCents_keys, updateCents_keys]⟩

/-- Claim C22, witness: the authorization of the scenario leaves the INCOMING account
of the merchant, the third account row, as it was. -/
theorem frame_of_authorize_and_capture_witness :
    (Authorize (AuthorizeEnv.healthy "P") scenarioStore
      ⟨"customer", "merchant", 2500, "USD"⟩).db.accounts[2]? = some ⟨3, 0, "INCOMING", 2⟩ :=
  match (frame_of_authorize_and_capture scenarioStore (by decide)).1 (AuthorizeEnv.healthy "P")
      ⟨"customer", "merchant", 2500, "USD"⟩ "P" (by decide) with
  | ⟨customerWallet, hw, h⟩ =>
    have hcw : customerWallet = ⟨1, "customer", "CUSTOMER"⟩ :=
      (Option.some.inj hw).symm
    h 2 ⟨3, 0, "INCOMING", 2⟩ (by decide) (by rw [hcw]; decide)

end mm
